import Mathlib

/-!
Kiosk front end: the navigation stepper and the idle timer of `static/js/app.js`.

A shallow embedding of the `KioskApp` class: the phone validation, the
step validation, the screen/step navigation, the session reset and the idle
timer, over an explicit model of the page (form fields, element ids, their
class lists and the first control of each element), of the pending
`setTimeout` callbacks, of the mutation observer that focuses the first
control of a screen, and of the requests handed to `fetch`; runs of the
application are sequences of actions from the state that the constructor
leaves. The request client and the offline queue of `static/js/api.js` and the
voice toggle of `static/js/accessibility.js` are embedded as functions.
-/

namespace Kiosk

/-! ## Regular expressions (the fragment used by `validatePhone`) -/

/-- Abstract syntax of the regular-expression fragment that occurs in `app.js`. -/
inductive Regex where
  /-- the empty pattern -/
  | empty : Regex
  /-- a literal character, such as `0`, `1` or `-` -/
  | char (c : Char) : Regex
  /-- the class `[0-9]` -/
  | digit : Regex
  /-- concatenation `ab` -/
  | seq (a b : Regex) : Regex
  /-- the greedy option `a?` -/
  | opt (a : Regex) : Regex
  /-- the greedy bounded repetition `a{lo,lo+extra}` -/
  | rep (a : Regex) (lo extra : Nat) : Regex
  deriving Repr, DecidableEq

/-- Up to `extra` greedy rounds of a matcher `f`: the longer alternative is tried first,
backtracking into the shorter one. -/
def upToMatch (f : List Char → (List Char → Bool) → Bool) :
    Nat → List Char → (List Char → Bool) → Bool
  | 0, s, k => k s
  | extra + 1, s, k => f s (fun r => upToMatch f extra r k) || k s

/-- Bounded repetition of a matcher `f`: exactly `lo` rounds, then up to `extra` more. -/
def iterMatch (f : List Char → (List Char → Bool) → Bool) :
    Nat → Nat → List Char → (List Char → Bool) → Bool
  | 0, extra, s, k => upToMatch f extra s k
  | lo + 1, extra, s, k => f s (fun r => iterMatch f lo extra r k)

/-- Backtracking matcher: `r.run s k` holds when `r` matches a prefix of `s` and the
continuation `k` accepts what is left. -/
def Regex.run : Regex → List Char → (List Char → Bool) → Bool
  | .empty, s, k => k s
  | .char c, s, k =>
    match s with
    | [] => false
    | x :: xs => x == c && k xs
  | .digit, s, k =>
    match s with
    | [] => false
    | x :: xs => x.isDigit && k xs
  | .seq a b, s, k => a.run s (fun r => b.run r k)
  | .opt a, s, k => a.run s k || k s
  | .rep a lo extra, s, k => iterMatch (fun t j => a.run t j) lo extra s k

/-- The method `RegExp.prototype.test` for a pattern anchored as `^...$`: the whole input is matched. -/
def Regex.test (r : Regex) (s : List Char) : Bool :=
  r.run s (fun rest => rest.isEmpty)

/-- Concatenation of a list of patterns. -/
def Regex.cat : List Regex → Regex
  | [] => .empty
  | [r] => r
  | r :: rs => .seq r (Regex.cat rs)

/-- The literal `/^01[0-9]-?[0-9]{3,4}-?[0-9]{4}$/` of `validatePhone`. -/
def phoneRegex : Regex :=
  Regex.cat [.char '0', .char '1', .digit, .opt (.char '-'), .rep .digit 3 1,
    .opt (.char '-'), .rep .digit 4 0]

/-- The call `phone.replace(/[^\d]/g, '')`: every character that is not an ASCII digit is deleted. -/
def stripNonDigits (s : List Char) : List Char :=
  s.filter Char.isDigit

/-- The method `KioskApp.validatePhone`. -/
def validatePhone (phone : String) : Bool :=
  phoneRegex.test (stripNonDigits phone.data)

/-- The phone format in the words of the specification: an 11-digit mobile number that
starts with "01", written either as 11 consecutive digits or hyphen-separated in groups
of 3-4-4. -/
def specMobileNumber (p : String) : Bool :=
  let ds := p.data.filter Char.isDigit
  ds.length == 11 && ['0', '1'].isPrefixOf ds &&
    (p.data == ds || p.data == ds.take 3 ++ '-' :: (ds.drop 3).take 4 ++ '-' :: ds.drop 7)

/-! ## Strings -/

/-- The code points removed by `String.prototype.trim`: ECMAScript `WhiteSpace` and
`LineTerminator`. -/
def isJsWhiteSpace (c : Char) : Bool :=
  let n := c.toNat
  n == 0x09 || n == 0x0A || n == 0x0B || n == 0x0C || n == 0x0D || n == 0x20 || n == 0xA0 ||
  n == 0x1680 || (0x2000 ≤ n && n ≤ 0x200A) || n == 0x2028 || n == 0x2029 || n == 0x202F ||
  n == 0x205F || n == 0x3000 || n == 0xFEFF

/-- The method `String.prototype.trim`. -/
def jsTrim (s : String) : String :=
  String.mk ((s.data.dropWhile isJsWhiteSpace).rdropWhile isJsWhiteSpace)

/-- Truthiness of a JavaScript string: only the empty string is falsy. -/
def truthy (s : String) : Bool := s != ""

/-- The functions that every object inherits from `Object.prototype` under their own
name. -/
def objectPrototypeFunctions : List String :=
  [ "hasOwnProperty", "isPrototypeOf", "propertyIsEnumerable", "toLocaleString", "toString",
    "valueOf", "__defineGetter__", "__defineSetter__", "__lookupGetter__", "__lookupSetter__" ]

/-- The text that the member `name` inherited from `Object.prototype` is converted to where
the code prints it, `none` when `Object.prototype` has no such member. All these members are
truthy: `constructor` is the function `Object`, `__proto__` gives the prototype object, the
others are functions; a built-in function prints as V8 prints it. An object literal finds
these members after its own keys. -/
def objectPrototypeText (name : String) : Option String :=
  if name = "constructor" then some "function Object() { [native code] }"
  else if name = "__proto__" then some "[object Object]"
  else if name ∈ objectPrototypeFunctions then some ("function " ++ name ++ "() { [native code] }")
  else none

/-! ## The state: `this`, the page and the browser -/

/-- The object stored under `sessionData.patient` by `saveStepData`. -/
structure Patient where
  name : String
  birth : String
  phone : String
  deriving DecidableEq, Repr

/-- The object `this.sessionData`: the keys the code ever writes; `none` is an absent key. -/
structure SessionData where
  id : Option String
  patient : Option Patient
  symptoms : Option (List String)
  department : Option String
  deriving DecidableEq, Repr

/-- The object literal `{}`. -/
def SessionData.empty : SessionData :=
  { id := none, patient := none, symptoms := none, department := none }

/-- The fields of a `KioskApp` instance. -/
structure KioskApp where
  currentScreen : String
  currentStep : String
  sessionData : SessionData
  /-- the handle returned by `setTimeout`, or `null` -/
  idleTimer : Option Nat
  /-- the handle returned by `setTimeout`, or `null` -/
  warningTimer : Option Nat
  sessionTimeout : Nat
  warningTime : Nat
  /-- the text of the live region created by `setupScreenReader`; `none` before it exists -/
  liveRegion : Option String
  deriving DecidableEq, Repr

/-- The kind of a control that the selector `button, input, select` matches. -/
inductive Control where
  | button
  | input
  | select
  deriving DecidableEq, Repr

/-- An element of the page as the guarded lookups see it: its id (empty when it has none),
its class list and, for the observer of `setupFocusManagement`, the first control below it
that `querySelector('button, input, select')` finds (`none` when there is none; the code
never adds or removes an element below a screen). -/
structure Element where
  id : String
  classes : List String
  firstFocusable : Option Control := none
  deriving DecidableEq, Repr

/-- A checkbox matched by `.symptom-item input`. -/
structure Checkbox where
  value : String
  checked : Bool
  deriving DecidableEq, Repr

/-- The page. `elements` lists the elements of the page in document order; it decides the
lookups that the code guards with `if (target)`. The controls and text nodes that the code
dereferences without a guard exist in every page on which the code runs, and their
contents are the remaining fields (the `hidden` class of `#loading` and the `show` class of
`#timeout-modal` are the two flags; these elements and the labels of the symptom boxes are
not screens, so the observer of `setupFocusManagement` does not watch them). `mutations` is
the queue of that observer: the positions in `elements` of the targets of the records that
are not delivered yet, oldest first. The markup itself is not part of the sources. -/
structure Document where
  elements : List Element
  mutations : List Nat := []
  patientName : String
  patientBirth : String
  patientPhone : String
  symptomInputs : List Checkbox
  deptLocation : String
  queueNum : String
  waitTime : String
  loadingHidden : Bool
  timeoutModalShown : Bool
  deriving DecidableEq, Repr

/-- The callbacks that `app.js` hands to `setTimeout`: the two of `resetIdleTimer`, the one
of `showTimeoutWarning` and the one of the observer of `setupFocusManagement`, which
focuses the first control of a screen. -/
inductive Callback where
  | showTimeoutWarning
  | handleSessionTimeout
  | closeTimeoutModal
  | focusFirst (control : Control)
  deriving DecidableEq, Repr

/-- A pending `setTimeout`: its handle, the time (ms) at which it is due and its callback. -/
structure Timer where
  id : Nat
  due : Nat
  callback : Callback
  deriving DecidableEq, Repr

/-- The body of a request sent by `app.js`. -/
inductive Body where
  /-- the JSON of `sessionData` extended with `queue_number` -/
  | reception (data : SessionData) (queueNumber : Nat)
  /-- the JSON object with the single key `session_id` -/
  | sessionStart (sessionId : String)
  deriving DecidableEq, Repr

/-- A call of `fetch`. -/
structure Request where
  url : String
  method : String
  body : Option Body
  deriving DecidableEq, Repr

/-- A call of `speechSynthesis.speak`. -/
structure Utterance where
  text : String
  lang : String
  deriving DecidableEq, Repr

/-- The browser around the application. -/
structure Browser where
  /-- the clock, in milliseconds -/
  now : Nat
  /-- the handle the next `setTimeout` returns -/
  nextTimerId : Nat
  /-- the pending timers -/
  timers : List Timer
  /-- the calls of `fetch`, oldest first -/
  requests : List Request
  /-- the test `'speechSynthesis' in window` -/
  hasSpeechSynthesis : Bool
  /-- truthiness of the expression `accessibility.voiceEnabled` -/
  voiceEnabled : Bool
  /-- the value of `i18n.currentLanguage`, empty when it is falsy -/
  currentLanguage : String
  /-- the utterances handed to `speechSynthesis.speak`, oldest first -/
  utterances : List Utterance
  /-- the lines written with `console.error`, oldest first -/
  consoleErrors : List String
  /-- the values that the coming calls of `Math.random` lead to -/
  randoms : List Nat
  /-- for the coming calls of `focus()` on a first control, whether the browser dispatches a
  `focus` event: the control can take the focus and does not have it yet (this depends on the
  style sheet and on where the focus is, which the sources do not fix) -/
  focusMoves : List Bool := []
  deriving DecidableEq, Repr

/-- The whole state on which a method of `KioskApp` runs. -/
structure World where
  app : KioskApp
  doc : Document
  env : Browser
  deriving DecidableEq, Repr

/-! ## The page -/

/-- The lookup `document.getElementById(id)`: the first element with that id; no element has
the empty id. -/
def Document.getElementById (d : Document) (id : String) : Option Element :=
  if id = "" then none else d.elements.find? (fun e => e.id == id)

/-- The positions, in document order, of the elements that satisfy `p` and that the observer
of `setupFocusManagement` watches. It watches the elements that carry the class `screen`
when the application is constructed, and no statement of the code adds or removes that
class, so these are the elements that carry it. -/
def watchedPositions (p : Element → Bool) (es : List Element) : List Nat :=
  (es.enum.filter (fun ie => p ie.2 && decide ("screen" ∈ ie.2.classes))).map Prod.fst

/-- The position of the first element with the given id, when the observer watches it. -/
def watchedById (id : String) (es : List Element) : List Nat :=
  match es.enum.find? (fun ie => ie.2.id == id) with
  | some ie => if "screen" ∈ ie.2.classes then [ie.1] else []
  | none => []

/-- The loop `querySelectorAll('.' + sel).forEach(e => e.classList.remove(cls))`. Every call
of `classList.remove` sets the `class` attribute again, also when the class was not there,
so it queues a record for each matched element that the observer watches. -/
def Document.removeClassFromAll (d : Document) (sel cls : String) : Document :=
  { d with
    elements := d.elements.map (fun e =>
      if sel ∈ e.classes then { e with classes := e.classes.filter (fun c => c != cls) } else e)
    mutations := d.mutations ++ watchedPositions (fun e => decide (sel ∈ e.classes)) d.elements }

/-- Adds the class to the first element of the list that carries the id. -/
def addClassFirst (id cls : String) : List Element → List Element
  | [] => []
  | e :: es =>
    if e.id == id then
      (if cls ∈ e.classes then e else { e with classes := e.classes ++ [cls] }) :: es
    else e :: addClassFirst id cls es

/-- The call `target.classList.add(cls)` on the element found by `getElementById(id)`; it
queues a record when the observer watches the element. -/
def Document.addClass (d : Document) (id cls : String) : Document :=
  if id = "" then d
  else
    { d with
      elements := addClassFirst id cls d.elements
      mutations := d.mutations ++ watchedById id d.elements }

/-! ## Timers and requests -/

/-- The call `setTimeout(callback, delay)`: returns the handle and the new state. -/
def setTimeout (cb : Callback) (delay : Nat) (w : World) : Nat × World :=
  (w.env.nextTimerId,
    { w with env := { w.env with
        nextTimerId := w.env.nextTimerId + 1
        timers := w.env.timers ++ [{ id := w.env.nextTimerId, due := w.env.now + delay, callback := cb }] } })

/-- The call `clearTimeout(id)`. -/
def clearTimeout (id : Nat) (w : World) : World :=
  { w with env := { w.env with timers := w.env.timers.filter (fun t => t.id != id) } }

/-- The statement `if (handle) clearTimeout(handle)`: `null` and `0` are falsy. -/
def clearIfSet (handle : Option Nat) (w : World) : World :=
  match handle with
  | none => w
  | some id => if id = 0 then w else clearTimeout id w

/-- The call `fetch(url, options)`, recorded. -/
def fetch (r : Request) (w : World) : World :=
  { w with env := { w.env with requests := w.env.requests ++ [r] } }

/-- The method `KioskApp.resetIdleTimer`. A negative delay counts as zero for `setTimeout`,
which is what the truncated subtraction gives. -/
def resetIdleTimer (w : World) : World :=
  let w := clearIfSet w.app.idleTimer w
  let w := clearIfSet w.app.warningTimer w
  let (wid, w) := setTimeout .showTimeoutWarning ((w.app.sessionTimeout - w.app.warningTime) * 1000) w
  let w := { w with app := { w.app with warningTimer := some wid } }
  let (iid, w) := setTimeout .handleSessionTimeout (w.app.sessionTimeout * 1000) w
  let w := { w with app := { w.app with idleTimer := some iid } }
  match w.app.sessionData.id with
  | none => w
  | some sid =>
    if truthy sid then
      fetch { url := "/api/session/activity/" ++ sid, method := "POST", body := none } w
    else w

/-! ## Announcements -/

/-- The method `KioskApp.announceToScreenReader`. -/
def announceToScreenReader (message : String) (w : World) : World :=
  match w.app.liveRegion with
  | none => w
  | some _ => { w with app := { w.app with liveRegion := some message } }

/-- The method `KioskApp.speak` (the utterance's fixed rate, pitch and volume are left out). -/
def speak (text : String) (w : World) : World :=
  let w :=
    if w.env.hasSpeechSynthesis && w.env.voiceEnabled then
      { w with env := { w.env with utterances := w.env.utterances ++
          [{ text := text,
             lang := if truthy w.env.currentLanguage then w.env.currentLanguage else "ko-KR" }] } }
    else w
  announceToScreenReader text w

/-- The method `KioskApp.showError`. -/
def showError (message : String) (w : World) : World :=
  let w := { w with env := { w.env with consoleErrors := w.env.consoleErrors ++ [message] } }
  announceToScreenReader ("오류: " ++ message) w

/-- The method `KioskApp.showLoading`. -/
def showLoading (visible : Bool) (w : World) : World :=
  if visible then
    speak "처리 중입니다. 잠시만 기다려주세요." { w with doc := { w.doc with loadingHidden := false } }
  else
    { w with doc := { w.doc with loadingHidden := true } }

/-- The text of `announcements[screenName] || screenName + ' 화면입니다.'` in
`announceScreenChange`: the table is read at its own four keys, then at the members it
inherits, and the fallback is taken when both miss. -/
def screenAnnouncement (screenName : String) : String :=
  if screenName = "home" then "홈 화면입니다. 원하는 서비스를 선택해주세요."
  else if screenName = "reception" then "진료 접수 화면입니다. 환자 정보를 입력해주세요."
  else if screenName = "payment" then "진료비 수납 화면입니다."
  else if screenName = "certificate" then "증명서 발급 화면입니다."
  else
    match objectPrototypeText screenName with
    | some text => text
    | none => screenName ++ " 화면입니다."

/-- The method `KioskApp.announceScreenChange`. -/
def announceScreenChange (screenName : String) (w : World) : World :=
  announceToScreenReader (screenAnnouncement screenName) w

/-! ## The stepper -/

/-- The id that `showStep` looks up for a step name. -/
def stepTargetId (stepName : String) : String :=
  if stepName = "symptoms" then "symptoms-input"
  else if stepName = "department" then "department-input"
  else if stepName = "confirmation" then "confirmation"
  else stepName

/-- The method `KioskApp.showStep`. -/
def showStep (stepName : String) (w : World) : World :=
  let w := { w with doc := w.doc.removeClassFromAll "step-content" "active" }
  let w :=
    match w.doc.getElementById (stepTargetId stepName) with
    | some _ =>
      { w with
        doc := w.doc.addClass (stepTargetId stepName) "active"
        app := { w.app with currentStep := stepName } }
    | none => w
  resetIdleTimer w

/-- The method `KioskApp.showScreen`. -/
def showScreen (screenName : String) (w : World) : World :=
  let w := { w with doc := w.doc.removeClassFromAll "screen" "active" }
  let w :=
    match w.doc.getElementById (screenName ++ "-screen") with
    | some _ =>
      let w := { w with
        doc := w.doc.addClass (screenName ++ "-screen") "active"
        app := { w.app with currentScreen := screenName } }
      if screenName = "reception" then showStep "patient-input" w else w
    | none => w
  let w := resetIdleTimer w
  announceScreenChange screenName w

/-- The values of the checked symptom boxes, the list
`Array.from(querySelectorAll('.symptom-item input:checked')).map(input => input.value)`. -/
def checkedSymptoms (d : Document) : List String :=
  (d.symptomInputs.filter (fun c => c.checked)).map (fun c => c.value)

/-- The method `KioskApp.validateCurrentStep`: its result and the state it leaves. -/
def validateCurrentStep (w : World) : Bool × World :=
  if w.app.currentStep = "patient-input" then
    let name := jsTrim w.doc.patientName
    let birth := w.doc.patientBirth
    let phone := jsTrim w.doc.patientPhone
    if !truthy name || !truthy birth || !truthy phone then
      (false, showError "모든 필수 정보를 입력해주세요." (speak "모든 필수 정보를 입력해주세요." w))
    else if !validatePhone phone then
      (false, showError "올바른 전화번호를 입력해주세요." (speak "올바른 전화번호를 입력해주세요." w))
    else (true, w)
  else if w.app.currentStep = "symptoms-input" then
    if (w.doc.symptomInputs.filter (fun c => c.checked)).length = 0 then
      (false, showError "최소 하나의 증상을 선택해주세요." (speak "최소 하나의 증상을 선택해주세요." w))
    else (true, w)
  else (true, w)

/-- The method `KioskApp.saveStepData`. -/
def saveStepData (w : World) : World :=
  if w.app.currentStep = "patient-input" then
    { w with app := { w.app with sessionData := { w.app.sessionData with
        patient := some
          { name := jsTrim w.doc.patientName
            birth := w.doc.patientBirth
            phone := jsTrim w.doc.patientPhone } } } }
  else if w.app.currentStep = "symptoms-input" then
    { w with app := { w.app with sessionData := { w.app.sessionData with
        symptoms := some (checkedSymptoms w.doc) } } }
  else w

/-- The expression `Math.floor(Math.random() * n)`: a value below `n`, taken from the
stream of coming random values. -/
def randomBelow (n : Nat) (w : World) : Nat × World :=
  match w.env.randoms with
  | [] => (0, w)
  | r :: rs => (r % n, { w with env := { w.env with randoms := rs } })

/-- The method `KioskApp.submitReception` up to its first `await`: the loading indicator is
shown and the request is handed to `fetch`. -/
def submitReception (queueNum : Nat) (w : World) : World :=
  let w := showLoading true w
  fetch { url := "/api/reception/walk-in", method := "POST",
          body := some (.reception w.app.sessionData queueNum) } w

/-- The method `KioskApp.generateQueueNumber`. -/
def generateQueueNumber (w : World) : World :=
  let (a, w) := randomBelow 50 w
  let queueNum := a + 1
  let (b, w) := randomBelow 30 w
  let waitTime := b + 10
  let w := { w with doc := { w.doc with
    queueNum := toString queueNum
    waitTime := "약 " ++ toString waitTime ++ "분" } }
  submitReception queueNum w

/-- The method `KioskApp.nextStep`. -/
def nextStep (nextStepName : String) (w : World) : World :=
  let (ok, w) := validateCurrentStep w
  if !ok then w
  else
    let w := saveStepData w
    let w := showStep nextStepName w
    if nextStepName = "symptoms" then speak "증상을 선택해주세요. 여러 개 선택 가능합니다." w
    else if nextStepName = "department" then speak "진료과를 선택해주세요." w
    else if nextStepName = "confirmation" then speak "접수가 완료되었습니다." (generateQueueNumber w)
    else w

/-- The method `KioskApp.getDepartmentName`, its result as the template literal of
`selectDepartment` prints it: the table is read at its own six keys, then at the members it
inherits, and the code itself is the fallback. -/
def getDepartmentName (code : String) : String :=
  if code = "internal" then "내과"
  else if code = "surgery" then "외과"
  else if code = "pediatrics" then "소아과"
  else if code = "orthopedics" then "정형외과"
  else if code = "dermatology" then "피부과"
  else if code = "emergency" then "응급실"
  else
    match objectPrototypeText code with
    | some text => text
    | none => code

/-- The text that `selectDepartment` writes to `#dept-location`, the expression
`locations[deptCode] || '확인 중'`: the table is read at its own six keys, then at the
members it inherits. -/
def departmentLocation (code : String) : String :=
  if code = "internal" then "내과 - 2층 201호"
  else if code = "surgery" then "외과 - 3층 301호"
  else if code = "pediatrics" then "소아과 - 1층 101호"
  else if code = "orthopedics" then "정형외과 - 2층 202호"
  else if code = "dermatology" then "피부과 - 1층 102호"
  else if code = "emergency" then "응급실 - 별관"
  else
    match objectPrototypeText code with
    | some text => text
    | none => "확인 중"

/-- The method `KioskApp.selectDepartment`. -/
def selectDepartment (deptCode : String) (w : World) : World :=
  let w := { w with app := { w.app with sessionData := { w.app.sessionData with
    department := some deptCode } } }
  let w := { w with doc := { w.doc with deptLocation := departmentLocation deptCode } }
  let w := nextStep "confirmation" w
  speak (getDepartmentName deptCode ++ "가 선택되었습니다.") w

/-! ## Session reset and the idle timer -/

/-- The method `KioskApp.getSymptomName`, its result as the template literals of the
`change` listener print it: the table is read at its own six keys, then at the members it
inherits, and the code itself is the fallback. -/
def getSymptomName (code : String) : String :=
  if code = "fever" then "발열"
  else if code = "cough" then "기침"
  else if code = "headache" then "두통"
  else if code = "stomachache" then "복통"
  else if code = "joint-pain" then "관절통"
  else if code = "skin-rash" then "피부발진"
  else
    match objectPrototypeText code with
    | some text => text
    | none => code

/-- The two loops of `resetSession` over the page: every checkbox is unchecked, every other
`input` is emptied (the three patient controls are `input` elements) and the class
`selected` is removed wherever it occurs, with a record for each element that carried it
and is watched by the observer. -/
def Document.resetForm (d : Document) : Document :=
  { d with
    patientName := ""
    patientBirth := ""
    patientPhone := ""
    symptomInputs := d.symptomInputs.map (fun c => { c with checked := false })
    elements := d.elements.map (fun e =>
      { e with classes := e.classes.filter (fun c => c != "selected") })
    mutations := d.mutations ++
      watchedPositions (fun e => decide ("selected" ∈ e.classes)) d.elements }

/-- The method `KioskApp.resetSession`. -/
def resetSession (w : World) : World :=
  { w with
    app := { w.app with sessionData := SessionData.empty, currentStep := "patient-input" }
    doc := w.doc.resetForm }

/-- The method `KioskApp.goHome`. -/
def goHome (w : World) : World :=
  let w := showScreen "home" w
  let w := resetSession w
  speak "홈 화면으로 돌아갑니다." w

/-- The method `KioskApp.startSession`; `Date.now()` is the clock of the browser. -/
def startSession (w : World) : World :=
  let sessionId := "session_" ++ toString w.env.now
  let w := { w with app := { w.app with sessionData := { w.app.sessionData with
    id := some sessionId } } }
  fetch { url := "/api/session/start", method := "POST", body := some (.sessionStart sessionId) } w

/-- The callback that `showTimeoutWarning` schedules: the warning is closed if it is open. -/
def closeTimeoutModal (w : World) : World :=
  if w.doc.timeoutModalShown then { w with doc := { w.doc with timeoutModalShown := false } }
  else w

/-- The method `KioskApp.showTimeoutWarning`. -/
def showTimeoutWarning (w : World) : World :=
  let w := { w with doc := { w.doc with timeoutModalShown := true } }
  let w := speak "30초 후 초기화됩니다. 계속 사용하시려면 화면을 터치해주세요." w
  (setTimeout .closeTimeoutModal 5000 w).2

/-- The method `KioskApp.resetTimeout`. -/
def resetTimeout (w : World) : World :=
  let w := { w with doc := { w.doc with timeoutModalShown := false } }
  let w := resetIdleTimer w
  speak "계속 이용하실 수 있습니다." w

/-- The method `KioskApp.handleSessionTimeout`. -/
def handleSessionTimeout (w : World) : World :=
  let w := speak "시간 초과로 초기 화면으로 돌아갑니다." w
  let w := goHome w
  match w.app.sessionData.id with
  | none => w
  | some sid =>
    if truthy sid then
      fetch { url := "/api/session/end/" ++ sid, method := "POST", body := none } w
    else w

/-- The constructor of `KioskApp` with `init`: the fields are set, the session is started,
the idle timer is armed, the live region and the observer of `setupFocusManagement` are
created, the observer with an empty queue, and the welcome is spoken
(`setupEventListeners` and the rest of `initializeAccessibility` only register handlers). -/
def construct (doc : Document) (env : Browser) : World :=
  let w : World :=
    { app :=
        { currentScreen := "home", currentStep := "patient-input",
          sessionData := SessionData.empty, idleTimer := none, warningTimer := none,
          sessionTimeout := 120, warningTime := 30, liveRegion := none }
      doc := doc
      env := env }
  let w := startSession w
  let w := resetIdleTimer w
  let w := { w with
    app := { w.app with liveRegion := some "" }
    doc := { w.doc with mutations := [] } }
  speak "보건소 키오스크에 오신 것을 환영합니다. 서비스를 선택해주세요." w

/-! ## Runs of the application -/

/-- The control `firstFocusable` that the callback of the observer finds for a record with
the target at the given position: the target carries `screen` and `active` and has a first
control. -/
def recordTarget (es : List Element) (position : Nat) : Option Control :=
  match es.get? position with
  | some target =>
    if "screen" ∈ target.classes ∧ "active" ∈ target.classes then target.firstFocusable
    else none
  | none => none

/-- The callback of the observer of `setupFocusManagement` on one record (every record in
the queue is one of the attribute `class`): when the target carries `screen` and `active`
and has a first control, the focus on that control is scheduled 100 ms from now. -/
def observeRecord (position : Nat) (w : World) : World :=
  match recordTarget w.doc.elements position with
  | some control => (setTimeout (.focusFirst control) 100 w).2
  | none => w

/-- The controls for which the delivery of the queued records schedules a focus, in the
order of the records. -/
def focusTargets (d : Document) : List Control :=
  d.mutations.filterMap (recordTarget d.elements)

/-- The delivery of the queued records: when the script of a task has finished, the browser
hands the records to the observer, oldest first, and the queue is empty again. -/
def deliverMutations (w : World) : World :=
  w.doc.mutations.foldl (fun v position => observeRecord position v)
    { w with doc := { w.doc with mutations := [] } }

/-- The callback `() => firstFocusable.focus()` that the observer schedules. When the call
dispatches a `focus` event and the control is an `input`, the listener that
`setupEventListeners` has put on every `input` runs `resetIdleTimer`; a `button` or a
`select` has no such listener. -/
def focusFirst (control : Control) (w : World) : World :=
  match w.env.focusMoves with
  | [] => w
  | moved :: rest =>
    let w := { w with env := { w.env with focusMoves := rest } }
    if moved = true ∧ control = .input then resetIdleTimer w else w

/-- What can happen to a constructed application: a call of one of its methods (from a
button, a key or a listener), an edit of the form, the passing of time, and the browser
running a timer that is due. A call of a method and a timer are tasks: when their script
has finished, the queued records are delivered to the observer. -/
inductive Action where
  | showScreen (screenName : String)
  | nextStep (nextStepName : String)
  | selectDepartment (deptCode : String)
  | goHome
  | resetTimeout
  /-- the listeners for touch, click, key, focus and input -/
  | resetIdleTimer
  | speak (text : String)
  | setPatientName (value : String)
  | setPatientBirth (value : String)
  | setPatientPhone (value : String)
  /-- the user sets the box at the given position; its `change` listener announces it -/
  | setSymptom (index : Nat) (checked : Bool)
  /-- the clock moves on by so many milliseconds -/
  | advance (ms : Nat)
  /-- the browser runs the pending timer with this handle, if it is due -/
  | fire (id : Nat)
  deriving DecidableEq, Repr

/-- The body of a callback handed to `setTimeout`. -/
def runCallback (cb : Callback) (w : World) : World :=
  match cb with
  | .showTimeoutWarning => showTimeoutWarning w
  | .handleSessionTimeout => handleSessionTimeout w
  | .closeTimeoutModal => closeTimeoutModal w
  | .focusFirst control => focusFirst control w

/-- The pending timer that the browser may run under the handle `id`: it exists and is due. -/
def dueTimer (id : Nat) (w : World) : Option Timer :=
  match w.env.timers.find? (fun t => t.id == id) with
  | some t => if t.due ≤ w.env.now then some t else none
  | none => none

/-- The browser runs a timer: it leaves the pending list, then its callback runs and the
records it has queued are delivered. A timer that is not pending or not yet due is not
run. -/
def fireTimer (id : Nat) (w : World) : World :=
  match dueTimer id w with
  | some t =>
    deliverMutations (runCallback t.callback
      { w with env := { w.env with timers := w.env.timers.filter (fun u => u.id != id) } })
  | none => w

/-- The `change` listener of a symptom box, after the user has set the box. -/
def setSymptom (index : Nat) (checked : Bool) (w : World) : World :=
  match w.doc.symptomInputs.get? index with
  | none => w
  | some c =>
    let w := { w with doc := { w.doc with
      symptomInputs := w.doc.symptomInputs.set index { c with checked := checked } } }
    if checked then speak (getSymptomName c.value ++ " 선택됨") w
    else speak (getSymptomName c.value ++ " 선택 해제됨") w

/-- One action on a state. -/
def perform (a : Action) (w : World) : World :=
  match a with
  | .showScreen n => deliverMutations (showScreen n w)
  | .nextStep n => deliverMutations (nextStep n w)
  | .selectDepartment d => deliverMutations (selectDepartment d w)
  | .goHome => deliverMutations (goHome w)
  | .resetTimeout => deliverMutations (resetTimeout w)
  | .resetIdleTimer => deliverMutations (resetIdleTimer w)
  | .speak t => deliverMutations (speak t w)
  | .setPatientName v => { w with doc := { w.doc with patientName := v } }
  | .setPatientBirth v => { w with doc := { w.doc with patientBirth := v } }
  | .setPatientPhone v => { w with doc := { w.doc with patientPhone := v } }
  | .setSymptom i c => deliverMutations (setSymptom i c w)
  | .advance ms => { w with env := { w.env with now := w.env.now + ms } }
  | .fire id => fireTimer id w

/-- A sequence of actions, oldest first. -/
def run : List Action → World → World
  | [], w => w
  | a :: as, w => run as (perform a w)

/-- The callback that an action makes the browser run, if any. -/
def firedBy (a : Action) (w : World) : Option Callback :=
  match a with
  | .fire id => (dueTimer id w).map (fun t => t.callback)
  | _ => none

/-- The callbacks run during a sequence of actions, oldest first. -/
def trace : List Action → World → List Callback
  | [], _ => []
  | a :: as, w => (firedBy a w).toList ++ trace as (perform a w)

/-- The condition "no moment of the run is `bound` milliseconds or more after the latest
call of `resetIdleTimer`"; `elapsed` is the time since that call at the start of the run. -/
def closelySpaced (bound : Nat) : Nat → List Action → Bool
  | _, [] => true
  | elapsed, .advance ms :: as =>
    decide (elapsed + ms < bound) && closelySpaced bound (elapsed + ms) as
  | _, .resetIdleTimer :: as => closelySpaced bound 0 as
  | elapsed, _ :: as => closelySpaced bound elapsed as

/-- The pending timer that is due first; among equals the one scheduled first. -/
def nextDue : List Timer → Option Timer
  | [] => none
  | t :: ts =>
    match nextDue ts with
    | none => some t
    | some u => if u.due < t.due then some u else some t

/-- The clock is moved to the given time, never backwards. -/
def advanceTo (time : Nat) (w : World) : World :=
  { w with env := { w.env with now := max w.env.now time } }

/-- A period without any user activity that lasts until the time `limit`, with every timer
run at the moment it is due: the callbacks that run, oldest first, and the final state.
`fuel` bounds the number of timers run. -/
def idleUntil : Nat → Nat → World → List Callback × World
  | 0, _, w => ([], w)
  | fuel + 1, limit, w =>
    match nextDue w.env.timers with
    | none => ([], advanceTo limit w)
    | some t =>
      if t.due ≤ limit then
        let r := idleUntil fuel limit (fireTimer t.id (advanceTo t.due w))
        (t.callback :: r.1, r.2)
      else ([], advanceTo limit w)

/-! ## The reception request after `fetch` has settled -/

/-- How the promise returned by `fetch` settles: with a response (its `ok` flag, its status
text, and its body when that parses as JSON) or with an error. -/
inductive FetchOutcome where
  | response (ok : Bool) (statusText : String) (json : Option String)
  | failure (error : String)
  deriving DecidableEq, Repr

/-- The call `console.error(line)`. -/
def consoleError (line : String) (w : World) : World :=
  { w with env := { w.env with consoleErrors := w.env.consoleErrors ++ [line] } }

/-- The rest of the `try` block of `submitReception` after the first `await`: the error it
throws, or the state it reaches. -/
def submitReceptionTry (o : FetchOutcome) (w : World) : Except String World :=
  match o with
  | .failure e => .error e
  | .response ok statusText json =>
    if ok then
      match json with
      | some _ => .ok w
      | none => .error "SyntaxError"
    else .ok (consoleError ("접수 실패: " ++ statusText) w)

/-- The method `KioskApp.submitReception` from its first `await` on: the `try` block, the
`catch` clause and the `finally` clause. An error result would be a rejected promise. -/
def submitReceptionSettle (o : FetchOutcome) (w : World) : Except String World :=
  let w :=
    match submitReceptionTry o w with
    | .ok w' => w'
    | .error e => consoleError ("네트워크 오류: " ++ e) w
  .ok (showLoading false w)

/-! ## The offline queue of `static/js/api.js` -/

/-- An entry of the offline queue, as `queueOfflineRequest` stores it. -/
structure OfflineRequest where
  id : Nat
  url : String
  options : String
  timestamp : String
  deriving DecidableEq, Repr

/-- The loop of `processOfflineQueue`: the list `processedRequests`. The outcomes of the
calls of `this.request`, in order, are given; `true` is a resolved call. -/
def replayQueue : List OfflineRequest → List Bool → List OfflineRequest
  | [], _ => []
  | _ :: rs, [] => replayQueue rs []
  | r :: rs, ok :: oks => if ok then r :: replayQueue rs oks else replayQueue rs oks

/-- The method `ApiClient.processOfflineQueue`: from the stored queue (`none` when the key
is absent) and the outcomes of the replays to the queue that is stored back. -/
def processOfflineQueue (stored : Option (List OfflineRequest)) (outcomes : List Bool) :
    List OfflineRequest :=
  let offlineQueue := stored.getD []
  let processedRequests := replayQueue offlineQueue outcomes
  offlineQueue.filter (fun req =>
    !(processedRequests.find? (fun processed => processed.id == req.id)).isSome)

/-- The requests whose replay failed, in queue order: what the comment in
`processOfflineQueue` says is kept. -/
def failedReplays : List OfflineRequest → List Bool → List OfflineRequest
  | [], _ => []
  | r :: rs, [] => r :: failedReplays rs []
  | r :: rs, ok :: oks => if ok then failedReplays rs oks else r :: failedReplays rs oks

/-! ## The timer part of the state -/

/-- The part of the state that the idle timer reads and writes: the clock, the pending
timers with the next handle, the two handles kept by the application and its two settings. -/
structure TimerState where
  now : Nat
  nextTimerId : Nat
  timers : List Timer
  idleTimer : Option Nat
  warningTimer : Option Nat
  sessionTimeout : Nat
  warningTime : Nat
  deriving DecidableEq, Repr

/-- The timer part of a state. -/
def World.timerState (w : World) : TimerState :=
  { now := w.env.now, nextTimerId := w.env.nextTimerId, timers := w.env.timers,
    idleTimer := w.app.idleTimer, warningTimer := w.app.warningTimer,
    sessionTimeout := w.app.sessionTimeout, warningTime := w.app.warningTime }

/-- The pending timers left by `if (handle) clearTimeout(handle)`. -/
def clearHandle (handle : Option Nat) (ts : List Timer) : List Timer :=
  match handle with
  | none => ts
  | some id => if id = 0 then ts else ts.filter (fun t => t.id != id)

/-- What `resetIdleTimer` does to the timer part of the state. -/
def TimerState.rearm (s : TimerState) : TimerState :=
  { s with
    nextTimerId := s.nextTimerId + 2
    timers := clearHandle s.warningTimer (clearHandle s.idleTimer s.timers) ++
      [ { id := s.nextTimerId, due := s.now + (s.sessionTimeout - s.warningTime) * 1000,
          callback := .showTimeoutWarning },
        { id := s.nextTimerId + 1, due := s.now + s.sessionTimeout * 1000,
          callback := .handleSessionTimeout } ]
    warningTimer := some s.nextTimerId
    idleTimer := some (s.nextTimerId + 1) }

/-- What `showTimeoutWarning` does to the timer part of the state. -/
def TimerState.addClose (s : TimerState) : TimerState :=
  { s with
    nextTimerId := s.nextTimerId + 1
    timers := s.timers ++ [{ id := s.nextTimerId, due := s.now + 5000, callback := .closeTimeoutModal }] }

/-- What the observer does to the timer part of the state when it schedules a focus. -/
def TimerState.addFocus (s : TimerState) (control : Control) : TimerState :=
  { s with
    nextTimerId := s.nextTimerId + 1
    timers := s.timers ++
      [{ id := s.nextTimerId, due := s.now + 100, callback := .focusFirst control }] }

/-- What the delivery of the queued records does to the timer part of the state: a focus is
scheduled for each of the given controls, in order. -/
def TimerState.addFocuses (s : TimerState) (controls : List Control) : TimerState :=
  controls.foldl TimerState.addFocus s

/-- What the browser does to the timer part of the state before it runs a timer. -/
def TimerState.remove (id : Nat) (s : TimerState) : TimerState :=
  { s with timers := s.timers.filter (fun u => u.id != id) }

/-- The invariant of the pending timers: handles are positive and below the next handle,
and every pending warning or expiry timer is the one whose handle the application keeps. -/
structure TimerState.Tracked (s : TimerState) : Prop where
  next_pos : 0 < s.nextTimerId
  id_pos : ∀ t ∈ s.timers, 0 < t.id
  id_lt : ∀ t ∈ s.timers, t.id < s.nextTimerId
  warning : ∀ t ∈ s.timers, t.callback = .showTimeoutWarning → s.warningTimer = some t.id
  expiry : ∀ t ∈ s.timers, t.callback = .handleSessionTimeout → s.idleTimer = some t.id

/-- The relation "the idle timer was re-armed some number of times, and nothing else
happened to the timer part". -/
def Rearmed (s s' : TimerState) : Prop :=
  ∃ k : Nat, s' = TimerState.rearm^[k] s

/-- The pending countdowns without their handles: due time and callback, oldest first. -/
def deadlines (w : World) : List (Nat × Callback) :=
  w.env.timers.map (fun t => (t.due, t.callback))

/-- The invariant of a run in which `resetIdleTimer` is called often enough: `elapsed`
milliseconds after the latest call, with `bound` the delay of the warning, no pending
warning or expiry timer is due, and the timers are tracked. -/
structure TimerState.Safe (bound elapsed : Nat) (s : TimerState) : Prop where
  tracked : s.Tracked
  bound_eq : (s.sessionTimeout - s.warningTime) * 1000 = bound
  elapsed_lt : elapsed < bound
  not_due : ∀ t ∈ s.timers,
    t.callback = .showTimeoutWarning ∨ t.callback = .handleSessionTimeout →
      s.now + bound ≤ t.due + elapsed

/-- The handles of the pending timers are pairwise distinct. -/
def TimerState.Unique (s : TimerState) : Prop :=
  s.timers.Pairwise (fun a b => a.id ≠ b.id)

/-- The number of timers still to run that a pending timer stands for in an idle period,
the expiry apart: a warning brings the closing of its window with it. -/
def timerWeight (t : Timer) : Nat :=
  match t.callback with
  | .closeTimeoutModal => 1
  | .showTimeoutWarning => 2
  | .handleSessionTimeout => 0
  | .focusFirst _ => 1

/-- The weight of a list of pending timers. -/
def pendingWeight (ts : List Timer) : Nat :=
  (ts.map timerWeight).sum

/-- The invariant of an idle period, with `period` the delay of the expiry: the timers are
tracked and have distinct handles, an expiry is pending, every pending expiry is due at
`expiry`, and that moment has not passed. -/
structure TimerState.Armed (period expiry : Nat) (s : TimerState) : Prop where
  tracked : s.Tracked
  unique : s.Unique
  period_eq : s.sessionTimeout * 1000 = period
  pending : ∃ t ∈ s.timers, t.callback = .handleSessionTimeout
  due_eq : ∀ t ∈ s.timers, t.callback = .handleSessionTimeout → t.due = expiry
  now_le : s.now ≤ expiry

/-- The reception submissions among the requests sent so far: the calls of `fetch` with the
URL `/api/reception/walk-in`. -/
def receptionRequests (w : World) : List Request :=
  w.env.requests.filter (fun r => r.url == "/api/reception/walk-in")

/-! ## The client of `static/js/api.js` -/

/-- The method `String.prototype.includes`: the needle occurs somewhere in the text. -/
def jsIncludes (text needle : String) : Bool :=
  text.data.tails.any (fun rest => needle.data.isPrefixOf rest)

/-- A thrown error, as far as the client looks at it: its `name` and its `message`. -/
structure JsError where
  name : String
  message : String
  deriving DecidableEq, Repr

/-- The method `ApiClient.shouldRetry`. -/
def ApiClient.shouldRetry (error : JsError) : Bool :=
  jsIncludes error.message "Failed to fetch" ||
  jsIncludes error.message "HTTP 5" ||
  jsIncludes error.message "시간이 초과"

/-- How the promise of `fetch` settles in `request`: with a response (its status, its
status text, its `content-type` header and what reading its body as JSON or as text gives)
or with an error. -/
inductive FetchSettled where
  | response (status : Nat) (statusText : String) (contentType : Option String)
      (json text : Except JsError String)
  | rejected (error : JsError)

/-- The error that `request` throws for a response that is not ok. -/
def ApiClient.httpError (status : Nat) (statusText : String) : JsError :=
  { name := "Error", message := "HTTP " ++ toString status ++ ": " ++ statusText }

/-- The error that `request` throws in place of an `AbortError`. -/
def ApiClient.timeoutError : JsError :=
  { name := "Error", message := "요청 시간이 초과되었습니다." }

/-- The `try` block of `ApiClient.request` after `fetch` has settled; a response is ok when
its status is in the range 200 to 299. -/
def ApiClient.requestTry (s : FetchSettled) : Except JsError String :=
  match s with
  | .rejected e => .error e
  | .response status statusText contentType json text =>
    if !(decide (200 ≤ status) && decide (status ≤ 299)) then
      .error (ApiClient.httpError status statusText)
    else
      match contentType with
      | some ct => if truthy ct && jsIncludes ct "application/json" then json else text
      | none => text

/-- The method `ApiClient.request` after `fetch` has settled: the `try` block and the
`catch` clause, which replaces an `AbortError` and rethrows every other error. -/
def ApiClient.request (s : FetchSettled) : Except JsError String :=
  match ApiClient.requestTry s with
  | .ok value => .ok value
  | .error e => if e.name = "AbortError" then .error ApiClient.timeoutError else .error e

/-- The method `ApiClient.requestWithRetry`, with `outcome i` the result of the call of
`request` number `i` and `attempt` the number of the next call: the number of calls of
`request` that it makes, and what it returns or throws. -/
def ApiClient.requestWithRetry (outcome : Nat → Except JsError String) (attempt : Nat) :
    Nat → Nat × Except JsError String
  | 0 => (1, outcome attempt)
  | retries + 1 =>
    match outcome attempt with
    | .ok value => (1, .ok value)
    | .error e =>
      if ApiClient.shouldRetry e then
        let r := ApiClient.requestWithRetry outcome (attempt + 1) retries
        (r.1 + 1, r.2)
      else (1, .error e)

/-- The field `retryCount` that the constructor of `ApiClient` sets. -/
def ApiClient.retryCount : Nat := 3

/-- A header object: its keys with their values, in insertion order. -/
abbrev Headers := List (String × String)

/-- The assignment `object[key] = value` on a header object. -/
def setHeader (key value : String) : Headers → Headers
  | [] => [(key, value)]
  | (k, v) :: rest => if k = key then (k, value) :: rest else (k, v) :: setHeader key value rest

/-- The object literal that spreads `extra` over `base`. -/
def spreadHeaders (base extra : Headers) : Headers :=
  extra.foldl (fun acc kv => setHeader kv.1 kv.2 acc) base

/-- The options object of a request: each field is `none` when the object has no such
property. -/
structure RequestOptions where
  method : Option String
  headers : Option Headers
  body : Option String
  signal : Option String
  deriving DecidableEq, Repr

/-- The object literal that spreads `options` over `base`: every property that `options`
has replaces the one of `base`. -/
def spreadOptions (base options : RequestOptions) : RequestOptions :=
  { method := options.method <|> base.method
    headers := options.headers <|> base.headers
    body := options.body <|> base.body
    signal := options.signal <|> base.signal }

/-- The object `defaultOptions` that `ApiClient.request` hands to `fetch`. -/
def ApiClient.defaultOptions (options : RequestOptions) : RequestOptions :=
  spreadOptions
    { method := none
      headers := some (spreadHeaders [("Content-Type", "application/json")]
        (options.headers.getD []))
      body := none
      signal := some "controller.signal" }
    options

/-- The options that `getStatistics` and `getDeviceLogs` pass to `request`. -/
def ApiClient.adminOptions (authToken : String) : RequestOptions :=
  { method := some "GET"
    headers := some [("Authorization", "Bearer " ++ authToken)]
    body := none
    signal := none }

/-- The options that `ApiClient.post` passes to `request`. -/
def ApiClient.postOptions (data : String) : RequestOptions :=
  { method := some "POST", headers := none, body := some data, signal := none }

/-! ## The manager of `static/js/accessibility.js` -/

/-- The object `settings` of the manager. -/
structure AccessibilitySettings where
  fontSize : Nat
  highContrast : Bool
  voiceEnabled : Bool
  colorblindMode : String
  largeTouch : Bool
  simplifiedUI : Bool
  enhancedFocus : Bool
  deriving DecidableEq, Repr

/-- An instance of `AccessibilityManager`: its constructor assigns `this.settings`, and no
method assigns any other property of `this`. -/
structure AccessibilityManager where
  settings : AccessibilitySettings
  deriving DecidableEq, Repr

/-- The settings that the constructor of `AccessibilityManager` writes. -/
def AccessibilitySettings.initial : AccessibilitySettings :=
  { fontSize := 16, highContrast := false, voiceEnabled := true, colorblindMode := "none",
    largeTouch := false, simplifiedUI := false, enhancedFocus := false }

/-- The names under which an instance of `AccessibilityManager` has a property: its own
property, the methods of its class and the properties of `Object.prototype`. -/
def AccessibilityManager.propertyNames : List String :=
  [ "settings",
    "constructor", "init", "loadSettings", "saveSettings", "detectSystemPreferences",
    "setupControls", "setupKeyboardShortcuts", "changeFontSize", "toggleHighContrast",
    "toggleVoice", "changeLanguage", "updateTexts", "toggleColorblindMode",
    "setupColorblindFilters", "toggleLargeTouch", "toggleSimplifiedUI",
    "toggleEnhancedFocus", "applySettings", "requestHelp", "showHelpModal", "speak",
    "announceChange", "showAccessibilityFeedback", "addTouchFeedback", "setupTouchFeedback",
    "generateAccessibilityReport",
    "hasOwnProperty", "isPrototypeOf", "propertyIsEnumerable", "toLocaleString", "toString",
    "valueOf", "__proto__", "__defineGetter__", "__defineSetter__", "__lookupGetter__",
    "__lookupSetter__" ]

/-- Truthiness of the expression `accessibility.name` for an instance: the settings object,
a method and a property of `Object.prototype` are truthy; any other name gives
`undefined`. -/
def AccessibilityManager.truthyProperty (_m : AccessibilityManager) (name : String) : Bool :=
  decide (name ∈ AccessibilityManager.propertyNames)

/-- The button `voice-toggle`, when the page has it: its class `active` and the class name
of its icon, when it has one. -/
structure VoiceToggle where
  active : Bool
  icon : Option String
  deriving DecidableEq, Repr

/-- The manager with what `toggleVoice` reads and writes around it: the truthiness of
`window.app`, the texts handed to `app.speak` (oldest first), the button `voice-toggle` and
the settings saved in `localStorage`. -/
structure AccessibilityWorld where
  manager : AccessibilityManager
  hasApp : Bool
  spoken : List String
  voiceToggle : Option VoiceToggle
  saved : Option AccessibilitySettings
  deriving DecidableEq, Repr

/-- The method `AccessibilityManager.speak`. -/
def AccessibilityManager.speak (text : String) (a : AccessibilityWorld) : AccessibilityWorld :=
  if a.manager.settings.voiceEnabled && a.hasApp then { a with spoken := a.spoken ++ [text] }
  else a

/-- The method `AccessibilityManager.toggleVoice`. -/
def AccessibilityManager.toggleVoice (a : AccessibilityWorld) : AccessibilityWorld :=
  let a := { a with manager := { settings := { a.manager.settings with
    voiceEnabled := !a.manager.settings.voiceEnabled } } }
  let a := { a with voiceToggle := a.voiceToggle.map (fun (b : VoiceToggle) =>
    { active := a.manager.settings.voiceEnabled
      icon := b.icon.map (fun _ =>
        if a.manager.settings.voiceEnabled then "fas fa-volume-up"
        else "fas fa-volume-mute") }) }
  let a := { a with saved := some a.manager.settings }
  if a.manager.settings.voiceEnabled then
    AccessibilityManager.speak "음성 안내가 켜졌습니다." a
  else
    AccessibilityManager.speak "음성 안내가 꺼졌습니다." a

/-- A page on which voice guidance is on: the manager as constructed, `window.app` set,
nothing spoken yet. -/
def voiceOnWorld : AccessibilityWorld :=
  { manager := { settings := AccessibilitySettings.initial }
    hasApp := true
    spoken := []
    voiceToggle := some { active := true, icon := some "fas fa-volume-up" }
    saved := none }

/-! ## Requests and announcements along a run -/

/-- The activity notifications among the requests sent so far: the calls of `fetch` whose
URL begins with `/api/session/activity/`. -/
def activityRequests (w : World) : List Request :=
  w.env.requests.filter (fun r => "/api/session/activity/".data.isPrefixOf r.url.data)

/-- The relation "nothing happened to the voice flag, the live region stayed in place, and
without a session id none was set, no activity was notified and, with the voice flag
off, nothing was uttered". -/
structure Steady (w w' : World) : Prop where
  voiceEnabled : w'.env.voiceEnabled = w.env.voiceEnabled
  liveRegion : w.app.liveRegion.isSome = true → w'.app.liveRegion.isSome = true
  utterances : w.env.voiceEnabled = false → w'.env.utterances = w.env.utterances
  sessionId : w.app.sessionData.id = none → w'.app.sessionData.id = none
  activity : w.app.sessionData.id = none → activityRequests w' = activityRequests w

/-! ## The observer and the idle period -/

/-- For each element of the page, in document order: the first control below it when the
element is a screen, `none` otherwise. No statement of the code changes this list. -/
def screenControls (d : Document) : List (Option Control) :=
  d.elements.map (fun e => if "screen" ∈ e.classes then e.firstFocusable else none)

/-- No pending focus is a focus on an `input`. -/
def TimerState.NoInputFocus (s : TimerState) : Prop :=
  ∀ t ∈ s.timers, t.callback ≠ .focusFirst .input

/-- The relation "the screens of the page and their first controls are the same". -/
def SamePage (w w' : World) : Prop :=
  screenControls w'.doc = screenControls w.doc

/-- The invariant of an idle period on a page where no screen has an `input` as its first
control: the idle timer is armed with the expiry due at `expiry`, the observer has no
record to deliver, and no pending focus is one on an `input`. -/
structure Idle (period expiry : Nat) (w : World) : Prop where
  armed : w.timerState.Armed period expiry
  delivered : w.doc.mutations = []
  page : some Control.input ∉ screenControls w.doc
  focus : w.timerState.NoInputFocus

/-! ## Relations between states -/

/-- The relation "only announcements happened": the second state differs from the first at
most in the live region, the utterances and the console. -/
structure Quiet (w w' : World) : Prop where
  currentScreen : w'.app.currentScreen = w.app.currentScreen
  currentStep : w'.app.currentStep = w.app.currentStep
  sessionData : w'.app.sessionData = w.app.sessionData
  idleTimer : w'.app.idleTimer = w.app.idleTimer
  warningTimer : w'.app.warningTimer = w.app.warningTimer
  doc : w'.doc = w.doc
  timers : w'.env.timers = w.env.timers
  nextTimerId : w'.env.nextTimerId = w.env.nextTimerId
  requests : w'.env.requests = w.env.requests
  randoms : w'.env.randoms = w.env.randoms

/-- The relation "the stepper did not move": the three stepper fields agree. -/
structure SameStepper (w w' : World) : Prop where
  currentScreen : w'.app.currentScreen = w.app.currentScreen
  currentStep : w'.app.currentStep = w.app.currentStep
  sessionData : w'.app.sessionData = w.app.sessionData

/-! ## A sample page -/

/-- A page with the four screens and the four step panels. -/
def samplePage : Document :=
  { elements :=
      [ { id := "home-screen", classes := ["screen", "active"] },
        { id := "reception-screen", classes := ["screen"] },
        { id := "payment-screen", classes := ["screen"] },
        { id := "certificate-screen", classes := ["screen"] },
        { id := "patient-input", classes := ["step-content", "active"] },
        { id := "symptoms-input", classes := ["step-content"] },
        { id := "department-input", classes := ["step-content"] },
        { id := "confirmation", classes := ["step-content"] } ]
    patientName := ""
    patientBirth := ""
    patientPhone := ""
    symptomInputs :=
      [ { value := "fever", checked := false },
        { value := "cough", checked := false },
        { value := "headache", checked := false } ]
    deptLocation := ""
    queueNum := ""
    waitTime := ""
    loadingHidden := true
    timeoutModalShown := false }

/-- The sample page with a button as the first control of each screen. -/
def buttonPage : Document :=
  { samplePage with
    elements :=
      [ { id := "home-screen", classes := ["screen", "active"], firstFocusable := some .button },
        { id := "reception-screen", classes := ["screen"], firstFocusable := some .button },
        { id := "payment-screen", classes := ["screen"], firstFocusable := some .button },
        { id := "certificate-screen", classes := ["screen"], firstFocusable := some .button },
        { id := "patient-input", classes := ["step-content", "active"] },
        { id := "symptoms-input", classes := ["step-content"] },
        { id := "department-input", classes := ["step-content"] },
        { id := "confirmation", classes := ["step-content"] } ] }

/-- The sample page with the service buttons on the home screen and the input for the
name of the patient as the first control of the reception screen. -/
def formPage : Document :=
  { samplePage with
    elements :=
      [ { id := "home-screen", classes := ["screen", "active"], firstFocusable := some .button },
        { id := "reception-screen", classes := ["screen"], firstFocusable := some .input },
        { id := "payment-screen", classes := ["screen"] },
        { id := "certificate-screen", classes := ["screen"] },
        { id := "patient-input", classes := ["step-content", "active"] },
        { id := "symptoms-input", classes := ["step-content"] },
        { id := "department-input", classes := ["step-content"] },
        { id := "confirmation", classes := ["step-content"] } ] }

/-- A browser at time zero with no pending timer and nothing sent. -/
def sampleBrowser : Browser :=
  { now := 0, nextTimerId := 1, timers := [], requests := [], hasSpeechSynthesis := true,
    voiceEnabled := false, currentLanguage := "", utterances := [], consoleErrors := [],
    randoms := [] }

/-- The sample browser in which the next call of `focus()` moves the focus. -/
def focusingBrowser : Browser :=
  { sampleBrowser with focusMoves := [true] }

/-- The fields set by the constructor of `KioskApp`, with the live region in place. -/
def sampleApp : KioskApp :=
  { currentScreen := "home", currentStep := "patient-input", sessionData := SessionData.empty,
    idleTimer := none, warningTimer := none, sessionTimeout := 120, warningTime := 30,
    liveRegion := some "" }

/-- The sample state: the sample page in a fresh application. -/
def sampleWorld : World :=
  { app := sampleApp, doc := samplePage, env := sampleBrowser }

/-- The sample state on the reception screen with the patient form filled in. -/
def filledWorld : World :=
  { sampleWorld with
    app := { sampleApp with currentScreen := "reception" }
    doc := { samplePage with
      patientName := " Kim Minji ", patientBirth := "1990-01-01",
      patientPhone := "010-1234-5678" } }

/-- The filled-in state, except that the name field holds blanks only. -/
def blankNameWorld : World :=
  { filledWorld with doc := { filledWorld.doc with patientName := "   " } }

/-- The filled-in state after `nextStep('symptoms')`: the symptoms step, no box checked. -/
def atSymptomsWorld : World :=
  nextStep "symptoms" filledWorld

/-- The state on the symptoms step after the user has checked the box "fever". -/
def feverCheckedWorld : World :=
  { atSymptomsWorld with doc := { atSymptomsWorld.doc with
      symptomInputs :=
        [ { value := "fever", checked := true },
          { value := "cough", checked := false },
          { value := "headache", checked := false } ] } }

/-- A finished reception: from the symptoms step with "fever" checked the user moves to
the department step and picks the department "internal". -/
def confirmedWorld : World :=
  selectDepartment "internal" (nextStep "department" feverCheckedWorld)

end Kiosk

namespace Kiosk

/-! ## Frame lemmas -/

theorem clearIfSet_app (h : Option Nat) (w : World) : (clearIfSet h w).app = w.app := by
  unfold clearIfSet clearTimeout
  split
  · rfl
  · split <;> rfl

theorem clearIfSet_doc (h : Option Nat) (w : World) : (clearIfSet h w).doc = w.doc := by
  unfold clearIfSet clearTimeout
  split
  · rfl
  · split <;> rfl

theorem resetIdleTimer_doc (w : World) : (resetIdleTimer w).doc = w.doc := by
  unfold resetIdleTimer
  simp only [setTimeout, fetch]
  split
  · simp [clearIfSet_doc]
  · split <;> simp [clearIfSet_doc]

theorem resetIdleTimer_currentScreen (w : World) :
    (resetIdleTimer w).app.currentScreen = w.app.currentScreen := by
  unfold resetIdleTimer
  simp only [setTimeout, fetch]
  split
  · simp [clearIfSet_app]
  · split <;> simp [clearIfSet_app]

theorem resetIdleTimer_currentStep (w : World) :
    (resetIdleTimer w).app.currentStep = w.app.currentStep := by
  unfold resetIdleTimer
  simp only [setTimeout, fetch]
  split
  · simp [clearIfSet_app]
  · split <;> simp [clearIfSet_app]

theorem resetIdleTimer_sessionData (w : World) :
    (resetIdleTimer w).app.sessionData = w.app.sessionData := by
  unfold resetIdleTimer
  simp only [setTimeout, fetch]
  split
  · simp [clearIfSet_app]
  · split <;> simp [clearIfSet_app]

theorem quiet_refl (w : World) : Quiet w w :=
  ⟨rfl, rfl, rfl, rfl, rfl, rfl, rfl, rfl, rfl, rfl⟩

theorem quiet_trans {a b c : World} (h1 : Quiet a b) (h2 : Quiet b c) : Quiet a c :=
  ⟨h2.currentScreen.trans h1.currentScreen, h2.currentStep.trans h1.currentStep,
    h2.sessionData.trans h1.sessionData, h2.idleTimer.trans h1.idleTimer,
    h2.warningTimer.trans h1.warningTimer, h2.doc.trans h1.doc, h2.timers.trans h1.timers,
    h2.nextTimerId.trans h1.nextTimerId, h2.requests.trans h1.requests,
    h2.randoms.trans h1.randoms⟩

theorem announceToScreenReader_quiet (m : String) (w : World) :
    Quiet w (announceToScreenReader m w) := by
  unfold announceToScreenReader
  split
  · exact quiet_refl w
  · exact ⟨rfl, rfl, rfl, rfl, rfl, rfl, rfl, rfl, rfl, rfl⟩

theorem speak_quiet (t : String) (w : World) : Quiet w (speak t w) := by
  unfold speak
  refine quiet_trans ?_ (announceToScreenReader_quiet _ _)
  split
  · exact ⟨rfl, rfl, rfl, rfl, rfl, rfl, rfl, rfl, rfl, rfl⟩
  · exact quiet_refl w

theorem showError_quiet (m : String) (w : World) : Quiet w (showError m w) := by
  unfold showError
  refine quiet_trans ?_ (announceToScreenReader_quiet _ _)
  exact ⟨rfl, rfl, rfl, rfl, rfl, rfl, rfl, rfl, rfl, rfl⟩

theorem validateCurrentStep_quiet (w : World) : Quiet w (validateCurrentStep w).2 := by
  unfold validateCurrentStep
  split
  · simp only []
    split
    · exact quiet_trans (speak_quiet _ _) (showError_quiet _ _)
    · split
      · exact quiet_trans (speak_quiet _ _) (showError_quiet _ _)
      · exact quiet_refl w
  · split
    · split
      · exact quiet_trans (speak_quiet _ _) (showError_quiet _ _)
      · exact quiet_refl w
    · exact quiet_refl w

/-- A successful validation leaves the state as it was. -/
theorem validateCurrentStep_ok (w : World) (h : (validateCurrentStep w).1 = true) :
    (validateCurrentStep w).2 = w := by
  unfold validateCurrentStep at h ⊢
  split
  · simp only [] at h ⊢
    split
    · simp_all
    · split
      · simp_all
      · rfl
  · split
    · split
      · simp_all
      · rfl
    · rfl

theorem sameStepper_refl (w : World) : SameStepper w w :=
  ⟨rfl, rfl, rfl⟩

theorem sameStepper_trans {a b c : World} (h1 : SameStepper a b) (h2 : SameStepper b c) :
    SameStepper a c :=
  ⟨h2.currentScreen.trans h1.currentScreen, h2.currentStep.trans h1.currentStep,
    h2.sessionData.trans h1.sessionData⟩

theorem quiet_sameStepper {w w' : World} (h : Quiet w w') : SameStepper w w' :=
  ⟨h.currentScreen, h.currentStep, h.sessionData⟩

theorem announceScreenChange_quiet (n : String) (w : World) :
    Quiet w (announceScreenChange n w) := by
  unfold announceScreenChange
  exact announceToScreenReader_quiet _ _

theorem showLoading_sameStepper (b : Bool) (w : World) : SameStepper w (showLoading b w) := by
  unfold showLoading
  split
  · refine sameStepper_trans (b := { w with doc := { w.doc with loadingHidden := false } })
      ⟨rfl, rfl, rfl⟩ (quiet_sameStepper (speak_quiet _ _))
  · exact ⟨rfl, rfl, rfl⟩

theorem submitReception_sameStepper (q : Nat) (w : World) :
    SameStepper w (submitReception q w) := by
  unfold submitReception fetch
  exact sameStepper_trans (showLoading_sameStepper true w) ⟨rfl, rfl, rfl⟩

theorem randomBelow_sameStepper (n : Nat) (w : World) : SameStepper w (randomBelow n w).2 := by
  unfold randomBelow
  split
  · exact sameStepper_refl w
  · exact ⟨rfl, rfl, rfl⟩

theorem generateQueueNumber_sameStepper (w : World) :
    SameStepper w (generateQueueNumber w) := by
  unfold generateQueueNumber
  simp only []
  refine sameStepper_trans (randomBelow_sameStepper 50 w) ?_
  refine sameStepper_trans (randomBelow_sameStepper 30 _) ?_
  refine sameStepper_trans ?_ (submitReception_sameStepper _ _)
  exact ⟨rfl, rfl, rfl⟩

/-- Removing a class changes no id, so it changes no lookup result from found to missing. -/
theorem getElementById_removeClassFromAll_isSome (d : Document) (sel cls id : String) :
    ((d.removeClassFromAll sel cls).getElementById id).isSome = (d.getElementById id).isSome := by
  unfold Document.getElementById Document.removeClassFromAll
  by_cases hid : id = ""
  · simp [hid]
  · simp only [hid, if_false]
    induction d.elements with
    | nil => rfl
    | cons e es ih =>
      simp only [List.map_cons, List.find?_cons]
      by_cases hsel : sel ∈ e.classes
      · simp only [hsel, if_true]
        by_cases he : (e.id == id) = true
        · simp [he]
        · simp only [he]
          exact ih
      · simp only [hsel, if_false]
        by_cases he : (e.id == id) = true
        · simp [he]
        · simp only [he]
          exact ih

theorem showStep_currentScreen (n : String) (w : World) :
    (showStep n w).app.currentScreen = w.app.currentScreen := by
  unfold showStep
  simp only [resetIdleTimer_currentScreen]
  split <;> rfl

theorem showStep_sessionData (n : String) (w : World) :
    (showStep n w).app.sessionData = w.app.sessionData := by
  unfold showStep
  simp only [resetIdleTimer_sessionData]
  split <;> rfl

/-- The guard of `showStep`: the step name is stored when the element is found. -/
theorem showStep_currentStep_found (n : String) (w : World)
    (h : (w.doc.getElementById (stepTargetId n)).isSome = true) :
    (showStep n w).app.currentStep = n := by
  unfold showStep
  simp only [resetIdleTimer_currentStep]
  have h' := getElementById_removeClassFromAll_isSome w.doc "step-content" "active" (stepTargetId n)
  rw [h] at h'
  split
  · rfl
  · rename_i hnone
    rw [hnone] at h'
    exact absurd h' (by simp)

/-- The guard of `showStep`: the step is kept when the element is missing. -/
theorem showStep_currentStep_missing (n : String) (w : World)
    (h : w.doc.getElementById (stepTargetId n) = none) :
    (showStep n w).app.currentStep = w.app.currentStep := by
  unfold showStep
  simp only [resetIdleTimer_currentStep]
  have h' := getElementById_removeClassFromAll_isSome w.doc "step-content" "active" (stepTargetId n)
  rw [h] at h'
  split
  · rename_i e hsome
    rw [hsome] at h'
    exact absurd h' (by simp)
  · rfl

/-! ## Phone validation -/

theorem isDigit_ne_hyphen {c : Char} (h : c.isDigit = true) : (c == '-') = false := by
  rw [beq_eq_false_iff_ne]
  rintro rfl
  exact absurd h (by decide)

/-- The anchored phone pattern, written out as the chain of matchers it runs. -/
theorem phoneRegex_test_unfold (s : List Char) :
    phoneRegex.test s =
      (Regex.char '0').run s (fun r1 => (Regex.char '1').run r1 (fun r2 =>
        Regex.digit.run r2 (fun r3 => (Regex.opt (.char '-')).run r3 (fun r4 =>
          Regex.digit.run r4 (fun r5 => Regex.digit.run r5 (fun r6 => Regex.digit.run r6 (fun r7 =>
            (Regex.digit.run r7 (fun r8 => (Regex.opt (.char '-')).run r8 (fun r9 =>
                Regex.digit.run r9 (fun a => Regex.digit.run a (fun b =>
                  Regex.digit.run b (fun c => Regex.digit.run c (fun d => d.isEmpty))))))
              || (Regex.opt (.char '-')).run r7 (fun r9 =>
                Regex.digit.run r9 (fun a => Regex.digit.run a (fun b =>
                  Regex.digit.run b (fun c => Regex.digit.run c (fun d => d.isEmpty))))))))))))) := by
  rfl

/-- On a list of digits the phone pattern accepts exactly the lists of length 10 or 11 that
begin with `01`. -/
theorem phoneRegex_test_digits (d : List Char) (hd : ∀ c ∈ d, c.isDigit = true) :
    phoneRegex.test d = true ↔ (d.length = 10 ∨ d.length = 11) ∧ ['0', '1'] <+: d := by
  rw [phoneRegex_test_unfold]
  rcases d with _ | ⟨c0, _ | ⟨c1, _ | ⟨c2, _ | ⟨c3, _ | ⟨c4, _ | ⟨c5, _ | ⟨c6, _ | ⟨c7, _ | ⟨c8,
    _ | ⟨c9, _ | ⟨c10, _ | ⟨c11, t⟩⟩⟩⟩⟩⟩⟩⟩⟩⟩⟩⟩ <;>
  simp only [List.mem_cons, forall_eq_or_imp, List.not_mem_nil, List.mem_singleton,
    forall_eq] at hd <;>
  simp [Regex.run, hd, isDigit_ne_hyphen, List.cons_prefix_cons] <;>
  exact ⟨fun h => ⟨h.1.symm, h.2.symm⟩, fun h => ⟨h.1.symm, h.2.symm⟩⟩

theorem stripNonDigits_isDigit (s : List Char) : ∀ c ∈ stripNonDigits s, c.isDigit = true := by
  intro c hc
  exact (List.mem_filter.mp hc).2

/-- What `validatePhone` decides, in terms of the digits of its argument. -/
theorem validatePhone_iff_digits (p : String) :
    validatePhone p = true ↔
      ((stripNonDigits p.data).length = 10 ∨ (stripNonDigits p.data).length = 11) ∧
        ['0', '1'] <+: stripNonDigits p.data :=
  phoneRegex_test_digits _ (stripNonDigits_isDigit _)

/-- C1: `validatePhone` accepts "010-1234-5678" and "01012345678" and rejects
"02-1234-5678". -/
theorem validatePhone_examples :
    validatePhone "010-1234-5678" = true ∧ validatePhone "01012345678" = true ∧
      validatePhone "02-1234-5678" = false := by
  decide

/-- C2, as stated, fails: a 10-digit number, a number written with blanks as separators
and a number with extra non-digit characters are all accepted by `validatePhone`, although
none of them has the format of the specification. -/
theorem validatePhone_accepts_outside_spec_format :
    (validatePhone "0101234567" = true ∧ specMobileNumber "0101234567" = false) ∧
    (validatePhone "010 1234 5678" = true ∧ specMobileNumber "010 1234 5678" = false) ∧
    (validatePhone "tel: 010-1234-5678 (home)" = true ∧
      specMobileNumber "tel: 010-1234-5678 (home)" = false) := by
  decide

/-- C2, amended: `validatePhone p` is true exactly when the digits of `p` (every other
character ignored) are 10 or 11 in number and begin with "01"; every 11-digit mobile
number starting with "01", written as 11 consecutive digits or hyphen-separated 3-4-4,
is therefore accepted. -/
theorem validatePhone_spec_format_accepted (p : String) :
    (validatePhone p = true ↔
      ((stripNonDigits p.data).length = 10 ∨ (stripNonDigits p.data).length = 11) ∧
        ['0', '1'] <+: stripNonDigits p.data) ∧
    (specMobileNumber p = true → validatePhone p = true) := by
  refine ⟨validatePhone_iff_digits p, fun h => ?_⟩
  rw [validatePhone_iff_digits]
  simp only [specMobileNumber, Bool.and_eq_true, beq_iff_eq, List.isPrefixOf_iff_prefix] at h
  exact ⟨Or.inr h.1.1, h.1.2⟩

/-- C2, amended, at "010-1234-5678". -/
theorem validatePhone_spec_format_accepted_witness :
    specMobileNumber "010-1234-5678" = true ∧ validatePhone "010-1234-5678" = true :=
  ⟨by decide, (validatePhone_spec_format_accepted "010-1234-5678").2 (by decide)⟩

/-! ## Step validation -/

theorem truthy_eq_true_iff (s : String) : truthy s = true ↔ s ≠ "" := by
  simp [truthy]

/-- A string made of white space only trims to the empty string. -/
theorem jsTrim_whitespace (s : String) (h : ∀ c ∈ s.data, isJsWhiteSpace c = true) :
    jsTrim s = "" := by
  have h1 : s.data.dropWhile isJsWhiteSpace = [] := by
    rw [List.dropWhile_eq_nil_iff]
    exact h
  simp [jsTrim, h1, List.rdropWhile]

/-- C3: on the step 'patient-input', `validateCurrentStep` returns true exactly when the
trimmed name, the birth date and the trimmed phone are non-empty and `validatePhone`
accepts the trimmed phone; a name or a phone of white space only is rejected. -/
theorem validateCurrentStep_patient_input (w : World)
    (hstep : w.app.currentStep = "patient-input") :
    ((validateCurrentStep w).1 = true ↔
      jsTrim w.doc.patientName ≠ "" ∧ w.doc.patientBirth ≠ "" ∧
        jsTrim w.doc.patientPhone ≠ "" ∧ validatePhone (jsTrim w.doc.patientPhone) = true) ∧
    ((∀ c ∈ w.doc.patientName.data, isJsWhiteSpace c = true) →
      (validateCurrentStep w).1 = false) ∧
    ((∀ c ∈ w.doc.patientPhone.data, isJsWhiteSpace c = true) →
      (validateCurrentStep w).1 = false) := by
  have key : (validateCurrentStep w).1 = true ↔
      jsTrim w.doc.patientName ≠ "" ∧ w.doc.patientBirth ≠ "" ∧
        jsTrim w.doc.patientPhone ≠ "" ∧ validatePhone (jsTrim w.doc.patientPhone) = true := by
    unfold validateCurrentStep
    rw [if_pos hstep]
    simp only []
    by_cases hn : truthy (jsTrim w.doc.patientName) = true <;>
    by_cases hb : truthy w.doc.patientBirth = true <;>
    by_cases hp : truthy (jsTrim w.doc.patientPhone) = true <;>
    by_cases hv : validatePhone (jsTrim w.doc.patientPhone) = true <;>
    simp [hn, hb, hp, hv] <;>
    simp_all [truthy_eq_true_iff]
  refine ⟨key, fun hall => ?_, fun hall => ?_⟩
  · have := jsTrim_whitespace _ hall
    rw [← Bool.not_eq_true, key]
    simp [this]
  · have := jsTrim_whitespace _ hall
    rw [← Bool.not_eq_true, key]
    simp [this]

/-- C3 at a page whose name field holds blanks only. -/
theorem validateCurrentStep_patient_input_witness :
    blankNameWorld.app.currentStep = "patient-input" ∧
    (∀ c ∈ blankNameWorld.doc.patientName.data, isJsWhiteSpace c = true) ∧
    (validateCurrentStep blankNameWorld).1 = false :=
  ⟨rfl, by decide,
    (validateCurrentStep_patient_input blankNameWorld rfl).2.1 (by decide)⟩

/-- C4, evaluated on the code: `nextStep('symptoms')` stores the step name 'symptoms', for
which `validateCurrentStep` has no case (its case is 'symptoms-input'); with no box checked
the validation returns true and `nextStep('department')` moves on. -/
theorem symptoms_step_passes_unchecked :
    atSymptomsWorld.app.currentStep = "symptoms" ∧
    checkedSymptoms atSymptomsWorld.doc = [] ∧
    (validateCurrentStep atSymptomsWorld).1 = true ∧
    (nextStep "department" atSymptomsWorld).app.currentStep = "department" := by
  decide

/-! ## Moving between steps -/

theorem nextStep_of_invalid (w : World) (n : String) (h : (validateCurrentStep w).1 = false) :
    nextStep n w = (validateCurrentStep w).2 := by
  unfold nextStep
  simp [h]

/-- C5: when `validateCurrentStep` fails, `nextStep(n)` leaves `currentScreen`,
`currentStep` and `sessionData` as they were, sends no request (so no reception is
submitted) and leaves the pending countdowns and their handles untouched. -/
theorem nextStep_rejected_changes_nothing (w : World) (n : String)
    (h : (validateCurrentStep w).1 = false) :
    (nextStep n w).app.currentScreen = w.app.currentScreen ∧
    (nextStep n w).app.currentStep = w.app.currentStep ∧
    (nextStep n w).app.sessionData = w.app.sessionData ∧
    (nextStep n w).env.requests = w.env.requests ∧
    (nextStep n w).env.timers = w.env.timers ∧
    (nextStep n w).app.idleTimer = w.app.idleTimer ∧
    (nextStep n w).app.warningTimer = w.app.warningTimer := by
  rw [nextStep_of_invalid w n h]
  have q := validateCurrentStep_quiet w
  exact ⟨q.currentScreen, q.currentStep, q.sessionData, q.requests, q.timers, q.idleTimer,
    q.warningTimer⟩

/-- C5 at the state whose name field holds blanks only, for the step name 'symptoms'. -/
theorem nextStep_rejected_changes_nothing_witness :
    (validateCurrentStep blankNameWorld).1 = false ∧
    (nextStep "symptoms" blankNameWorld).app.currentStep = "patient-input" ∧
    (nextStep "symptoms" blankNameWorld).env.requests = [] :=
  ⟨by decide,
    (nextStep_rejected_changes_nothing blankNameWorld "symptoms" (by decide)).2.1,
    (nextStep_rejected_changes_nothing blankNameWorld "symptoms" (by decide)).2.2.2.1⟩

theorem saveStepData_doc (w : World) : (saveStepData w).doc = w.doc := by
  unfold saveStepData
  split
  · rfl
  · split <;> rfl

theorem saveStepData_currentStep (w : World) :
    (saveStepData w).app.currentStep = w.app.currentStep := by
  unfold saveStepData
  split
  · rfl
  · split <;> rfl

/-- After a successful validation `nextStep` is `saveStepData`, then `showStep`, then
announcements and, for 'confirmation', the submission; the stepper fields are those that
`showStep` leaves. -/
theorem nextStep_of_valid (w : World) (n : String) (h : (validateCurrentStep w).1 = true) :
    SameStepper (showStep n (saveStepData w)) (nextStep n w) := by
  have hv : validateCurrentStep w = (true, w) :=
    Prod.ext h (validateCurrentStep_ok w h)
  unfold nextStep
  rw [hv]
  simp only [Bool.not_true, Bool.false_eq_true, if_false]
  split
  · exact quiet_sameStepper (speak_quiet _ _)
  · split
    · exact quiet_sameStepper (speak_quiet _ _)
    · split
      · exact sameStepper_trans (generateQueueNumber_sameStepper _) (quiet_sameStepper (speak_quiet _ _))
      · exact sameStepper_refl _

/-- C6, as stated, fails: validation succeeds on the filled-in patient form, yet
`nextStep('summary')` does not leave `currentStep` equal to 'summary', because the page
has no element for that name and `showStep` stores the name only under its guard. -/
theorem nextStep_unknown_name_keeps_step :
    (validateCurrentStep filledWorld).1 = true ∧
    (nextStep "summary" filledWorld).app.currentStep ≠ "summary" ∧
    (nextStep "summary" filledWorld).app.currentStep = "patient-input" := by
  decide

/-- C6, amended: when validation succeeds, `nextStep(n)` from 'patient-input' sets
`sessionData.patient` to the trimmed name, the birth date and the trimmed phone and
leaves every other key of `sessionData` unchanged; `currentStep` becomes `n` when the page
has the element that `showStep` looks up for `n`, and is unchanged when it has not. -/
theorem nextStep_accepted (w : World) (n : String) (h : (validateCurrentStep w).1 = true) :
    (w.app.currentStep = "patient-input" →
      (nextStep n w).app.sessionData =
        { w.app.sessionData with
          patient := some
            { name := jsTrim w.doc.patientName
              birth := w.doc.patientBirth
              phone := jsTrim w.doc.patientPhone } }) ∧
    ((w.doc.getElementById (stepTargetId n)).isSome = true →
      (nextStep n w).app.currentStep = n) ∧
    (w.doc.getElementById (stepTargetId n) = none →
      (nextStep n w).app.currentStep = w.app.currentStep) := by
  have q := nextStep_of_valid w n h
  refine ⟨fun hstep => ?_, fun hfound => ?_, fun hmissing => ?_⟩
  · rw [q.sessionData, showStep_sessionData]
    unfold saveStepData
    rw [if_pos hstep]
  · rw [q.currentStep]
    exact showStep_currentStep_found n _ (by rw [saveStepData_doc]; exact hfound)
  · rw [q.currentStep, showStep_currentStep_missing n _ (by rw [saveStepData_doc]; exact hmissing)]
    exact saveStepData_currentStep w

/-- C6, amended, at the filled-in patient form and the step name 'symptoms'. -/
theorem nextStep_accepted_witness :
    (validateCurrentStep filledWorld).1 = true ∧
    (nextStep "symptoms" filledWorld).app.currentStep = "symptoms" ∧
    (nextStep "symptoms" filledWorld).app.sessionData.patient =
      some { name := "Kim Minji", birth := "1990-01-01", phone := "010-1234-5678" } :=
  ⟨by decide,
    (nextStep_accepted filledWorld "symptoms" (by decide)).2.1 (by decide),
    by rw [(nextStep_accepted filledWorld "symptoms" (by decide)).1 rfl]; decide⟩

/-- C7, evaluated on the code: with the box "fever" checked on the symptoms step,
`nextStep('department')` passes and moves on, the patient saved earlier is still there, but
`sessionData.symptoms` is absent: `saveStepData` has its case under 'symptoms-input' while
the step is stored as 'symptoms'. -/
theorem symptoms_not_saved :
    feverCheckedWorld.app.currentStep = "symptoms" ∧
    checkedSymptoms feverCheckedWorld.doc = ["fever"] ∧
    (nextStep "department" feverCheckedWorld).app.currentStep = "department" ∧
    (nextStep "department" feverCheckedWorld).app.sessionData.patient =
      some { name := "Kim Minji", birth := "1990-01-01", phone := "010-1234-5678" } ∧
    (nextStep "department" feverCheckedWorld).app.sessionData.symptoms = none := by
  decide

/-! ## Moving between screens -/

theorem find_addClassFirst_isSome (target cls id : String) (es : List Element) :
    ((addClassFirst target cls es).find? (fun e => e.id == id)).isSome =
      (es.find? (fun e => e.id == id)).isSome := by
  induction es with
  | nil => rfl
  | cons e es ih =>
    unfold addClassFirst
    by_cases ht : (e.id == target) = true
    · simp only [ht, if_true, List.find?_cons]
      by_cases hc : cls ∈ e.classes
      · simp [hc]
      · simp only [hc, if_false]
        by_cases he : (e.id == id) = true
        · simp [he]
        · simp [he]
    · simp only [ht, Bool.false_eq_true, if_false, List.find?_cons]
      by_cases he : (e.id == id) = true
      · simp [he]
      · simp only [he]
        exact ih

/-- Adding a class changes no id, so it changes no lookup result from found to missing. -/
theorem getElementById_addClass_isSome (d : Document) (target cls id : String) :
    ((d.addClass target cls).getElementById id).isSome = (d.getElementById id).isSome := by
  unfold Document.addClass
  by_cases ht : target = ""
  · simp [ht]
  · simp only [ht, if_false]
    unfold Document.getElementById
    by_cases hid : id = ""
    · simp [hid]
    · simp only [hid, if_false]
      exact find_addClassFirst_isSome target cls id d.elements

theorem showScreen_sessionData (s : String) (w : World) :
    (showScreen s w).app.sessionData = w.app.sessionData := by
  unfold showScreen
  rw [(announceScreenChange_quiet _ _).sessionData, resetIdleTimer_sessionData]
  split
  · split
    · rw [showStep_sessionData]
    · rfl
  · rfl

/-- The guard of `showScreen`: the screen name is stored when the element is found. -/
theorem showScreen_currentScreen_found (s : String) (w : World)
    (h : (w.doc.getElementById (s ++ "-screen")).isSome = true) :
    (showScreen s w).app.currentScreen = s := by
  unfold showScreen
  rw [(announceScreenChange_quiet _ _).currentScreen, resetIdleTimer_currentScreen]
  have h' := getElementById_removeClassFromAll_isSome w.doc "screen" "active" (s ++ "-screen")
  rw [h] at h'
  split
  · split
    · rw [showStep_currentScreen]
    · rfl
  · rename_i hnone
    rw [hnone] at h'
    exact absurd h' (by simp)

/-- The guard of `showScreen`: the screen is kept when the element is missing. -/
theorem showScreen_currentScreen_missing (s : String) (w : World)
    (h : w.doc.getElementById (s ++ "-screen") = none) :
    (showScreen s w).app.currentScreen = w.app.currentScreen := by
  unfold showScreen
  rw [(announceScreenChange_quiet _ _).currentScreen, resetIdleTimer_currentScreen]
  have h' := getElementById_removeClassFromAll_isSome w.doc "screen" "active" (s ++ "-screen")
  rw [h] at h'
  split
  · rename_i e hsome
    rw [hsome] at h'
    exact absurd h' (by simp)
  · rfl

/-- C8, as stated, fails: the finished reception stands at the confirmation step with
patient and department recorded, and after `showScreen('reception')` both are still in
`sessionData`, which is therefore not empty. -/
theorem showScreen_reception_keeps_sessionData :
    confirmedWorld.app.currentStep = "confirmation" ∧
    (showScreen "reception" confirmedWorld).app.sessionData.patient =
      some { name := "Kim Minji", birth := "1990-01-01", phone := "010-1234-5678" } ∧
    (showScreen "reception" confirmedWorld).app.sessionData.department = some "internal" ∧
    (showScreen "reception" confirmedWorld).app.sessionData ≠ SessionData.empty := by
  decide

/-- C8, amended: for every prior state `showScreen('reception')` leaves `sessionData`
exactly as it was; it does not clear it. -/
theorem showScreen_reception_sessionData_unchanged (w : World) :
    (showScreen "reception" w).app.sessionData = w.app.sessionData :=
  showScreen_sessionData "reception" w

/-- C9: on a page that has the elements `reception-screen` and `patient-input`, after
`showScreen('reception')` the screen is 'reception' and the step is 'patient-input',
whatever they were before. -/
theorem showScreen_reception_resets_step (w : World)
    (hscreen : (w.doc.getElementById "reception-screen").isSome = true)
    (hstep : (w.doc.getElementById "patient-input").isSome = true) :
    (showScreen "reception" w).app.currentScreen = "reception" ∧
    (showScreen "reception" w).app.currentStep = "patient-input" := by
  have hname : "reception" ++ "-screen" = "reception-screen" := by decide
  refine ⟨showScreen_currentScreen_found "reception" w (by rw [hname]; exact hscreen), ?_⟩
  unfold showScreen
  rw [(announceScreenChange_quiet _ _).currentStep, resetIdleTimer_currentStep]
  have h' := getElementById_removeClassFromAll_isSome w.doc "screen" "active"
    ("reception" ++ "-screen")
  rw [hname] at h'
  rw [hscreen] at h'
  simp only [hname, if_true]
  split
  · apply showStep_currentStep_found
    simp only []
    rw [show stepTargetId "patient-input" = "patient-input" by decide,
      getElementById_addClass_isSome, getElementById_removeClassFromAll_isSome]
    exact hstep
  · rename_i hnone
    rw [hnone] at h'
    exact absurd h' (by simp)

/-- C9 at the finished reception, which stands at the confirmation step. -/
theorem showScreen_reception_resets_step_witness :
    confirmedWorld.app.currentStep = "confirmation" ∧
    (showScreen "reception" confirmedWorld).app.currentScreen = "reception" ∧
    (showScreen "reception" confirmedWorld).app.currentStep = "patient-input" :=
  ⟨by decide, showScreen_reception_resets_step confirmedWorld (by decide) (by decide)⟩

/-- C10, as stated, fails: the sample page has no element `lobby-screen`, and after
`showScreen('lobby')` the screen is still 'home'. -/
theorem showScreen_unknown_name_keeps_screen :
    (showScreen "lobby" sampleWorld).app.currentScreen = "home" ∧
    (showScreen "lobby" sampleWorld).app.currentScreen ≠ "lobby" := by
  decide

theorem timerState_clearIfSet (h : Option Nat) (w : World) :
    (clearIfSet h w).timerState = { w.timerState with timers := clearHandle h w.env.timers } := by
  cases h with
  | none => rfl
  | some id =>
    by_cases hid : id = 0
    · simp [clearIfSet, clearHandle, hid, World.timerState]
    · simp [clearIfSet, clearHandle, clearTimeout, hid, World.timerState]

theorem timerState_resetIdleTimer (w : World) :
    (resetIdleTimer w).timerState = w.timerState.rearm := by
  have h1 := timerState_clearIfSet w.app.idleTimer w
  have h2 := timerState_clearIfSet w.app.warningTimer (clearIfSet w.app.idleTimer w)
  unfold resetIdleTimer
  simp only [setTimeout, fetch, clearIfSet_app]
  generalize clearIfSet w.app.idleTimer w = w1 at h1 h2 ⊢
  generalize clearIfSet w.app.warningTimer w1 = w2 at h2 ⊢
  simp only [World.timerState, TimerState.mk.injEq] at h1 h2
  obtain ⟨a1, a2, a3, a4, a5, a6, a7⟩ := h1
  obtain ⟨b1, b2, b3, b4, b5, b6, b7⟩ := h2
  split
  · simp [World.timerState, TimerState.rearm, *]
  · split <;> simp [World.timerState, TimerState.rearm, *]

theorem timerState_announceToScreenReader (m : String) (w : World) :
    (announceToScreenReader m w).timerState = w.timerState := by
  unfold announceToScreenReader
  split <;> rfl

theorem timerState_speak (t : String) (w : World) : (speak t w).timerState = w.timerState := by
  unfold speak
  rw [timerState_announceToScreenReader]
  split <;> rfl

theorem timerState_showError (m : String) (w : World) :
    (showError m w).timerState = w.timerState := by
  unfold showError
  rw [timerState_announceToScreenReader]
  rfl

theorem timerState_announceScreenChange (n : String) (w : World) :
    (announceScreenChange n w).timerState = w.timerState := by
  unfold announceScreenChange
  exact timerState_announceToScreenReader _ _

theorem timerState_showLoading (b : Bool) (w : World) :
    (showLoading b w).timerState = w.timerState := by
  unfold showLoading
  split
  · rw [timerState_speak]
    rfl
  · rfl

theorem timerState_randomBelow (n : Nat) (w : World) :
    (randomBelow n w).2.timerState = w.timerState := by
  unfold randomBelow
  split <;> rfl

theorem timerState_submitReception (q : Nat) (w : World) :
    (submitReception q w).timerState = w.timerState := by
  unfold submitReception fetch
  exact timerState_showLoading true w

theorem timerState_generateQueueNumber (w : World) :
    (generateQueueNumber w).timerState = w.timerState := by
  unfold generateQueueNumber
  simp only []
  rw [timerState_submitReception]
  exact (timerState_randomBelow 30 _).trans (timerState_randomBelow 50 w)

theorem timerState_validateCurrentStep (w : World) :
    (validateCurrentStep w).2.timerState = w.timerState := by
  unfold validateCurrentStep
  split
  · simp only []
    split
    · rw [timerState_showError, timerState_speak]
    · split
      · rw [timerState_showError, timerState_speak]
      · rfl
  · split
    · split
      · rw [timerState_showError, timerState_speak]
      · rfl
    · rfl

theorem timerState_saveStepData (w : World) : (saveStepData w).timerState = w.timerState := by
  unfold saveStepData
  split
  · rfl
  · split <;> rfl

theorem timerState_resetSession (w : World) : (resetSession w).timerState = w.timerState :=
  rfl

theorem timerState_closeTimeoutModal (w : World) :
    (closeTimeoutModal w).timerState = w.timerState := by
  unfold closeTimeoutModal
  split <;> rfl

theorem timerState_setSymptom (i : Nat) (c : Bool) (w : World) :
    (setSymptom i c w).timerState = w.timerState := by
  unfold setSymptom
  split
  · rfl
  · simp only []
    split <;> rw [timerState_speak] <;> rfl

theorem timerState_showStep (n : String) (w : World) :
    (showStep n w).timerState = w.timerState.rearm := by
  unfold showStep
  rw [timerState_resetIdleTimer]
  split <;> rfl

theorem rearmed_refl (s : TimerState) : Rearmed s s :=
  ⟨0, rfl⟩

theorem rearmed_rearm (s : TimerState) : Rearmed s s.rearm :=
  ⟨1, rfl⟩

theorem rearmed_trans {a b c : TimerState} (h1 : Rearmed a b) (h2 : Rearmed b c) :
    Rearmed a c := by
  obtain ⟨k, rfl⟩ := h1
  obtain ⟨j, rfl⟩ := h2
  exact ⟨j + k, by rw [Function.iterate_add_apply]⟩

theorem rearmed_of_eq {a b : TimerState} (h : b = a) : Rearmed a b :=
  ⟨0, h⟩

/-- Unless the screen is 'reception', `showScreen` re-arms the idle timer once. -/
theorem timerState_showScreen_other (s : String) (w : World) (hs : s ≠ "reception") :
    (showScreen s w).timerState = w.timerState.rearm := by
  unfold showScreen
  rw [timerState_announceScreenChange, timerState_resetIdleTimer]
  split
  · rw [if_neg hs]
    rfl
  · rfl

theorem rearmed_showScreen (s : String) (w : World) :
    Rearmed w.timerState (showScreen s w).timerState := by
  unfold showScreen
  rw [timerState_announceScreenChange, timerState_resetIdleTimer]
  split
  · split
    · rw [timerState_showStep]
      exact ⟨2, rfl⟩
    · exact ⟨1, rfl⟩
  · exact ⟨1, rfl⟩

theorem rearmed_nextStep (n : String) (w : World) :
    Rearmed w.timerState (nextStep n w).timerState := by
  cases h : (validateCurrentStep w).1
  · rw [nextStep_of_invalid w n h, timerState_validateCurrentStep]
    exact rearmed_refl _
  · have hv : validateCurrentStep w = (true, w) := Prod.ext h (validateCurrentStep_ok w h)
    unfold nextStep
    rw [hv]
    simp only [Bool.not_true, Bool.false_eq_true, if_false]
    have hs : (showStep n (saveStepData w)).timerState = w.timerState.rearm := by
      rw [timerState_showStep, timerState_saveStepData]
    split
    · rw [timerState_speak, hs]; exact rearmed_rearm _
    · split
      · rw [timerState_speak, hs]; exact rearmed_rearm _
      · split
        · rw [timerState_speak, timerState_generateQueueNumber, hs]; exact rearmed_rearm _
        · rw [hs]; exact rearmed_rearm _

theorem rearmed_selectDepartment (d : String) (w : World) :
    Rearmed w.timerState (selectDepartment d w).timerState := by
  unfold selectDepartment
  simp only []
  rw [timerState_speak]
  exact rearmed_nextStep "confirmation" _

theorem timerState_goHome (w : World) : (goHome w).timerState = w.timerState.rearm := by
  unfold goHome
  simp only []
  rw [timerState_speak, timerState_resetSession,
    timerState_showScreen_other "home" w (by decide)]

theorem timerState_resetTimeout (w : World) :
    (resetTimeout w).timerState = w.timerState.rearm := by
  unfold resetTimeout
  simp only []
  rw [timerState_speak, timerState_resetIdleTimer]
  rfl

theorem timerState_handleSessionTimeout (w : World) :
    (handleSessionTimeout w).timerState = w.timerState.rearm := by
  unfold handleSessionTimeout
  simp only []
  have h : (goHome (speak "시간 초과로 초기 화면으로 돌아갑니다." w)).timerState =
      w.timerState.rearm := by
    rw [timerState_goHome, timerState_speak]
  split
  · exact h
  · split
    · exact h
    · exact h

theorem timerState_showTimeoutWarning (w : World) :
    (showTimeoutWarning w).timerState = w.timerState.addClose := by
  unfold showTimeoutWarning setTimeout
  simp only []
  have h := timerState_speak "30초 후 초기화됩니다. 계속 사용하시려면 화면을 터치해주세요."
    { w with doc := { w.doc with timeoutModalShown := true } }
  simp only [World.timerState, TimerState.mk.injEq] at h
  obtain ⟨a1, a2, a3, a4, a5, a6, a7⟩ := h
  simp [World.timerState, TimerState.addClose, *]

/-! ## The invariant of the pending timers -/

theorem mem_clearHandle {h : Option Nat} {ts : List Timer} {t : Timer}
    (ht : t ∈ clearHandle h ts) : t ∈ ts ∧ (h = some t.id → t.id = 0) := by
  cases h with
  | none => exact ⟨ht, fun h => (by cases h)⟩
  | some id =>
    by_cases hid : id = 0
    · simp only [clearHandle, hid, if_true] at ht
      refine ⟨ht, fun h => ?_⟩
      cases h
      exact hid
    · simp only [clearHandle, hid, if_false, List.mem_filter, bne_iff_ne, ne_eq] at ht
      refine ⟨ht.1, fun h => ?_⟩
      cases h
      exact absurd rfl ht.2

/-- After a re-arming, a pending warning or expiry timer is the one just scheduled. -/
theorem rearm_fresh {s : TimerState} (h : s.Tracked) (t : Timer) (ht : t ∈ s.rearm.timers) :
    (t.callback = .showTimeoutWarning →
      t = { id := s.nextTimerId, due := s.now + (s.sessionTimeout - s.warningTime) * 1000,
            callback := .showTimeoutWarning }) ∧
    (t.callback = .handleSessionTimeout →
      t = { id := s.nextTimerId + 1, due := s.now + s.sessionTimeout * 1000,
            callback := .handleSessionTimeout }) := by
  simp only [TimerState.rearm, List.mem_append, List.mem_cons, List.mem_singleton,
    List.not_mem_nil, or_false] at ht
  rcases ht with hold | rfl | rfl
  · obtain ⟨h1, hw⟩ := mem_clearHandle hold
    obtain ⟨h2, hi⟩ := mem_clearHandle h1
    have hpos := h.id_pos t h2
    constructor
    · intro hc
      have := hw (h.warning t h2 hc)
      omega
    · intro hc
      have := hi (h.expiry t h2 hc)
      omega
  · exact ⟨fun _ => rfl, fun hc => (by cases hc)⟩
  · exact ⟨fun hc => (by cases hc), fun _ => rfl⟩

theorem mem_rearm_timers {s : TimerState} {t : Timer} (ht : t ∈ s.rearm.timers) :
    t ∈ s.timers ∨
      t = { id := s.nextTimerId, due := s.now + (s.sessionTimeout - s.warningTime) * 1000,
            callback := .showTimeoutWarning } ∨
      t = { id := s.nextTimerId + 1, due := s.now + s.sessionTimeout * 1000,
            callback := .handleSessionTimeout } := by
  simp only [TimerState.rearm, List.mem_append, List.mem_cons, List.mem_singleton,
    List.not_mem_nil, or_false] at ht
  rcases ht with hold | h | h
  · exact Or.inl (mem_clearHandle (mem_clearHandle hold).1).1
  · exact Or.inr (Or.inl h)
  · exact Or.inr (Or.inr h)

theorem tracked_rearm {s : TimerState} (h : s.Tracked) : s.rearm.Tracked := by
  have hn := h.next_pos
  refine ⟨?_, ?_, ?_, ?_, ?_⟩
  · show 0 < s.nextTimerId + 2
    omega
  · intro t ht
    rcases mem_rearm_timers ht with hold | rfl | rfl
    · exact h.id_pos t hold
    · exact hn
    · show 0 < s.nextTimerId + 1
      omega
  · intro t ht
    show t.id < s.nextTimerId + 2
    rcases mem_rearm_timers ht with hold | rfl | rfl
    · have := h.id_lt t hold
      omega
    · show s.nextTimerId < s.nextTimerId + 2
      omega
    · show s.nextTimerId + 1 < s.nextTimerId + 2
      omega
  · intro t ht hc
    rw [(rearm_fresh h t ht).1 hc]
    rfl
  · intro t ht hc
    rw [(rearm_fresh h t ht).2 hc]
    rfl

theorem tracked_iterate {s : TimerState} (h : s.Tracked) (k : Nat) :
    (TimerState.rearm^[k] s).Tracked := by
  induction k generalizing s with
  | zero => exact h
  | succ k ih => exact ih (tracked_rearm h)

theorem tracked_rearmed {s s' : TimerState} (h : s.Tracked) (hr : Rearmed s s') :
    s'.Tracked := by
  obtain ⟨k, rfl⟩ := hr
  exact tracked_iterate h k

theorem tracked_addClose {s : TimerState} (h : s.Tracked) : s.addClose.Tracked := by
  have hn := h.next_pos
  refine ⟨?_, ?_, ?_, ?_, ?_⟩
  · show 0 < s.nextTimerId + 1
    omega
  · intro t ht
    simp only [TimerState.addClose, List.mem_append, List.mem_singleton] at ht
    rcases ht with hold | rfl
    · exact h.id_pos t hold
    · exact hn
  · intro t ht
    show t.id < s.nextTimerId + 1
    simp only [TimerState.addClose, List.mem_append, List.mem_singleton] at ht
    rcases ht with hold | rfl
    · have := h.id_lt t hold
      omega
    · show s.nextTimerId < s.nextTimerId + 1
      omega
  · intro t ht hc
    simp only [TimerState.addClose, List.mem_append, List.mem_singleton] at ht
    rcases ht with hold | rfl
    · exact h.warning t hold hc
    · cases hc
  · intro t ht hc
    simp only [TimerState.addClose, List.mem_append, List.mem_singleton] at ht
    rcases ht with hold | rfl
    · exact h.expiry t hold hc
    · cases hc

theorem tracked_remove {s : TimerState} (h : s.Tracked) (id : Nat) : (s.remove id).Tracked :=
  ⟨h.next_pos,
    fun t ht => h.id_pos t (List.mem_filter.mp ht).1,
    fun t ht => h.id_lt t (List.mem_filter.mp ht).1,
    fun t ht hc => h.warning t (List.mem_filter.mp ht).1 hc,
    fun t ht hc => h.expiry t (List.mem_filter.mp ht).1 hc⟩

theorem dueTimer_some {id : Nat} {w : World} {t : Timer} (h : dueTimer id w = some t) :
    t ∈ w.env.timers ∧ t.id = id ∧ t.due ≤ w.env.now := by
  unfold dueTimer at h
  split at h
  · rename_i u hu
    split at h
    · cases h
      rename_i hdue
      refine ⟨List.mem_of_find?_eq_some hu, ?_, hdue⟩
      have := List.find?_some hu
      simpa using this
    · cases h
  · cases h

/-! ## Switching the screen: the guard, the idle timer and the announcement -/

theorem resetIdleTimer_liveRegion (w : World) :
    (resetIdleTimer w).app.liveRegion = w.app.liveRegion := by
  unfold resetIdleTimer
  simp only [setTimeout, fetch]
  split
  · simp [clearIfSet_app]
  · split <;> simp [clearIfSet_app]

theorem showStep_liveRegion (n : String) (w : World) :
    (showStep n w).app.liveRegion = w.app.liveRegion := by
  unfold showStep
  rw [resetIdleTimer_liveRegion]
  split <;> rfl

theorem announceToScreenReader_liveRegion (m : String) (w : World) :
    (announceToScreenReader m w).app.liveRegion = w.app.liveRegion.map (fun _ => m) := by
  unfold announceToScreenReader
  split
  · rename_i h
    rw [h]
    rfl
  · rename_i h
    rw [h]
    rfl

/-- After `showScreen(s)` a live region holds the announcement of `s`. -/
theorem showScreen_liveRegion (s : String) (w : World) :
    (showScreen s w).app.liveRegion = w.app.liveRegion.map (fun _ => screenAnnouncement s) := by
  unfold showScreen announceScreenChange
  rw [announceToScreenReader_liveRegion, resetIdleTimer_liveRegion]
  split
  · split
    · rw [showStep_liveRegion]
    · rfl
  · rfl

/-- The idle timer after `showScreen(s)`: re-armed once, and once before through `showStep`
when the screen is the reception and its element is found. -/
theorem timerState_showScreen (s : String) (w : World) :
    (showScreen s w).timerState =
      (if (w.doc.getElementById (s ++ "-screen")).isSome = true ∧ s = "reception" then
        w.timerState.rearm.rearm
      else w.timerState.rearm) := by
  have h' := getElementById_removeClassFromAll_isSome w.doc "screen" "active" (s ++ "-screen")
  unfold showScreen
  rw [timerState_announceScreenChange, timerState_resetIdleTimer]
  split
  · rename_i e hsome
    rw [hsome] at h'
    have hfound : (w.doc.getElementById (s ++ "-screen")).isSome = true := h'.symm
    split
    · rename_i hs
      rw [timerState_showStep, if_pos ⟨hfound, hs⟩]
      rfl
    · rename_i hs
      rw [if_neg (fun h => hs h.2)]
      rfl
  · rename_i hnone
    rw [hnone] at h'
    have hmiss : ¬ (w.doc.getElementById (s ++ "-screen")).isSome = true := by
      rw [← h']
      simp
    rw [if_neg (fun h => hmiss h.1)]
    rfl

/-- What a re-arming leaves: the fresh warning and the fresh expiry are pending under the
handles that the application keeps. -/
theorem rearm_pending (s : TimerState) :
    s.rearm.warningTimer = some s.nextTimerId ∧
    s.rearm.idleTimer = some (s.nextTimerId + 1) ∧
    ({ id := s.nextTimerId, due := s.now + (s.sessionTimeout - s.warningTime) * 1000,
       callback := .showTimeoutWarning } : Timer) ∈ s.rearm.timers ∧
    ({ id := s.nextTimerId + 1, due := s.now + s.sessionTimeout * 1000,
       callback := .handleSessionTimeout } : Timer) ∈ s.rearm.timers := by
  refine ⟨rfl, rfl, ?_, ?_⟩ <;>
    simp [TimerState.rearm, List.mem_append, List.mem_cons, List.mem_singleton]

/-- C10, amended: for every screen name `s` and every prior state, `currentScreen` equals
`s` after `showScreen(s)` when the page has the element `s-screen`, and is unchanged when
it has not. In both cases the idle timer is reset (once; twice when the screen is the
reception and its element is found, since `showStep` resets it too), so that a fresh
warning and a fresh expiry, due `sessionTimeout - warningTime` and `sessionTimeout` seconds
from now, are pending under the handles that the application keeps; and the change is
announced: a live region holds the announcement of `s`. -/
theorem showScreen_switches_under_guard (s : String) (w : World) :
    ((w.doc.getElementById (s ++ "-screen")).isSome = true →
      (showScreen s w).app.currentScreen = s) ∧
    (w.doc.getElementById (s ++ "-screen") = none →
      (showScreen s w).app.currentScreen = w.app.currentScreen) ∧
    (showScreen s w).timerState =
      (if (w.doc.getElementById (s ++ "-screen")).isSome = true ∧ s = "reception" then
        w.timerState.rearm.rearm
      else w.timerState.rearm) ∧
    (∃ h : Nat,
      (showScreen s w).app.warningTimer = some h ∧
      (showScreen s w).app.idleTimer = some (h + 1) ∧
      ({ id := h, due := w.env.now + (w.app.sessionTimeout - w.app.warningTime) * 1000,
         callback := .showTimeoutWarning } : Timer) ∈ (showScreen s w).env.timers ∧
      ({ id := h + 1, due := w.env.now + w.app.sessionTimeout * 1000,
         callback := .handleSessionTimeout } : Timer) ∈ (showScreen s w).env.timers) ∧
    (showScreen s w).app.liveRegion =
      w.app.liveRegion.map (fun _ => screenAnnouncement s) := by
  refine ⟨showScreen_currentScreen_found s w, showScreen_currentScreen_missing s w,
    timerState_showScreen s w, ?_, showScreen_liveRegion s w⟩
  have hts := timerState_showScreen s w
  split at hts
  · obtain ⟨h1, h2, h3, h4⟩ := rearm_pending w.timerState.rearm
    rw [← hts] at h1 h2 h3 h4
    exact ⟨_, h1, h2, h3, h4⟩
  · obtain ⟨h1, h2, h3, h4⟩ := rearm_pending w.timerState
    rw [← hts] at h1 h2 h3 h4
    exact ⟨_, h1, h2, h3, h4⟩

/-- C10, amended, at the screen name 'payment' on the sample page, and at the inherited
name 'toString', which the page does not have: the screen stays and the announcement is
the text of the function. -/
theorem showScreen_switches_under_guard_witness :
    (sampleWorld.doc.getElementById ("payment" ++ "-screen")).isSome = true ∧
    (showScreen "payment" sampleWorld).app.currentScreen = "payment" ∧
    (showScreen "payment" sampleWorld).app.liveRegion = some "진료비 수납 화면입니다." ∧
    (showScreen "toString" sampleWorld).app.currentScreen = "home" ∧
    (showScreen "toString" sampleWorld).app.liveRegion =
      some "function toString() { [native code] }" :=
  ⟨by decide, (showScreen_switches_under_guard "payment" sampleWorld).1 (by decide),
    (showScreen_switches_under_guard "payment" sampleWorld).2.2.2.2,
    (showScreen_switches_under_guard "toString" sampleWorld).2.1 (by decide),
    (showScreen_switches_under_guard "toString" sampleWorld).2.2.2.2⟩

/-! ## The observer of `setupFocusManagement` -/

theorem addFocus_fields (s : TimerState) (c : Control) :
    (s.addFocus c).now = s.now ∧ (s.addFocus c).idleTimer = s.idleTimer ∧
      (s.addFocus c).warningTimer = s.warningTimer ∧
      (s.addFocus c).sessionTimeout = s.sessionTimeout ∧
      (s.addFocus c).warningTime = s.warningTime :=
  ⟨rfl, rfl, rfl, rfl, rfl⟩

theorem addFocuses_nil (s : TimerState) : s.addFocuses [] = s :=
  rfl

theorem addFocuses_cons (s : TimerState) (c : Control) (cs : List Control) :
    s.addFocuses (c :: cs) = (s.addFocus c).addFocuses cs :=
  rfl

theorem addFocuses_append (s : TimerState) (cs ds : List Control) :
    s.addFocuses (cs ++ ds) = (s.addFocuses cs).addFocuses ds := by
  simp only [TimerState.addFocuses, List.foldl_append]

theorem addFocuses_fields (cs : List Control) (s : TimerState) :
    (s.addFocuses cs).now = s.now ∧ (s.addFocuses cs).idleTimer = s.idleTimer ∧
      (s.addFocuses cs).warningTimer = s.warningTimer ∧
      (s.addFocuses cs).sessionTimeout = s.sessionTimeout ∧
      (s.addFocuses cs).warningTime = s.warningTime := by
  induction cs generalizing s with
  | nil => exact ⟨rfl, rfl, rfl, rfl, rfl⟩
  | cons c cs ih =>
    rw [addFocuses_cons]
    obtain ⟨h1, h2, h3, h4, h5⟩ := ih (s.addFocus c)
    exact ⟨h1, h2, h3, h4, h5⟩

/-- The callback of the observer on one record, as a change of the pending timers. -/
theorem observeRecord_eq (i : Nat) (w : World) :
    observeRecord i w =
      { w with env := { w.env with
          nextTimerId :=
            (w.timerState.addFocuses (recordTarget w.doc.elements i).toList).nextTimerId
          timers := (w.timerState.addFocuses (recordTarget w.doc.elements i).toList).timers } } := by
  unfold observeRecord
  cases recordTarget w.doc.elements i with
  | none => rfl
  | some c => rfl

theorem foldl_observeRecord (l : List Nat) (w : World) :
    l.foldl (fun v i => observeRecord i v) w =
      { w with env := { w.env with
          nextTimerId :=
            (w.timerState.addFocuses (l.filterMap (recordTarget w.doc.elements))).nextTimerId
          timers :=
            (w.timerState.addFocuses (l.filterMap (recordTarget w.doc.elements))).timers } } := by
  induction l generalizing w with
  | nil => rfl
  | cons i l ih =>
    rw [List.foldl_cons, ih (observeRecord i w), observeRecord_eq]
    cases h : recordTarget w.doc.elements i with
    | none =>
      simp only [List.filterMap_cons, h]
      rfl
    | some c =>
      simp only [List.filterMap_cons, h]
      rfl

/-- The delivery of the queued records: the queue is emptied and a focus is scheduled for
each control that the records lead to; nothing else changes. -/
theorem deliverMutations_eq (w : World) :
    deliverMutations w =
      { app := w.app
        doc := { w.doc with mutations := [] }
        env := { w.env with
          nextTimerId := (w.timerState.addFocuses (focusTargets w.doc)).nextTimerId
          timers := (w.timerState.addFocuses (focusTargets w.doc)).timers } } := by
  unfold deliverMutations
  rw [foldl_observeRecord]
  rfl

theorem deliverMutations_app (w : World) : (deliverMutations w).app = w.app := by
  rw [deliverMutations_eq]

theorem deliverMutations_doc (w : World) :
    (deliverMutations w).doc = { w.doc with mutations := [] } := by
  rw [deliverMutations_eq]

theorem timerState_deliverMutations (w : World) :
    (deliverMutations w).timerState = w.timerState.addFocuses (focusTargets w.doc) := by
  rw [deliverMutations_eq]
  obtain ⟨h1, h2, h3, h4, h5⟩ := addFocuses_fields (focusTargets w.doc) w.timerState
  generalize w.timerState.addFocuses (focusTargets w.doc) = s at h1 h2 h3 h4 h5
  cases s
  simp only [World.timerState] at h1 h2 h3 h4 h5 ⊢
  subst h1 h2 h3 h4 h5
  rfl

theorem deliverMutations_of_empty (w : World) (h : w.doc.mutations = []) :
    deliverMutations w = w := by
  unfold deliverMutations
  rw [h]
  cases w with
  | mk app doc env =>
    cases doc
    simp only at h
    subst h
    rfl

theorem tracked_addFocus {s : TimerState} (h : s.Tracked) (c : Control) :
    (s.addFocus c).Tracked := by
  have hn := h.next_pos
  refine ⟨?_, ?_, ?_, ?_, ?_⟩
  · show 0 < s.nextTimerId + 1
    omega
  · intro t ht
    simp only [TimerState.addFocus, List.mem_append, List.mem_singleton] at ht
    rcases ht with hold | rfl
    · exact h.id_pos t hold
    · exact hn
  · intro t ht
    show t.id < s.nextTimerId + 1
    simp only [TimerState.addFocus, List.mem_append, List.mem_singleton] at ht
    rcases ht with hold | rfl
    · have := h.id_lt t hold
      omega
    · show s.nextTimerId < s.nextTimerId + 1
      omega
  · intro t ht hc
    simp only [TimerState.addFocus, List.mem_append, List.mem_singleton] at ht
    rcases ht with hold | rfl
    · exact h.warning t hold hc
    · cases hc
  · intro t ht hc
    simp only [TimerState.addFocus, List.mem_append, List.mem_singleton] at ht
    rcases ht with hold | rfl
    · exact h.expiry t hold hc
    · cases hc

theorem tracked_addFocuses {s : TimerState} (h : s.Tracked) (cs : List Control) :
    (s.addFocuses cs).Tracked := by
  induction cs generalizing s with
  | nil => exact h
  | cons c cs ih => exact ih (tracked_addFocus h c)

theorem tracked_deliverMutations {w : World} (h : w.timerState.Tracked) :
    (deliverMutations w).timerState.Tracked := by
  rw [timerState_deliverMutations]
  exact tracked_addFocuses h _

/-- The timer part of the state after the focus callback: nothing happens to it, or, when
the control is an `input`, the idle timer is re-armed. -/
theorem timerState_focusFirst (c : Control) (w : World) :
    (focusFirst c w).timerState = w.timerState ∨
      (c = .input ∧ (focusFirst c w).timerState = w.timerState.rearm) := by
  unfold focusFirst
  cases w.env.focusMoves with
  | nil => exact Or.inl rfl
  | cons moved rest =>
    simp only []
    split
    · rename_i h
      refine Or.inr ⟨h.2, ?_⟩
      rw [timerState_resetIdleTimer]
      rfl
    · exact Or.inl rfl

theorem focusFirst_doc (c : Control) (w : World) : (focusFirst c w).doc = w.doc := by
  unfold focusFirst
  cases w.env.focusMoves with
  | nil => rfl
  | cons moved rest =>
    simp only []
    split
    · rw [resetIdleTimer_doc]
    · rfl

theorem fireTimer_of_due {id : Nat} {w : World} {t : Timer} (h : dueTimer id w = some t) :
    fireTimer id w =
      deliverMutations (runCallback t.callback
        { w with env := { w.env with timers := w.env.timers.filter (fun u => u.id != id) } }) := by
  unfold fireTimer
  rw [h]

theorem fireTimer_of_not_due {id : Nat} {w : World} (h : dueTimer id w = none) :
    fireTimer id w = w := by
  unfold fireTimer
  rw [h]

/-- The timer part of the state after a callback has run, before the records are
delivered. -/
theorem timerState_runCallback (cb : Callback) (w : World) :
    (cb = .closeTimeoutModal ∧ (runCallback cb w).timerState = w.timerState) ∨
    (cb = .showTimeoutWarning ∧ (runCallback cb w).timerState = w.timerState.addClose) ∨
    (cb = .handleSessionTimeout ∧ (runCallback cb w).timerState = w.timerState.rearm) ∨
    (∃ c, cb = .focusFirst c ∧
      ((runCallback cb w).timerState = w.timerState ∨
        (c = .input ∧ (runCallback cb w).timerState = w.timerState.rearm))) := by
  cases cb with
  | showTimeoutWarning =>
    exact Or.inr (Or.inl ⟨rfl, by rw [runCallback, timerState_showTimeoutWarning]⟩)
  | handleSessionTimeout =>
    exact Or.inr (Or.inr (Or.inl ⟨rfl, by rw [runCallback, timerState_handleSessionTimeout]⟩))
  | closeTimeoutModal =>
    exact Or.inl ⟨rfl, by rw [runCallback, timerState_closeTimeoutModal]⟩
  | focusFirst c =>
    exact Or.inr (Or.inr (Or.inr ⟨c, rfl, timerState_focusFirst c w⟩))

/-- The timer part of the state after the browser has run a timer: the timer has left the
list, its callback has run, and the observer has scheduled a focus for some controls. -/
theorem timerState_fireTimer (id : Nat) (w : World) :
    (dueTimer id w = none ∧ (fireTimer id w).timerState = w.timerState) ∨
    (∃ t cs, dueTimer id w = some t ∧
      ((t.callback = .closeTimeoutModal ∧
          (fireTimer id w).timerState = (w.timerState.remove id).addFocuses cs) ∨
       (t.callback = .showTimeoutWarning ∧
          (fireTimer id w).timerState = (w.timerState.remove id).addClose.addFocuses cs) ∨
       (t.callback = .handleSessionTimeout ∧
          (fireTimer id w).timerState = (w.timerState.remove id).rearm.addFocuses cs) ∨
       (∃ c, t.callback = .focusFirst c ∧
          ((fireTimer id w).timerState = (w.timerState.remove id).addFocuses cs ∨
            (c = .input ∧
              (fireTimer id w).timerState = (w.timerState.remove id).rearm.addFocuses cs))))) := by
  cases h : dueTimer id w with
  | none => exact Or.inl ⟨rfl, by rw [fireTimer_of_not_due h]⟩
  | some t =>
    have hts : ({ w with env := { w.env with
        timers := w.env.timers.filter (fun u => u.id != id) } } : World).timerState =
        w.timerState.remove id := rfl
    rw [fireTimer_of_due h, timerState_deliverMutations]
    generalize ({ w with env := { w.env with
        timers := w.env.timers.filter (fun u => u.id != id) } } : World) = v at hts ⊢
    refine Or.inr ⟨t, focusTargets (runCallback t.callback v).doc, rfl, ?_⟩
    rw [← hts]
    rcases timerState_runCallback t.callback v with
      ⟨hc, he⟩ | ⟨hc, he⟩ | ⟨hc, he⟩ | ⟨c, hc, he | ⟨hi, he⟩⟩
    · exact Or.inl ⟨hc, by rw [he]⟩
    · exact Or.inr (Or.inl ⟨hc, by rw [he]⟩)
    · exact Or.inr (Or.inr (Or.inl ⟨hc, by rw [he]⟩))
    · exact Or.inr (Or.inr (Or.inr ⟨c, hc, Or.inl (by rw [he])⟩))
    · exact Or.inr (Or.inr (Or.inr ⟨c, hc, Or.inr ⟨hi, by rw [he]⟩⟩))

theorem tracked_perform (a : Action) (w : World) (h : w.timerState.Tracked) :
    (perform a w).timerState.Tracked := by
  cases a with
  | showScreen n => exact tracked_deliverMutations (tracked_rearmed h (rearmed_showScreen n w))
  | nextStep n => exact tracked_deliverMutations (tracked_rearmed h (rearmed_nextStep n w))
  | selectDepartment d =>
    exact tracked_deliverMutations (tracked_rearmed h (rearmed_selectDepartment d w))
  | goHome => exact tracked_deliverMutations ((timerState_goHome w) ▸ tracked_rearm h)
  | resetTimeout => exact tracked_deliverMutations ((timerState_resetTimeout w) ▸ tracked_rearm h)
  | resetIdleTimer =>
    exact tracked_deliverMutations ((timerState_resetIdleTimer w) ▸ tracked_rearm h)
  | speak t => exact tracked_deliverMutations ((timerState_speak t w) ▸ h)
  | setPatientName v => exact h
  | setPatientBirth v => exact h
  | setPatientPhone v => exact h
  | setSymptom i c => exact tracked_deliverMutations ((timerState_setSymptom i c w) ▸ h)
  | advance ms => exact ⟨h.next_pos, h.id_pos, h.id_lt, h.warning, h.expiry⟩
  | fire id =>
    rcases timerState_fireTimer id w with
      ⟨_, he⟩ | ⟨t, cs, _, ⟨_, he⟩ | ⟨_, he⟩ | ⟨_, he⟩ | ⟨c, _, he | ⟨_, he⟩⟩⟩
    · exact he ▸ h
    · exact he ▸ tracked_addFocuses (tracked_remove h id) cs
    · exact he ▸ tracked_addFocuses (tracked_addClose (tracked_remove h id)) cs
    · exact he ▸ tracked_addFocuses (tracked_rearm (tracked_remove h id)) cs
    · exact he ▸ tracked_addFocuses (tracked_remove h id) cs
    · exact he ▸ tracked_addFocuses (tracked_rearm (tracked_remove h id)) cs

theorem tracked_run (as : List Action) (w : World) (h : w.timerState.Tracked) :
    (run as w).timerState.Tracked := by
  induction as generalizing w with
  | nil => exact h
  | cons a as ih => exact ih _ (tracked_perform a w h)

theorem timerState_startSession (w : World) : (startSession w).timerState = w.timerState :=
  rfl

/-- The timer part of the state that the constructor leaves. -/
theorem timerState_construct (doc : Document) (env : Browser) :
    (construct doc env).timerState =
      TimerState.rearm
        { now := env.now, nextTimerId := env.nextTimerId, timers := env.timers,
          idleTimer := none, warningTimer := none, sessionTimeout := 120, warningTime := 30 } := by
  unfold construct
  simp only []
  rw [timerState_speak]
  show (resetIdleTimer _).timerState = _
  rw [timerState_resetIdleTimer, timerState_startSession]
  rfl

/-- The constructor, started in a browser with no pending timer of the application and a
positive next handle, establishes the invariant. -/
theorem tracked_construct (doc : Document) (env : Browser) (h0 : env.timers = [])
    (hid : 0 < env.nextTimerId) : (construct doc env).timerState.Tracked := by
  rw [timerState_construct]
  apply tracked_rearm
  refine ⟨hid, ?_, ?_, ?_, ?_⟩ <;> simp [h0]

/-- Every state that a run reaches from the constructor satisfies the invariant. -/
theorem tracked_reachable (doc : Document) (env : Browser) (h0 : env.timers = [])
    (hid : 0 < env.nextTimerId) (pre : List Action) :
    (run pre (construct doc env)).timerState.Tracked :=
  tracked_run pre _ (tracked_construct doc env h0 hid)

/-! ## Going home -/

theorem find_map_isSome (f : Element → Element) (hf : ∀ e, (f e).id = e.id) (id : String)
    (es : List Element) :
    ((es.map f).find? (fun e => e.id == id)).isSome =
      (es.find? (fun e => e.id == id)).isSome := by
  induction es with
  | nil => rfl
  | cons e es ih =>
    simp only [List.map_cons, List.find?_cons, hf]
    by_cases he : (e.id == id) = true
    · simp [he]
    · simp only [he]
      exact ih

theorem getElementById_resetForm_isSome (d : Document) (id : String) :
    (d.resetForm.getElementById id).isSome = (d.getElementById id).isSome := by
  unfold Document.getElementById Document.resetForm
  by_cases hid : id = ""
  · simp [hid]
  · simp only [hid, if_false]
    exact find_map_isSome
      (fun e => { e with classes := e.classes.filter (fun c => c != "selected") })
      (fun _ => rfl) id d.elements

theorem showScreen_other_doc_isSome (s : String) (w : World) (hs : s ≠ "reception")
    (id : String) :
    ((showScreen s w).doc.getElementById id).isSome = (w.doc.getElementById id).isSome := by
  unfold showScreen
  rw [(announceScreenChange_quiet _ _).doc, resetIdleTimer_doc]
  split
  · rw [if_neg hs]
    simp only []
    rw [getElementById_addClass_isSome, getElementById_removeClassFromAll_isSome]
  · simp only []
    rw [getElementById_removeClassFromAll_isSome]

theorem goHome_doc_isSome (w : World) (id : String) :
    ((goHome w).doc.getElementById id).isSome = (w.doc.getElementById id).isSome := by
  unfold goHome
  simp only []
  rw [(speak_quiet _ _).doc]
  show ((showScreen "home" w).doc.resetForm.getElementById id).isSome = _
  rw [getElementById_resetForm_isSome, showScreen_other_doc_isSome "home" w (by decide)]

theorem goHome_currentScreen (w : World) :
    (goHome w).app.currentScreen = (showScreen "home" w).app.currentScreen := by
  unfold goHome
  simp only []
  rw [(speak_quiet _ _).currentScreen]
  rfl

theorem goHome_currentStep (w : World) : (goHome w).app.currentStep = "patient-input" := by
  unfold goHome
  simp only []
  rw [(speak_quiet _ _).currentStep]
  rfl

theorem goHome_sessionData (w : World) : (goHome w).app.sessionData = SessionData.empty := by
  unfold goHome
  simp only []
  rw [(speak_quiet _ _).sessionData]
  rfl

/-- After `goHome` no session id is left, so `handleSessionTimeout` ends in the state that
`goHome` leaves. -/
theorem handleSessionTimeout_eq (w : World) :
    handleSessionTimeout w = goHome (speak "시간 초과로 초기 화면으로 돌아갑니다." w) := by
  unfold handleSessionTimeout
  simp only []
  have h := goHome_sessionData (speak "시간 초과로 초기 화면으로 돌아갑니다." w)
  split
  · rfl
  · rename_i sid hsid
    rw [h] at hsid
    cases hsid

/-- C11: on a page that has the element `home-screen`, after `goHome()` and likewise after
`handleSessionTimeout()` the screen is 'home', the step is 'patient-input' and
`sessionData` is the empty object, whatever the state was before. -/
theorem goHome_resets_stepper (w : World)
    (hpage : (w.doc.getElementById "home-screen").isSome = true) :
    ((goHome w).app.currentScreen = "home" ∧
      (goHome w).app.currentStep = "patient-input" ∧
      (goHome w).app.sessionData = SessionData.empty) ∧
    ((handleSessionTimeout w).app.currentScreen = "home" ∧
      (handleSessionTimeout w).app.currentStep = "patient-input" ∧
      (handleSessionTimeout w).app.sessionData = SessionData.empty) := by
  have hname : "home" ++ "-screen" = "home-screen" := by decide
  refine ⟨⟨?_, goHome_currentStep w, goHome_sessionData w⟩, ?_⟩
  · rw [goHome_currentScreen]
    exact showScreen_currentScreen_found "home" w (by rw [hname]; exact hpage)
  · rw [handleSessionTimeout_eq]
    refine ⟨?_, goHome_currentStep _, goHome_sessionData _⟩
    rw [goHome_currentScreen]
    apply showScreen_currentScreen_found
    rw [hname, (speak_quiet _ w).doc]
    exact hpage

/-- C11 at the finished reception. -/
theorem goHome_resets_stepper_witness :
    (confirmedWorld.doc.getElementById "home-screen").isSome = true ∧
    confirmedWorld.app.currentScreen = "reception" ∧
    (goHome confirmedWorld).app.currentScreen = "home" ∧
    (handleSessionTimeout confirmedWorld).app.sessionData = SessionData.empty :=
  ⟨by decide, by decide, (goHome_resets_stepper confirmedWorld (by decide)).1.1,
    (goHome_resets_stepper confirmedWorld (by decide)).2.2.2⟩

/-- Re-arming twice at the same instant leaves the same countdowns as re-arming once. -/
theorem rearm_rearm_deadlines {s : TimerState} (h : s.Tracked) :
    s.rearm.rearm.timers.map (fun t => (t.due, t.callback)) =
      s.rearm.timers.map (fun t => (t.due, t.callback)) := by
  have hn := h.next_pos
  have hold : ∀ t ∈ clearHandle s.warningTimer (clearHandle s.idleTimer s.timers),
      t.id < s.nextTimerId := fun t ht =>
    h.id_lt t (mem_clearHandle (mem_clearHandle ht).1).1
  have h1 : (clearHandle s.warningTimer (clearHandle s.idleTimer s.timers)).filter
      (fun t => t.id != s.nextTimerId + 1) =
      clearHandle s.warningTimer (clearHandle s.idleTimer s.timers) := by
    rw [List.filter_eq_self]
    intro t ht
    have := hold t ht
    simp only [bne_iff_ne, ne_eq]
    omega
  have h2 : (clearHandle s.warningTimer (clearHandle s.idleTimer s.timers)).filter
      (fun t => t.id != s.nextTimerId) =
      clearHandle s.warningTimer (clearHandle s.idleTimer s.timers) := by
    rw [List.filter_eq_self]
    intro t ht
    have := hold t ht
    simp only [bne_iff_ne, ne_eq]
    omega
  have e1 : s.nextTimerId + 1 ≠ 0 := by omega
  have e2 : s.nextTimerId ≠ 0 := by omega
  simp only [TimerState.rearm]
  generalize clearHandle s.warningTimer (clearHandle s.idleTimer s.timers) = C at hold h1 h2 ⊢
  simp only [clearHandle, e1, e2, if_false, List.filter_append, h1, h2]
  simp [List.filter_cons]

theorem deadlines_eq (w : World) :
    deadlines w = w.timerState.timers.map (fun t => (t.due, t.callback)) :=
  rfl

/-- C12: `goHome` is idempotent. In every state that a run reaches from the constructor,
calling `goHome()` twice in a row, with no time passing, leaves the same `currentScreen`,
`currentStep` and `sessionData` and the same pending countdowns as calling it once. -/
theorem goHome_idempotent (doc : Document) (env : Browser) (h0 : env.timers = [])
    (hid : 0 < env.nextTimerId) (pre : List Action) (w : World)
    (hw : w = run pre (construct doc env)) :
    (goHome (goHome w)).app.currentScreen = (goHome w).app.currentScreen ∧
    (goHome (goHome w)).app.currentStep = (goHome w).app.currentStep ∧
    (goHome (goHome w)).app.sessionData = (goHome w).app.sessionData ∧
    (goHome (goHome w)).env.now = (goHome w).env.now ∧
    deadlines (goHome (goHome w)) = deadlines (goHome w) := by
  have ht : w.timerState.Tracked := hw ▸ tracked_reachable doc env h0 hid pre
  refine ⟨?_, ?_, ?_, ?_, ?_⟩
  · have hname : "home" ++ "-screen" = "home-screen" := by decide
    rw [goHome_currentScreen (goHome w)]
    cases hf : w.doc.getElementById "home-screen" with
    | none =>
      apply showScreen_currentScreen_missing
      have h := goHome_doc_isSome w "home-screen"
      rw [hf] at h
      rw [hname]
      cases hg : (goHome w).doc.getElementById "home-screen" with
      | none => rfl
      | some e =>
        rw [hg] at h
        cases h
    | some e =>
      rw [goHome_currentScreen w,
        showScreen_currentScreen_found "home" w (by rw [hname, hf]; rfl)]
      apply showScreen_currentScreen_found
      rw [hname, goHome_doc_isSome, hf]
      rfl
  · rw [goHome_currentStep, goHome_currentStep]
  · rw [goHome_sessionData, goHome_sessionData]
  · have h1 := congrArg TimerState.now (timerState_goHome (goHome w))
    exact h1
  · rw [deadlines_eq, deadlines_eq, timerState_goHome, timerState_goHome]
    exact rearm_rearm_deadlines ht

/-- C12 at a state reached from the constructor on the sample page. -/
theorem goHome_idempotent_witness :
    deadlines (goHome (goHome (run [.showScreen "reception", .advance 1000]
      (construct samplePage sampleBrowser)))) =
    deadlines (goHome (run [.showScreen "reception", .advance 1000]
      (construct samplePage sampleBrowser))) :=
  (goHome_idempotent samplePage sampleBrowser rfl (by decide)
    [.showScreen "reception", .advance 1000] _ rfl).2.2.2.2

/-! ## The settings of the idle timer -/

theorem rearm_iterate_config (k : Nat) (s : TimerState) :
    (TimerState.rearm^[k] s).sessionTimeout = s.sessionTimeout ∧
      (TimerState.rearm^[k] s).warningTime = s.warningTime := by
  induction k generalizing s with
  | zero => exact ⟨rfl, rfl⟩
  | succ k ih => exact ih s.rearm

theorem rearmed_config {s s' : TimerState} (h : Rearmed s s') :
    s'.sessionTimeout = s.sessionTimeout ∧ s'.warningTime = s.warningTime := by
  obtain ⟨k, rfl⟩ := h
  exact rearm_iterate_config k s

theorem config_of_timerState {w w' : World} {s : TimerState} (h : w'.timerState = s)
    (hs : s.sessionTimeout = w.timerState.sessionTimeout ∧
      s.warningTime = w.timerState.warningTime) :
    w'.app.sessionTimeout = w.app.sessionTimeout ∧ w'.app.warningTime = w.app.warningTime := by
  subst h
  exact hs

theorem config_deliverMutations {w v : World}
    (h : v.app.sessionTimeout = w.app.sessionTimeout ∧ v.app.warningTime = w.app.warningTime) :
    (deliverMutations v).app.sessionTimeout = w.app.sessionTimeout ∧
      (deliverMutations v).app.warningTime = w.app.warningTime := by
  rw [deliverMutations_app]
  exact h

theorem config_perform (a : Action) (w : World) :
    (perform a w).app.sessionTimeout = w.app.sessionTimeout ∧
      (perform a w).app.warningTime = w.app.warningTime := by
  cases a with
  | showScreen n =>
    exact config_deliverMutations
      (config_of_timerState rfl (rearmed_config (rearmed_showScreen n w)))
  | nextStep n =>
    exact config_deliverMutations
      (config_of_timerState rfl (rearmed_config (rearmed_nextStep n w)))
  | selectDepartment d =>
    exact config_deliverMutations
      (config_of_timerState rfl (rearmed_config (rearmed_selectDepartment d w)))
  | goHome =>
    exact config_deliverMutations (config_of_timerState (timerState_goHome w) ⟨rfl, rfl⟩)
  | resetTimeout =>
    exact config_deliverMutations (config_of_timerState (timerState_resetTimeout w) ⟨rfl, rfl⟩)
  | resetIdleTimer =>
    exact config_deliverMutations
      (config_of_timerState (timerState_resetIdleTimer w) ⟨rfl, rfl⟩)
  | speak t =>
    exact config_deliverMutations (config_of_timerState (timerState_speak t w) ⟨rfl, rfl⟩)
  | setPatientName v => exact ⟨rfl, rfl⟩
  | setPatientBirth v => exact ⟨rfl, rfl⟩
  | setPatientPhone v => exact ⟨rfl, rfl⟩
  | setSymptom i c =>
    exact config_deliverMutations
      (config_of_timerState (timerState_setSymptom i c w) ⟨rfl, rfl⟩)
  | advance ms => exact ⟨rfl, rfl⟩
  | fire id =>
    have hfoc : ∀ (s : TimerState) (cs : List Control),
        (s.addFocuses cs).sessionTimeout = s.sessionTimeout ∧
          (s.addFocuses cs).warningTime = s.warningTime := fun s cs =>
      ⟨(addFocuses_fields cs s).2.2.2.1, (addFocuses_fields cs s).2.2.2.2⟩
    rcases timerState_fireTimer id w with
      ⟨_, he⟩ | ⟨t, cs, _, ⟨_, he⟩ | ⟨_, he⟩ | ⟨_, he⟩ | ⟨c, _, he | ⟨_, he⟩⟩⟩
    · exact config_of_timerState he ⟨rfl, rfl⟩
    · exact config_of_timerState he (hfoc _ cs)
    · exact config_of_timerState he (hfoc _ cs)
    · exact config_of_timerState he (hfoc _ cs)
    · exact config_of_timerState he (hfoc _ cs)
    · exact config_of_timerState he (hfoc _ cs)

theorem config_run (as : List Action) (w : World) :
    (run as w).app.sessionTimeout = w.app.sessionTimeout ∧
      (run as w).app.warningTime = w.app.warningTime := by
  induction as generalizing w with
  | nil => exact ⟨rfl, rfl⟩
  | cons a as ih =>
    obtain ⟨h1, h2⟩ := ih (perform a w)
    obtain ⟨h3, h4⟩ := config_perform a w
    exact ⟨h1.trans h3, h2.trans h4⟩

theorem config_construct (doc : Document) (env : Browser) :
    (construct doc env).app.sessionTimeout = 120 ∧ (construct doc env).app.warningTime = 30 := by
  have h := timerState_construct doc env
  exact ⟨congrArg TimerState.sessionTimeout h, congrArg TimerState.warningTime h⟩

/-- No method changes the two settings that the constructor writes. -/
theorem config_reachable (doc : Document) (env : Browser) (pre : List Action) :
    (run pre (construct doc env)).app.sessionTimeout = 120 ∧
      (run pre (construct doc env)).app.warningTime = 30 := by
  obtain ⟨h1, h2⟩ := config_run pre (construct doc env)
  obtain ⟨h3, h4⟩ := config_construct doc env
  exact ⟨h1.trans h3, h2.trans h4⟩

theorem resetIdleTimer_timers (w : World) :
    (resetIdleTimer w).env.timers =
      clearHandle w.app.warningTimer (clearHandle w.app.idleTimer w.env.timers) ++
        [ { id := w.env.nextTimerId,
            due := w.env.now + (w.app.sessionTimeout - w.app.warningTime) * 1000,
            callback := .showTimeoutWarning },
          { id := w.env.nextTimerId + 1, due := w.env.now + w.app.sessionTimeout * 1000,
            callback := .handleSessionTimeout } ] :=
  congrArg TimerState.timers (timerState_resetIdleTimer w)

/-- C16: in every state of a constructed `KioskApp`, `sessionTimeout` is 120 and
`warningTime` is 30, so the first is strictly greater; `resetIdleTimer()` schedules the
warning 90000 ms and the expiry 120000 ms from now and keeps their handles; the delay of
the warning is positive and the warning is due exactly `warningTime` seconds before the
expiry. -/
theorem resetIdleTimer_delays (doc : Document) (env : Browser) (pre : List Action) (w : World)
    (hw : w = run pre (construct doc env)) :
    w.app.sessionTimeout = 120 ∧ w.app.warningTime = 30 ∧
    w.app.warningTime < w.app.sessionTimeout ∧
    (w.app.sessionTimeout - w.app.warningTime) * 1000 = 90000 ∧
    w.app.sessionTimeout * 1000 = 120000 ∧
    (resetIdleTimer w).env.timers =
      clearHandle w.app.warningTimer (clearHandle w.app.idleTimer w.env.timers) ++
        [ { id := w.env.nextTimerId, due := w.env.now + 90000,
            callback := .showTimeoutWarning },
          { id := w.env.nextTimerId + 1, due := w.env.now + 120000,
            callback := .handleSessionTimeout } ] ∧
    (resetIdleTimer w).app.warningTimer = some w.env.nextTimerId ∧
    (resetIdleTimer w).app.idleTimer = some (w.env.nextTimerId + 1) ∧
    (w.env.now + 120000) - (w.env.now + 90000) = w.app.warningTime * 1000 := by
  obtain ⟨hT, hW⟩ : w.app.sessionTimeout = 120 ∧ w.app.warningTime = 30 :=
    hw ▸ config_reachable doc env pre
  have ht := resetIdleTimer_timers w
  have e1 : (120 - 30) * 1000 = 90000 := by norm_num
  have e2 : 120 * 1000 = 120000 := by norm_num
  rw [hT, hW, e1, e2] at ht
  refine ⟨hT, hW, by omega, by omega, by omega, ht, ?_, ?_, by omega⟩
  · exact congrArg TimerState.warningTimer (timerState_resetIdleTimer w)
  · exact congrArg TimerState.idleTimer (timerState_resetIdleTimer w)

/-- C16 at the state the constructor leaves on the sample page, ten seconds later. -/
theorem resetIdleTimer_delays_witness :
    (resetIdleTimer (run [.advance 10000] (construct samplePage sampleBrowser))).env.timers =
      [ { id := 3, due := 100000, callback := .showTimeoutWarning },
        { id := 4, due := 130000, callback := .handleSessionTimeout } ] :=
  (resetIdleTimer_delays samplePage sampleBrowser [.advance 10000] _ rfl).2.2.2.2.2.1

/-! ## Cancelling and re-arming -/

/-- C13: in every state that a run reaches from the constructor (also one in which the
warning has already fired), `resetIdleTimer()` leaves no warning or expiry timer that was
pending before the call, schedules a fresh warning and a fresh expiry from now, and leaves
no other warning or expiry pending; after `resetTimeout()` every pending expiry is due a
full `sessionTimeout` from now, so that no timer the browser runs earlier is the expiry. -/
theorem resetIdleTimer_cancels_pending (doc : Document) (env : Browser) (h0 : env.timers = [])
    (hid : 0 < env.nextTimerId) (pre : List Action) (w : World)
    (hw : w = run pre (construct doc env)) :
    (∀ t ∈ w.env.timers,
      t.callback = .showTimeoutWarning ∨ t.callback = .handleSessionTimeout →
        t ∉ (resetIdleTimer w).env.timers) ∧
    ({ id := w.env.nextTimerId, due := w.env.now + 90000, callback := .showTimeoutWarning }
      ∈ (resetIdleTimer w).env.timers) ∧
    ({ id := w.env.nextTimerId + 1, due := w.env.now + 120000,
       callback := .handleSessionTimeout } ∈ (resetIdleTimer w).env.timers) ∧
    (∀ t ∈ (resetIdleTimer w).env.timers,
      (t.callback = .showTimeoutWarning → t.due = w.env.now + 90000) ∧
      (t.callback = .handleSessionTimeout → t.due = w.env.now + 120000)) ∧
    (∀ t ∈ (resetTimeout w).env.timers,
      t.callback = .handleSessionTimeout → t.due = w.env.now + 120000) ∧
    (∀ ms id, ms < 120000 →
      firedBy (.fire id) (perform (.advance ms) (resetTimeout w)) ≠
        some .handleSessionTimeout) := by
  have ht : w.timerState.Tracked := hw ▸ tracked_reachable doc env h0 hid pre
  obtain ⟨hT, hW⟩ : w.app.sessionTimeout = 120 ∧ w.app.warningTime = 30 :=
    hw ▸ config_reachable doc env pre
  have hfresh : ∀ t ∈ w.timerState.rearm.timers,
      (t.callback = .showTimeoutWarning →
        t = { id := w.env.nextTimerId, due := w.env.now + 90000,
              callback := .showTimeoutWarning }) ∧
      (t.callback = .handleSessionTimeout →
        t = { id := w.env.nextTimerId + 1, due := w.env.now + 120000,
              callback := .handleSessionTimeout }) := by
    intro t hmem
    have h := rearm_fresh ht t hmem
    have e1 : (120 - 30) * 1000 = 90000 := by norm_num
    have e2 : 120 * 1000 = 120000 := by norm_num
    simp only [World.timerState, hT, hW, e1, e2] at h
    exact h
  have hreset : (resetIdleTimer w).env.timers = w.timerState.rearm.timers :=
    congrArg TimerState.timers (timerState_resetIdleTimer w)
  have htimeout : (resetTimeout w).env.timers = w.timerState.rearm.timers :=
    congrArg TimerState.timers (timerState_resetTimeout w)
  have hexp : ∀ t ∈ (resetTimeout w).env.timers,
      t.callback = .handleSessionTimeout → t.due = w.env.now + 120000 := by
    intro t hmem hc
    rw [htimeout] at hmem
    rw [(hfresh t hmem).2 hc]
  refine ⟨?_, ?_, ?_, ?_, hexp, ?_⟩
  · intro t hold hc hnew
    rw [hreset] at hnew
    have hlt := ht.id_lt t hold
    rcases hc with hc | hc
    · have h := congrArg Timer.id ((hfresh t hnew).1 hc)
      simp only [World.timerState] at hlt h
      omega
    · have h := congrArg Timer.id ((hfresh t hnew).2 hc)
      simp only [World.timerState] at hlt h
      omega
  · rw [resetIdleTimer_timers, hT, hW]
    simp
  · rw [resetIdleTimer_timers, hT, hW]
    simp
  · intro t hmem
    rw [hreset] at hmem
    exact ⟨fun hc => by rw [(hfresh t hmem).1 hc], fun hc => by rw [(hfresh t hmem).2 hc]⟩
  · intro ms id hms hfire
    simp only [firedBy, Option.map_eq_some'] at hfire
    obtain ⟨t, hdue, hc⟩ := hfire
    obtain ⟨hmem, _, hle⟩ := dueTimer_some hdue
    have hnow : (resetTimeout w).env.now = w.env.now :=
      congrArg TimerState.now (timerState_resetTimeout w)
    have hd := hexp t hmem hc
    simp only [perform] at hle
    omega

/-- C13 at the sample page: the warning fires after 90 s and five seconds later
`resetIdleTimer` is called; the fresh warning and the fresh expiry are due from then. -/
theorem resetIdleTimer_cancels_pending_witness :
    ({ id := 4, due := 95000 + 90000, callback := .showTimeoutWarning } : Timer) ∈
      (resetIdleTimer (run [.advance 90000, .fire 1, .advance 5000]
        (construct samplePage sampleBrowser))).env.timers ∧
    ({ id := 5, due := 95000 + 120000, callback := .handleSessionTimeout } : Timer) ∈
      (resetIdleTimer (run [.advance 90000, .fire 1, .advance 5000]
        (construct samplePage sampleBrowser))).env.timers :=
  ⟨(resetIdleTimer_cancels_pending samplePage sampleBrowser rfl (by decide)
      [.advance 90000, .fire 1, .advance 5000] _ rfl).2.1,
    (resetIdleTimer_cancels_pending samplePage sampleBrowser rfl (by decide)
      [.advance 90000, .fire 1, .advance 5000] _ rfl).2.2.1⟩

/-! ## Activity that comes often enough -/

theorem safe_rearm {bound e e' : Nat} {s : TimerState} (h : s.Safe bound e) (he : e' < bound) :
    s.rearm.Safe bound e' := by
  refine ⟨tracked_rearm h.tracked, h.bound_eq, he, ?_⟩
  intro t ht hc
  have hb := h.bound_eq
  rcases hc with hc | hc
  · rw [(rearm_fresh h.tracked t ht).1 hc]
    show s.now + bound ≤ s.now + (s.sessionTimeout - s.warningTime) * 1000 + e'
    omega
  · rw [(rearm_fresh h.tracked t ht).2 hc]
    show s.now + bound ≤ s.now + s.sessionTimeout * 1000 + e'
    omega

theorem safe_rearmed {bound e : Nat} {s s' : TimerState} (h : s.Safe bound e)
    (hr : Rearmed s s') : s'.Safe bound e := by
  obtain ⟨k, rfl⟩ := hr
  induction k generalizing s with
  | zero => exact h
  | succ k ih => exact ih (safe_rearm h h.elapsed_lt)

theorem safe_remove {bound e : Nat} {s : TimerState} (h : s.Safe bound e) (id : Nat) :
    (s.remove id).Safe bound e :=
  ⟨tracked_remove h.tracked id, h.bound_eq, h.elapsed_lt,
    fun t ht hc => h.not_due t (List.mem_filter.mp ht).1 hc⟩

theorem safe_addFocus {bound e : Nat} {s : TimerState} (h : s.Safe bound e) (c : Control) :
    (s.addFocus c).Safe bound e := by
  refine ⟨tracked_addFocus h.tracked c, h.bound_eq, h.elapsed_lt, ?_⟩
  intro t ht hc
  simp only [TimerState.addFocus, List.mem_append, List.mem_singleton] at ht
  rcases ht with hold | rfl
  · exact h.not_due t hold hc
  · rcases hc with hc | hc <;> cases hc

theorem safe_addFocuses {bound e : Nat} {s : TimerState} (h : s.Safe bound e)
    (cs : List Control) : (s.addFocuses cs).Safe bound e := by
  induction cs generalizing s with
  | nil => exact h
  | cons c cs ih => exact ih (safe_addFocus h c)

/-- In a safe state the browser has no warning and no expiry to run. -/
theorem safe_dueTimer {bound e : Nat} {w : World} (h : w.timerState.Safe bound e) {id : Nat}
    {t : Timer} (hd : dueTimer id w = some t) :
    t.callback ≠ .showTimeoutWarning ∧ t.callback ≠ .handleSessionTimeout := by
  obtain ⟨hmem, _, hle⟩ := dueTimer_some hd
  have hlt := h.elapsed_lt
  constructor
  · intro hc
    have := h.not_due t hmem (Or.inl hc)
    simp only [World.timerState] at this
    omega
  · intro hc
    have := h.not_due t hmem (Or.inr hc)
    simp only [World.timerState] at this
    omega

theorem safe_trace (bound : Nat) (acts : List Action) :
    ∀ (e : Nat) (w : World), w.timerState.Safe bound e → closelySpaced bound e acts = true →
      Callback.showTimeoutWarning ∉ trace acts w ∧
        Callback.handleSessionTimeout ∉ trace acts w := by
  induction acts with
  | nil =>
    intro e w _ _
    simp [trace]
  | cons a acts ih =>
    intro e w hs hc
    have other : ∀ (hq : closelySpaced bound e acts = true) (s : TimerState)
        (hr : Rearmed w.timerState s) (cs : List Control)
        (he : (perform a w).timerState = s.addFocuses cs) (hf : firedBy a w = none),
        Callback.showTimeoutWarning ∉ trace (a :: acts) w ∧
          Callback.handleSessionTimeout ∉ trace (a :: acts) w := by
      intro hq s hr cs he hf
      simp only [trace, hf, Option.toList, List.nil_append]
      exact ih e _ (he ▸ safe_addFocuses (safe_rearmed hs hr) cs) hq
    cases a with
    | showScreen n =>
      exact other hc _ (rearmed_showScreen n w) _ (timerState_deliverMutations _) rfl
    | nextStep n =>
      exact other hc _ (rearmed_nextStep n w) _ (timerState_deliverMutations _) rfl
    | selectDepartment d =>
      exact other hc _ (rearmed_selectDepartment d w) _ (timerState_deliverMutations _) rfl
    | goHome =>
      exact other hc _ ⟨1, timerState_goHome w⟩ _ (timerState_deliverMutations _) rfl
    | resetTimeout =>
      exact other hc _ ⟨1, timerState_resetTimeout w⟩ _ (timerState_deliverMutations _) rfl
    | speak t =>
      exact other hc _ ⟨0, timerState_speak t w⟩ _ (timerState_deliverMutations _) rfl
    | setPatientName v => exact other hc _ ⟨0, rfl⟩ [] rfl rfl
    | setPatientBirth v => exact other hc _ ⟨0, rfl⟩ [] rfl rfl
    | setPatientPhone v => exact other hc _ ⟨0, rfl⟩ [] rfl rfl
    | setSymptom i c =>
      exact other hc _ ⟨0, timerState_setSymptom i c w⟩ _ (timerState_deliverMutations _) rfl
    | resetIdleTimer =>
      simp only [trace, firedBy, Option.toList, List.nil_append]
      have hpos : 0 < bound := Nat.lt_of_le_of_lt (Nat.zero_le e) hs.elapsed_lt
      refine ih 0 _ ?_ hc
      show (deliverMutations (resetIdleTimer w)).timerState.Safe bound 0
      rw [timerState_deliverMutations, timerState_resetIdleTimer]
      exact safe_addFocuses (safe_rearm hs hpos) _
    | advance ms =>
      simp only [closelySpaced, Bool.and_eq_true, decide_eq_true_eq] at hc
      simp only [trace, firedBy, Option.toList, List.nil_append]
      refine ih (e + ms) _ ?_ hc.2
      refine ⟨⟨hs.tracked.next_pos, hs.tracked.id_pos, hs.tracked.id_lt, hs.tracked.warning,
        hs.tracked.expiry⟩, hs.bound_eq, hc.1, ?_⟩
      intro t ht hcb
      have := hs.not_due t ht hcb
      show w.env.now + ms + bound ≤ t.due + (e + ms)
      simp only [World.timerState] at this
      omega
    | fire id =>
      have hq : closelySpaced bound e acts = true := hc
      cases hd : dueTimer id w with
      | none =>
        have hp : perform (.fire id) w = w := fireTimer_of_not_due hd
        simp only [trace, firedBy, hd, Option.map_none', Option.toList, List.nil_append, hp]
        exact ih e w hs hq
      | some t =>
        obtain ⟨hnw, hne⟩ := safe_dueTimer hs hd
        have hsafe : (perform (.fire id) w).timerState.Safe bound e := by
          rcases timerState_fireTimer id w with
            ⟨hn, _⟩ | ⟨u, cs, hu, ⟨_, he⟩ | ⟨hx, _⟩ | ⟨hx, _⟩ | ⟨c, _, he | ⟨_, he⟩⟩⟩
          · rw [hd] at hn
            cases hn
          · exact he ▸ safe_addFocuses (safe_remove hs id) cs
          · rw [hd] at hu
            cases hu
            exact absurd hx hnw
          · rw [hd] at hu
            cases hu
            exact absurd hx hne
          · exact he ▸ safe_addFocuses (safe_remove hs id) cs
          · exact he ▸ safe_addFocuses (safe_rearm (safe_remove hs id) hs.elapsed_lt) cs
        have hrec := ih e (perform (.fire id) w) hsafe hq
        simp only [trace, firedBy, hd, Option.map_some', Option.toList,
          List.singleton_append, List.mem_cons, not_or]
        exact ⟨⟨Ne.symm hnw, hrec.1⟩, ⟨Ne.symm hne, hrec.2⟩⟩

/-- C14: in every state that a run reaches from the constructor, a call of
`resetIdleTimer()` followed by any actions during which no moment is 90 seconds or more
after the latest call of `resetIdleTimer()` never makes the browser run
`showTimeoutWarning` or `handleSessionTimeout`. -/
theorem no_warning_while_active (doc : Document) (env : Browser) (h0 : env.timers = [])
    (hid : 0 < env.nextTimerId) (pre : List Action) (w : World)
    (hw : w = run pre (construct doc env)) (acts : List Action)
    (hspaced : closelySpaced 90000 0 acts = true) :
    Callback.showTimeoutWarning ∉ trace (.resetIdleTimer :: acts) w ∧
      Callback.handleSessionTimeout ∉ trace (.resetIdleTimer :: acts) w := by
  have ht : w.timerState.Tracked := hw ▸ tracked_reachable doc env h0 hid pre
  obtain ⟨hT, hW⟩ : w.app.sessionTimeout = 120 ∧ w.app.warningTime = 30 :=
    hw ▸ config_reachable doc env pre
  have hb : (w.timerState.sessionTimeout - w.timerState.warningTime) * 1000 = 90000 := by
    simp only [World.timerState, hT, hW]
  have hsafe : (resetIdleTimer w).timerState.Safe 90000 0 := by
    rw [timerState_resetIdleTimer]
    refine ⟨tracked_rearm ht, hb, by omega, ?_⟩
    intro t hmem hc
    rcases hc with hc | hc
    · rw [(rearm_fresh ht t hmem).1 hc]
      show w.timerState.now + 90000 ≤
        w.timerState.now + (w.timerState.sessionTimeout - w.timerState.warningTime) * 1000 + 0
      omega
    · rw [(rearm_fresh ht t hmem).2 hc]
      show w.timerState.now + 90000 ≤ w.timerState.now + w.timerState.sessionTimeout * 1000 + 0
      omega
  have hsafe' : (deliverMutations (resetIdleTimer w)).timerState.Safe 90000 0 := by
    rw [timerState_deliverMutations]
    exact safe_addFocuses hsafe _
  have h := safe_trace 90000 acts 0 (deliverMutations (resetIdleTimer w)) hsafe' hspaced
  simpa only [trace, firedBy, Option.toList, List.nil_append, perform] using h

/-- C14 at the sample page: three calls 80 s apart, with the browser trying to run both
timers of each round in between. -/
theorem no_warning_while_active_witness :
    closelySpaced 90000 0
      [.advance 80000, .fire 1, .fire 2, .resetIdleTimer, .advance 80000, .fire 3, .fire 4,
        .resetIdleTimer] = true ∧
    Callback.showTimeoutWarning ∉ trace (.resetIdleTimer ::
      [.advance 80000, .fire 1, .fire 2, .resetIdleTimer, .advance 80000, .fire 3, .fire 4,
        .resetIdleTimer]) (construct samplePage sampleBrowser) ∧
    Callback.handleSessionTimeout ∉ trace (.resetIdleTimer ::
      [.advance 80000, .fire 1, .fire 2, .resetIdleTimer, .advance 80000, .fire 3, .fire 4,
        .resetIdleTimer]) (construct samplePage sampleBrowser) :=
  ⟨by decide,
    no_warning_while_active samplePage sampleBrowser rfl (by decide) [] _ rfl
      [.advance 80000, .fire 1, .fire 2, .resetIdleTimer, .advance 80000, .fire 3, .fire 4,
        .resetIdleTimer] (by decide)⟩

/-! ## The screens of the page along a run -/

theorem screenControls_congr {d d' : Document} (h : d'.elements = d.elements) :
    screenControls d' = screenControls d := by
  unfold screenControls
  rw [h]

theorem screenControls_length (d : Document) :
    (screenControls d).length = d.elements.length := by
  simp [screenControls]

theorem screenControls_removeClassFromAll (d : Document) (sel cls : String)
    (h : cls ≠ "screen") :
    screenControls (d.removeClassFromAll sel cls) = screenControls d := by
  unfold screenControls Document.removeClassFromAll
  simp only [List.map_map]
  apply List.map_congr_left
  intro e _
  simp only [Function.comp]
  split
  · have hm : "screen" ∈ e.classes.filter (fun c => c != cls) ↔ "screen" ∈ e.classes := by
      simp [List.mem_filter, Ne.symm h]
    simp only [hm]
  · rfl

theorem screenControls_addClassFirst (id cls : String) (h : cls ≠ "screen")
    (es : List Element) :
    (addClassFirst id cls es).map
        (fun e => if "screen" ∈ e.classes then e.firstFocusable else none) =
      es.map (fun e => if "screen" ∈ e.classes then e.firstFocusable else none) := by
  induction es with
  | nil => rfl
  | cons e es ih =>
    unfold addClassFirst
    split
    · split
      · rfl
      · have hm : "screen" ∈ e.classes ++ [cls] ↔ "screen" ∈ e.classes := by
          simp [List.mem_append, Ne.symm h]
        simp only [List.map_cons, hm]
    · simp only [List.map_cons, ih]

theorem screenControls_addClass (d : Document) (id cls : String) (h : cls ≠ "screen") :
    screenControls (d.addClass id cls) = screenControls d := by
  unfold Document.addClass
  split
  · rfl
  · exact screenControls_addClassFirst id cls h d.elements

theorem screenControls_resetForm (d : Document) :
    screenControls d.resetForm = screenControls d := by
  unfold screenControls Document.resetForm
  simp only [List.map_map]
  apply List.map_congr_left
  intro e _
  have hm : "screen" ∈ e.classes.filter (fun c => c != "selected") ↔ "screen" ∈ e.classes := by
    simp [List.mem_filter]
  simp only [Function.comp, hm]

theorem samePage_refl (w : World) : SamePage w w :=
  rfl

theorem samePage_trans {a b c : World} (h1 : SamePage a b) (h2 : SamePage b c) :
    SamePage a c :=
  Eq.trans h2 h1

theorem samePage_of_doc {w w' : World} (h : w'.doc = w.doc) : SamePage w w' := by
  unfold SamePage
  rw [h]

theorem samePage_of_quiet {w w' : World} (h : Quiet w w') : SamePage w w' :=
  samePage_of_doc h.doc

theorem samePage_resetIdleTimer (w : World) : SamePage w (resetIdleTimer w) :=
  samePage_of_doc (resetIdleTimer_doc w)

theorem samePage_speak (t : String) (w : World) : SamePage w (speak t w) :=
  samePage_of_quiet (speak_quiet t w)

theorem samePage_showStep (n : String) (w : World) : SamePage w (showStep n w) := by
  unfold showStep
  refine samePage_trans ?_ (samePage_resetIdleTimer _)
  simp only []
  split
  · show screenControls ((w.doc.removeClassFromAll "step-content" "active").addClass _ "active") =
      screenControls w.doc
    rw [screenControls_addClass _ _ _ (by decide),
      screenControls_removeClassFromAll _ _ _ (by decide)]
  · exact screenControls_removeClassFromAll _ _ _ (by decide)

theorem samePage_showScreen (s : String) (w : World) : SamePage w (showScreen s w) := by
  unfold showScreen
  refine samePage_trans (samePage_trans ?_ (samePage_resetIdleTimer _))
    (samePage_of_quiet (announceScreenChange_quiet _ _))
  have h1 : screenControls ((w.doc.removeClassFromAll "screen" "active").addClass
      (s ++ "-screen") "active") = screenControls w.doc := by
    rw [screenControls_addClass _ _ _ (by decide),
      screenControls_removeClassFromAll _ _ _ (by decide)]
  simp only []
  split
  · split
    · exact samePage_trans (b := { w with
        doc := (w.doc.removeClassFromAll "screen" "active").addClass (s ++ "-screen") "active"
        app := { w.app with currentScreen := s } }) h1 (samePage_showStep _ _)
    · exact h1
  · exact screenControls_removeClassFromAll _ _ _ (by decide)

theorem samePage_showLoading (b : Bool) (w : World) : SamePage w (showLoading b w) := by
  unfold showLoading
  split
  · exact samePage_trans (b := { w with doc := { w.doc with loadingHidden := false } })
      rfl (samePage_speak _ _)
  · exact rfl

theorem samePage_randomBelow (n : Nat) (w : World) : SamePage w (randomBelow n w).2 := by
  unfold randomBelow
  split
  · exact samePage_refl w
  · exact rfl

theorem samePage_submitReception (q : Nat) (w : World) : SamePage w (submitReception q w) := by
  unfold submitReception fetch
  exact samePage_trans (samePage_showLoading true w) rfl

theorem samePage_generateQueueNumber (w : World) : SamePage w (generateQueueNumber w) := by
  unfold generateQueueNumber
  simp only []
  refine samePage_trans (samePage_randomBelow 50 w) ?_
  refine samePage_trans (samePage_randomBelow 30 _) ?_
  refine samePage_trans ?_ (samePage_submitReception _ _)
  exact rfl

theorem samePage_nextStep (n : String) (w : World) : SamePage w (nextStep n w) := by
  cases h : (validateCurrentStep w).1
  · rw [nextStep_of_invalid w n h]
    exact samePage_of_quiet (validateCurrentStep_quiet w)
  · have hv : validateCurrentStep w = (true, w) := Prod.ext h (validateCurrentStep_ok w h)
    have hs : SamePage w (showStep n (saveStepData w)) :=
      samePage_trans (samePage_of_doc (saveStepData_doc w)) (samePage_showStep n _)
    unfold nextStep
    rw [hv]
    simp only [Bool.not_true, Bool.false_eq_true, if_false]
    split
    · exact samePage_trans hs (samePage_speak _ _)
    · split
      · exact samePage_trans hs (samePage_speak _ _)
      · split
        · exact samePage_trans hs
            (samePage_trans (samePage_generateQueueNumber _) (samePage_speak _ _))
        · exact hs

theorem samePage_selectDepartment (d : String) (w : World) :
    SamePage w (selectDepartment d w) := by
  unfold selectDepartment
  simp only []
  refine samePage_trans (samePage_trans ?_ (samePage_nextStep "confirmation" _))
    (samePage_speak _ _)
  exact rfl

theorem samePage_resetSession (w : World) : SamePage w (resetSession w) :=
  screenControls_resetForm w.doc

theorem samePage_goHome (w : World) : SamePage w (goHome w) := by
  unfold goHome
  simp only []
  exact samePage_trans (samePage_trans (samePage_showScreen "home" w) (samePage_resetSession _))
    (samePage_speak _ _)

theorem samePage_resetTimeout (w : World) : SamePage w (resetTimeout w) := by
  unfold resetTimeout
  simp only []
  refine samePage_trans (samePage_trans ?_ (samePage_resetIdleTimer _)) (samePage_speak _ _)
  exact rfl

theorem samePage_closeTimeoutModal (w : World) : SamePage w (closeTimeoutModal w) := by
  unfold closeTimeoutModal
  split
  · exact rfl
  · exact samePage_refl w

theorem samePage_showTimeoutWarning (w : World) : SamePage w (showTimeoutWarning w) := by
  unfold showTimeoutWarning setTimeout
  simp only []
  refine samePage_trans (b := speak "30초 후 초기화됩니다. 계속 사용하시려면 화면을 터치해주세요."
    { w with doc := { w.doc with timeoutModalShown := true } }) ?_ rfl
  exact samePage_trans (b := { w with doc := { w.doc with timeoutModalShown := true } })
    rfl (samePage_speak _ _)

theorem samePage_handleSessionTimeout (w : World) : SamePage w (handleSessionTimeout w) := by
  rw [handleSessionTimeout_eq]
  exact samePage_trans (samePage_speak _ w) (samePage_goHome _)

theorem samePage_setSymptom (i : Nat) (c : Bool) (w : World) : SamePage w (setSymptom i c w) := by
  unfold setSymptom
  split
  · exact samePage_refl w
  · simp only []
    split
    · exact samePage_trans (b := { w with doc := { w.doc with
        symptomInputs := w.doc.symptomInputs.set i _ } }) rfl (samePage_speak _ _)
    · exact samePage_trans (b := { w with doc := { w.doc with
        symptomInputs := w.doc.symptomInputs.set i _ } }) rfl (samePage_speak _ _)

theorem samePage_deliverMutations (w : World) : SamePage w (deliverMutations w) := by
  unfold SamePage
  rw [deliverMutations_doc]
  rfl

theorem samePage_focusFirst (c : Control) (w : World) : SamePage w (focusFirst c w) :=
  samePage_of_doc (focusFirst_doc c w)

theorem samePage_runCallback (cb : Callback) (w : World) : SamePage w (runCallback cb w) := by
  cases cb with
  | showTimeoutWarning => exact samePage_showTimeoutWarning w
  | handleSessionTimeout => exact samePage_handleSessionTimeout w
  | closeTimeoutModal => exact samePage_closeTimeoutModal w
  | focusFirst c => exact samePage_focusFirst c w

theorem samePage_fireTimer (id : Nat) (w : World) : SamePage w (fireTimer id w) := by
  cases h : dueTimer id w with
  | none =>
    rw [fireTimer_of_not_due h]
    exact samePage_refl w
  | some t =>
    rw [fireTimer_of_due h]
    exact samePage_trans (b := { w with env := { w.env with
      timers := w.env.timers.filter (fun u => u.id != id) } }) rfl
      (samePage_trans (samePage_runCallback _ _) (samePage_deliverMutations _))

theorem samePage_perform (a : Action) (w : World) : SamePage w (perform a w) := by
  cases a with
  | showScreen n => exact samePage_trans (samePage_showScreen n w) (samePage_deliverMutations _)
  | nextStep n => exact samePage_trans (samePage_nextStep n w) (samePage_deliverMutations _)
  | selectDepartment d =>
    exact samePage_trans (samePage_selectDepartment d w) (samePage_deliverMutations _)
  | goHome => exact samePage_trans (samePage_goHome w) (samePage_deliverMutations _)
  | resetTimeout => exact samePage_trans (samePage_resetTimeout w) (samePage_deliverMutations _)
  | resetIdleTimer =>
    exact samePage_trans (samePage_resetIdleTimer w) (samePage_deliverMutations _)
  | speak t => exact samePage_trans (samePage_speak t w) (samePage_deliverMutations _)
  | setPatientName v => exact rfl
  | setPatientBirth v => exact rfl
  | setPatientPhone v => exact rfl
  | setSymptom i c =>
    exact samePage_trans (samePage_setSymptom i c w) (samePage_deliverMutations _)
  | advance ms => exact rfl
  | fire id => exact samePage_fireTimer id w

theorem samePage_run (as : List Action) (w : World) : SamePage w (run as w) := by
  induction as generalizing w with
  | nil => exact samePage_refl w
  | cons a as ih => exact samePage_trans (samePage_perform a w) (ih _)

theorem construct_doc (doc : Document) (env : Browser) :
    (construct doc env).doc = { doc with mutations := [] } := by
  unfold construct
  simp only []
  rw [(speak_quiet _ _).doc]
  show ({ (resetIdleTimer _).doc with mutations := [] } : Document) = _
  rw [resetIdleTimer_doc]
  rfl

/-- Every state that a run reaches from the constructor has the screens of the page on
which the application was constructed, with their first controls. -/
theorem samePage_reachable (doc : Document) (env : Browser) (pre : List Action) :
    screenControls (run pre (construct doc env)).doc = screenControls doc := by
  have h1 : screenControls (run pre (construct doc env)).doc =
      screenControls (construct doc env).doc := samePage_run pre _
  rw [h1, construct_doc]
  rfl

/-- Between two tasks the observer has no record to deliver. -/
theorem delivered_perform (a : Action) (w : World) (h : w.doc.mutations = []) :
    (perform a w).doc.mutations = [] := by
  have hd : ∀ v : World, (deliverMutations v).doc.mutations = [] := by
    intro v
    rw [deliverMutations_doc]
  cases a with
  | showScreen n => exact hd _
  | nextStep n => exact hd _
  | selectDepartment d => exact hd _
  | goHome => exact hd _
  | resetTimeout => exact hd _
  | resetIdleTimer => exact hd _
  | speak t => exact hd _
  | setPatientName v => exact h
  | setPatientBirth v => exact h
  | setPatientPhone v => exact h
  | setSymptom i c => exact hd _
  | advance ms => exact h
  | fire id =>
    cases hdue : dueTimer id w with
    | none =>
      show (fireTimer id w).doc.mutations = []
      rw [fireTimer_of_not_due hdue]
      exact h
    | some t =>
      show (fireTimer id w).doc.mutations = []
      rw [fireTimer_of_due hdue]
      exact hd _

theorem delivered_reachable (doc : Document) (env : Browser) (pre : List Action) :
    (run pre (construct doc env)).doc.mutations = [] := by
  have hrun : ∀ (as : List Action) (w : World), w.doc.mutations = [] →
      (run as w).doc.mutations = [] := by
    intro as
    induction as with
    | nil => exact fun _ h => h
    | cons a as ih => exact fun w h => ih _ (delivered_perform a w h)
  apply hrun
  rw [construct_doc]

/-! ## Idle periods -/

theorem sublist_clearHandle (h : Option Nat) (ts : List Timer) :
    (clearHandle h ts).Sublist ts := by
  cases h with
  | none => exact List.Sublist.refl _
  | some id =>
    by_cases hid : id = 0
    · simp only [clearHandle, hid, if_true]
      exact List.Sublist.refl _
    · simp only [clearHandle, hid, if_false]
      exact List.filter_sublist _

theorem unique_rearm {s : TimerState} (h : s.Tracked) (hu : s.Unique) : s.rearm.Unique := by
  unfold TimerState.Unique at hu ⊢
  simp only [TimerState.rearm]
  rw [List.pairwise_append]
  refine ⟨?_, ?_, ?_⟩
  · exact hu.sublist ((sublist_clearHandle _ _).trans (sublist_clearHandle _ _))
  · simp
  · intro a ha b hb
    have hlt := h.id_lt a (mem_clearHandle (mem_clearHandle ha).1).1
    simp only [List.mem_cons, List.mem_singleton, List.not_mem_nil, or_false] at hb
    rcases hb with rfl | rfl
    · show a.id ≠ s.nextTimerId
      omega
    · show a.id ≠ s.nextTimerId + 1
      omega

theorem unique_addClose {s : TimerState} (h : s.Tracked) (hu : s.Unique) :
    s.addClose.Unique := by
  unfold TimerState.Unique at hu ⊢
  simp only [TimerState.addClose]
  rw [List.pairwise_append]
  refine ⟨hu, by simp, ?_⟩
  intro a ha b hb
  have hlt := h.id_lt a ha
  simp only [List.mem_singleton] at hb
  subst hb
  show a.id ≠ s.nextTimerId
  omega

theorem unique_addFocus {s : TimerState} (h : s.Tracked) (hu : s.Unique) (c : Control) :
    (s.addFocus c).Unique := by
  unfold TimerState.Unique at hu ⊢
  simp only [TimerState.addFocus]
  rw [List.pairwise_append]
  refine ⟨hu, by simp, ?_⟩
  intro a ha b hb
  have hlt := h.id_lt a ha
  simp only [List.mem_singleton] at hb
  subst hb
  show a.id ≠ s.nextTimerId
  omega

theorem unique_addFocuses {s : TimerState} (h : s.Tracked) (hu : s.Unique)
    (cs : List Control) : (s.addFocuses cs).Unique := by
  induction cs generalizing s with
  | nil => exact hu
  | cons c cs ih => exact ih (tracked_addFocus h c) (unique_addFocus h hu c)

theorem unique_remove {s : TimerState} (hu : s.Unique) (id : Nat) : (s.remove id).Unique :=
  List.Pairwise.sublist (List.filter_sublist _) hu

/-- With distinct handles, the lookup by the handle of a pending timer finds that timer. -/
theorem find_of_mem {ts : List Timer} (hu : ts.Pairwise (fun a b => a.id ≠ b.id)) {t : Timer}
    (ht : t ∈ ts) : ts.find? (fun u => u.id == t.id) = some t := by
  induction ts with
  | nil => cases ht
  | cons u us ih =>
    rw [List.pairwise_cons] at hu
    rcases List.mem_cons.mp ht with rfl | hmem
    · simp
    · have hne : (u.id == t.id) = false := by
        rw [beq_eq_false_iff_ne]
        exact hu.1 t hmem
      simp only [List.find?_cons, hne]
      exact ih hu.2 hmem

theorem nextDue_eq_none {ts : List Timer} (h : nextDue ts = none) : ts = [] := by
  cases ts with
  | nil => rfl
  | cons t ts =>
    unfold nextDue at h
    split at h
    · cases h
    · split at h <;> cases h

/-- The timer chosen by `nextDue` is pending and no pending timer is due before it. -/
theorem nextDue_some {ts : List Timer} {t : Timer} (h : nextDue ts = some t) :
    t ∈ ts ∧ ∀ u ∈ ts, t.due ≤ u.due := by
  induction ts generalizing t with
  | nil => cases h
  | cons v vs ih =>
    unfold nextDue at h
    split at h
    · rename_i hnone
      cases h
      have := nextDue_eq_none hnone
      subst this
      simp
    · rename_i u hu
      obtain ⟨hmem, hmin⟩ := ih hu
      split at h
      · rename_i hlt
        cases h
        refine ⟨List.mem_cons_of_mem _ hmem, ?_⟩
        intro x hx
        rcases List.mem_cons.mp hx with rfl | hx
        · omega
        · exact hmin x hx
      · rename_i hge
        cases h
        refine ⟨List.mem_cons_self _ _, ?_⟩
        intro x hx
        rcases List.mem_cons.mp hx with rfl | hx
        · exact Nat.le_refl _
        · have := hmin x hx
          omega

theorem pendingWeight_sublist {l1 l2 : List Timer} (h : l1.Sublist l2) :
    pendingWeight l1 ≤ pendingWeight l2 := by
  induction h with
  | slnil => exact Nat.le_refl _
  | cons a _ ih =>
    simp only [pendingWeight, List.map_cons, List.sum_cons] at ih ⊢
    omega
  | cons₂ a _ ih =>
    simp only [pendingWeight, List.map_cons, List.sum_cons] at ih ⊢
    omega

/-- Taking a pending timer out of the list lowers the weight by at least its own. -/
theorem pendingWeight_remove {ts : List Timer} {t : Timer} (ht : t ∈ ts) :
    pendingWeight (ts.filter (fun u => u.id != t.id)) + timerWeight t ≤ pendingWeight ts := by
  induction ts with
  | nil => cases ht
  | cons u us ih =>
    by_cases hid : u.id = t.id
    · have hf : (u :: us).filter (fun v => v.id != t.id) = us.filter (fun v => v.id != t.id) := by
        simp [List.filter_cons, hid]
      rw [hf]
      rcases List.mem_cons.mp ht with rfl | hmem
      · have := pendingWeight_sublist
          (List.filter_sublist us : (us.filter (fun v => v.id != t.id)).Sublist us)
        simp only [pendingWeight, List.map_cons, List.sum_cons] at this ⊢
        omega
      · have := ih hmem
        simp only [pendingWeight, List.map_cons, List.sum_cons] at this ⊢
        omega
    · have hf : (u :: us).filter (fun v => v.id != t.id) =
          u :: us.filter (fun v => v.id != t.id) := by
        simp [List.filter_cons, hid]
      rw [hf]
      rcases List.mem_cons.mp ht with rfl | hmem
      · exact absurd rfl hid
      · have := ih hmem
        simp only [pendingWeight, List.map_cons, List.sum_cons] at this ⊢
        omega

theorem eq_of_id_eq {ts : List Timer} (hu : ts.Pairwise (fun a b => a.id ≠ b.id))
    {a b : Timer} (ha : a ∈ ts) (hb : b ∈ ts) (h : a.id = b.id) : a = b := by
  have h1 := find_of_mem hu ha
  have h2 := find_of_mem hu hb
  rw [h] at h1
  rw [h1] at h2
  exact Option.some.inj h2

theorem pendingWeight_append (l1 l2 : List Timer) :
    pendingWeight (l1 ++ l2) = pendingWeight l1 + pendingWeight l2 := by
  simp [pendingWeight, List.map_append, List.sum_append]

theorem timerState_advanceTo (time : Nat) (w : World) :
    (advanceTo time w).timerState = { w.timerState with now := max w.env.now time } :=
  rfl

theorem focusTargets_length (d : Document) : (focusTargets d).length ≤ d.mutations.length :=
  List.length_filterMap_le _ _

/-- A control for which the observer schedules a focus is the first control of a screen. -/
theorem mem_focusTargets {d : Document} {c : Control} (h : c ∈ focusTargets d) :
    some c ∈ screenControls d := by
  unfold focusTargets at h
  obtain ⟨i, _, hi⟩ := List.mem_filterMap.mp h
  unfold recordTarget at hi
  split at hi
  · rename_i e he
    split at hi
    · rename_i hcl
      unfold screenControls
      refine List.mem_map.mpr ⟨e, List.get?_mem he, ?_⟩
      simp only [hcl.1, if_true]
      exact hi
    · cases hi
  · cases hi

theorem watchedPositions_length (p : Element → Bool) (es : List Element) :
    (watchedPositions p es).length ≤ es.length := by
  unfold watchedPositions
  rw [List.length_map]
  exact Nat.le_trans (List.length_filter_le _ _) (by rw [List.enum_length])

theorem watchedById_length (id : String) (es : List Element) :
    (watchedById id es).length ≤ 1 := by
  unfold watchedById
  split
  · split
    · exact Nat.le_refl _
    · exact Nat.zero_le _
  · exact Nat.zero_le _

theorem addClassFirst_length (id cls : String) (es : List Element) :
    (addClassFirst id cls es).length = es.length := by
  induction es with
  | nil => rfl
  | cons e es ih =>
    unfold addClassFirst
    split
    · rfl
    · simp only [List.length_cons, ih]

/-- The records that `showScreen` queues for a screen other than the reception: at most one
for each element and one more for the target. -/
theorem showScreen_other_mutations (s : String) (w : World) (hs : s ≠ "reception") :
    (showScreen s w).doc.mutations.length ≤
      w.doc.mutations.length + w.doc.elements.length + 1 := by
  unfold showScreen
  rw [(announceScreenChange_quiet _ _).doc, resetIdleTimer_doc]
  have hwp := watchedPositions_length (fun e => decide ("screen" ∈ e.classes)) w.doc.elements
  simp only [hs, if_false]
  split
  · simp only [Document.addClass]
    split
    · simp only [Document.removeClassFromAll, List.length_append]
      omega
    · have hid := watchedById_length (s ++ "-screen")
        (w.doc.removeClassFromAll "screen" "active").elements
      simp only [Document.removeClassFromAll, List.length_append] at hid ⊢
      omega
  · simp only [Document.removeClassFromAll, List.length_append]
    omega

theorem showScreen_other_length (s : String) (w : World) :
    (showScreen s w).doc.elements.length = w.doc.elements.length := by
  rw [← screenControls_length, ← screenControls_length]
  exact congrArg List.length (samePage_showScreen s w)

/-- The records that `goHome` queues: at most two for each element and one more. -/
theorem goHome_mutations (w : World) :
    (goHome w).doc.mutations.length ≤
      w.doc.mutations.length + 2 * w.doc.elements.length + 1 := by
  unfold goHome
  simp only []
  rw [(speak_quiet _ _).doc]
  have h1 := showScreen_other_mutations "home" w (by decide)
  have h2 := showScreen_other_length "home" w
  have h3 := watchedPositions_length (fun e => decide ("selected" ∈ e.classes))
    (showScreen "home" w).doc.elements
  simp only [resetSession, Document.resetForm, List.length_append]
  omega

theorem handleSessionTimeout_mutations (w : World) :
    (handleSessionTimeout w).doc.mutations.length ≤
      w.doc.mutations.length + 2 * w.doc.elements.length + 1 := by
  rw [handleSessionTimeout_eq]
  have h := goHome_mutations (speak "시간 초과로 초기 화면으로 돌아갑니다." w)
  rw [(speak_quiet _ _).doc] at h
  exact h

theorem closeTimeoutModal_mutations (w : World) :
    (closeTimeoutModal w).doc.mutations = w.doc.mutations := by
  unfold closeTimeoutModal
  split <;> rfl

theorem showTimeoutWarning_mutations (w : World) :
    (showTimeoutWarning w).doc.mutations = w.doc.mutations := by
  unfold showTimeoutWarning setTimeout
  simp only []
  rw [(speak_quiet _ _).doc]

/-! ## Pending focus timers -/

theorem noInputFocus_remove {s : TimerState} (h : s.NoInputFocus) (id : Nat) :
    (s.remove id).NoInputFocus :=
  fun t ht => h t (List.mem_filter.mp ht).1

theorem noInputFocus_rearm {s : TimerState} (h : s.NoInputFocus) : s.rearm.NoInputFocus := by
  intro t ht hc
  simp only [TimerState.rearm, List.mem_append, List.mem_cons, List.mem_singleton,
    List.not_mem_nil, or_false] at ht
  rcases ht with hold | rfl | rfl
  · exact h t (mem_clearHandle (mem_clearHandle hold).1).1 hc
  · cases hc
  · cases hc

theorem noInputFocus_rearmed {s s' : TimerState} (h : s.NoInputFocus) (hr : Rearmed s s') :
    s'.NoInputFocus := by
  obtain ⟨k, rfl⟩ := hr
  induction k generalizing s with
  | zero => exact h
  | succ k ih => exact ih (noInputFocus_rearm h)

theorem noInputFocus_addClose {s : TimerState} (h : s.NoInputFocus) :
    s.addClose.NoInputFocus := by
  intro t ht hc
  simp only [TimerState.addClose, List.mem_append, List.mem_singleton] at ht
  rcases ht with hold | rfl
  · exact h t hold hc
  · cases hc

theorem noInputFocus_addFocuses {s : TimerState} (h : s.NoInputFocus) (cs : List Control)
    (hcs : Control.input ∉ cs) : (s.addFocuses cs).NoInputFocus := by
  induction cs generalizing s with
  | nil => exact h
  | cons c cs ih =>
    rw [addFocuses_cons]
    apply ih _ (fun hmem => hcs (List.mem_cons_of_mem _ hmem))
    intro t ht hc
    simp only [TimerState.addFocus, List.mem_append, List.mem_singleton] at ht
    rcases ht with hold | rfl
    · exact h t hold hc
    · simp only [Callback.focusFirst.injEq] at hc
      exact hcs (hc ▸ List.mem_cons_self _ _)

/-- On a page where no screen has an `input` as its first control, the delivery of the
records schedules no focus on an `input`. -/
theorem noInputFocus_deliverMutations {w v : World} (hsp : SamePage w v)
    (hpage : some Control.input ∉ screenControls w.doc) (hf : v.timerState.NoInputFocus) :
    (deliverMutations v).timerState.NoInputFocus := by
  rw [timerState_deliverMutations]
  apply noInputFocus_addFocuses hf
  intro hmem
  have := mem_focusTargets hmem
  rw [hsp] at this
  exact hpage this

theorem noInputFocus_runCallback (cb : Callback) {w : World} (hf : w.timerState.NoInputFocus) :
    (runCallback cb w).timerState.NoInputFocus := by
  rcases timerState_runCallback cb w with
    ⟨_, he⟩ | ⟨_, he⟩ | ⟨_, he⟩ | ⟨c, _, he | ⟨_, he⟩⟩
  · exact he ▸ hf
  · exact he ▸ noInputFocus_addClose hf
  · exact he ▸ noInputFocus_rearm hf
  · exact he ▸ hf
  · exact he ▸ noInputFocus_rearm hf

theorem noInputFocus_perform (a : Action) (w : World)
    (hpage : some Control.input ∉ screenControls w.doc) (hf : w.timerState.NoInputFocus) :
    (perform a w).timerState.NoInputFocus := by
  cases a with
  | showScreen n =>
    exact noInputFocus_deliverMutations (samePage_showScreen n w) hpage
      (noInputFocus_rearmed hf (rearmed_showScreen n w))
  | nextStep n =>
    exact noInputFocus_deliverMutations (samePage_nextStep n w) hpage
      (noInputFocus_rearmed hf (rearmed_nextStep n w))
  | selectDepartment d =>
    exact noInputFocus_deliverMutations (samePage_selectDepartment d w) hpage
      (noInputFocus_rearmed hf (rearmed_selectDepartment d w))
  | goHome =>
    exact noInputFocus_deliverMutations (samePage_goHome w) hpage
      (noInputFocus_rearmed hf ⟨1, timerState_goHome w⟩)
  | resetTimeout =>
    exact noInputFocus_deliverMutations (samePage_resetTimeout w) hpage
      (noInputFocus_rearmed hf ⟨1, timerState_resetTimeout w⟩)
  | resetIdleTimer =>
    exact noInputFocus_deliverMutations (samePage_resetIdleTimer w) hpage
      (noInputFocus_rearmed hf ⟨1, timerState_resetIdleTimer w⟩)
  | speak t =>
    exact noInputFocus_deliverMutations (samePage_speak t w) hpage
      (noInputFocus_rearmed hf ⟨0, timerState_speak t w⟩)
  | setPatientName v => exact hf
  | setPatientBirth v => exact hf
  | setPatientPhone v => exact hf
  | setSymptom i c =>
    exact noInputFocus_deliverMutations (samePage_setSymptom i c w) hpage
      (noInputFocus_rearmed hf ⟨0, timerState_setSymptom i c w⟩)
  | advance ms => exact hf
  | fire id =>
    cases hd : dueTimer id w with
    | none =>
      show (fireTimer id w).timerState.NoInputFocus
      rw [fireTimer_of_not_due hd]
      exact hf
    | some t =>
      show (fireTimer id w).timerState.NoInputFocus
      rw [fireTimer_of_due hd]
      have hrem : ({ w with env := { w.env with
          timers := w.env.timers.filter (fun u => u.id != id) } } : World).timerState.NoInputFocus :=
        noInputFocus_remove hf id
      exact noInputFocus_deliverMutations
        (samePage_trans (b := { w with env := { w.env with
          timers := w.env.timers.filter (fun u => u.id != id) } }) rfl
          (samePage_runCallback _ _)) hpage (noInputFocus_runCallback _ hrem)

/-- On a page where no screen has an `input` as its first control, no state that a run
reaches from the constructor has a pending focus on an `input`. -/
theorem noInputFocus_reachable (doc : Document) (env : Browser) (h0 : env.timers = [])
    (hpage : some Control.input ∉ screenControls doc) (pre : List Action) :
    (run pre (construct doc env)).timerState.NoInputFocus := by
  have hrun : ∀ (as : List Action) (w : World), some Control.input ∉ screenControls w.doc →
      w.timerState.NoInputFocus → (run as w).timerState.NoInputFocus := by
    intro as
    induction as with
    | nil => exact fun _ _ h => h
    | cons a as ih =>
      intro w hp hf
      refine ih _ ?_ (noInputFocus_perform a w hp hf)
      rw [show screenControls (perform a w).doc = screenControls w.doc from samePage_perform a w]
      exact hp
  apply hrun
  · rw [construct_doc]
    exact hpage
  · rw [timerState_construct]
    apply noInputFocus_rearm
    intro t ht
    simp only [h0] at ht
    cases ht

theorem armed_addFocuses {period expiry : Nat} {s : TimerState} (h : s.Armed period expiry)
    (cs : List Control) : (s.addFocuses cs).Armed period expiry := by
  induction cs generalizing s with
  | nil => exact h
  | cons c cs ih =>
    rw [addFocuses_cons]
    apply ih
    obtain ⟨e, he, hec⟩ := h.pending
    refine ⟨tracked_addFocus h.tracked c, unique_addFocus h.tracked h.unique c, h.period_eq,
      ⟨e, List.mem_append_left _ he, hec⟩, ?_, h.now_le⟩
    intro x hx hxc
    simp only [TimerState.addFocus, List.mem_append, List.mem_singleton] at hx
    rcases hx with hx | rfl
    · exact h.due_eq x hx hxc
    · cases hxc

theorem pendingWeight_addFocuses (cs : List Control) (s : TimerState) :
    pendingWeight (s.addFocuses cs).timers = pendingWeight s.timers + cs.length := by
  induction cs generalizing s with
  | nil => rfl
  | cons c cs ih =>
    rw [addFocuses_cons, ih]
    simp only [TimerState.addFocus, pendingWeight_append, List.length_cons]
    have : pendingWeight
        [{ id := s.nextTimerId, due := s.now + 100, callback := Callback.focusFirst c }] = 1 := by
      simp [pendingWeight, timerWeight]
    omega

/-- The timer part of the state after the browser has run a timer in a state in which the
observer has no record to deliver: only the expiry makes the observer schedule a focus, at
most one for each record that `goHome` queues, each on the first control of a screen. -/
theorem timerState_fireTimer_delivered {id : Nat} {w : World} {t : Timer}
    (hd : dueTimer id w = some t) (hm : w.doc.mutations = []) :
    (fireTimer id w).doc.mutations = [] ∧
    ((t.callback = .closeTimeoutModal ∧
        (fireTimer id w).timerState = w.timerState.remove id) ∨
     (t.callback = .showTimeoutWarning ∧
        (fireTimer id w).timerState = (w.timerState.remove id).addClose) ∨
     (t.callback = .handleSessionTimeout ∧
        ∃ cs : List Control,
          (fireTimer id w).timerState = (w.timerState.remove id).rearm.addFocuses cs ∧
          cs.length ≤ 2 * w.doc.elements.length + 1 ∧
          ∀ c ∈ cs, some c ∈ screenControls w.doc) ∨
     (∃ c, t.callback = .focusFirst c ∧
        ((fireTimer id w).timerState = w.timerState.remove id ∨
          (c = .input ∧ (fireTimer id w).timerState = (w.timerState.remove id).rearm)))) := by
  rw [fireTimer_of_due hd]
  refine ⟨by rw [deliverMutations_doc], ?_⟩
  have hts : ({ w with env := { w.env with
      timers := w.env.timers.filter (fun u => u.id != id) } } : World).timerState =
      w.timerState.remove id := rfl
  have hdoc : ({ w with env := { w.env with
      timers := w.env.timers.filter (fun u => u.id != id) } } : World).doc = w.doc := rfl
  generalize ({ w with env := { w.env with
      timers := w.env.timers.filter (fun u => u.id != id) } } : World) = v at hts hdoc
  rw [← hts]
  have hmv : v.doc.mutations = [] := by rw [hdoc]; exact hm
  cases hc : t.callback with
  | closeTimeoutModal =>
    refine Or.inl ⟨rfl, ?_⟩
    rw [deliverMutations_of_empty _ (by rw [runCallback, closeTimeoutModal_mutations]; exact hmv),
      runCallback, timerState_closeTimeoutModal]
  | showTimeoutWarning =>
    refine Or.inr (Or.inl ⟨rfl, ?_⟩)
    rw [deliverMutations_of_empty _
      (by rw [runCallback, showTimeoutWarning_mutations]; exact hmv),
      runCallback, timerState_showTimeoutWarning]
  | handleSessionTimeout =>
    refine Or.inr (Or.inr (Or.inl ⟨rfl, focusTargets (handleSessionTimeout v).doc, ?_, ?_, ?_⟩))
    · rw [timerState_deliverMutations, runCallback, timerState_handleSessionTimeout]
    · have h1 := focusTargets_length (handleSessionTimeout v).doc
      have h2 := handleSessionTimeout_mutations v
      rw [hmv, hdoc] at h2
      simp only [List.length_nil] at h2
      omega
    · intro c hcmem
      have h1 := mem_focusTargets hcmem
      rw [show screenControls (handleSessionTimeout v).doc = screenControls v.doc from
        samePage_handleSessionTimeout v, hdoc] at h1
      exact h1
  | focusFirst c =>
    refine Or.inr (Or.inr (Or.inr ⟨c, rfl, ?_⟩))
    rw [deliverMutations_of_empty _ (by rw [runCallback, focusFirst_doc]; exact hmv), runCallback]
    exact timerState_focusFirst c v

/-- One round of an idle period on a page where no screen has an `input` as its first
control: the browser runs the timer that is due first. Unless it is the expiry, the
invariant stays and the weight of the pending timers drops; the expiry is run at the moment
it is due and arms the next one, a full period later, and the weight grows by the new
warning and by at most one focus for each record that `goHome` queues. -/
theorem idle_step {period expiry : Nat} {w : World} {t : Timer}
    (hI : Idle period expiry w) (hn : nextDue w.env.timers = some t) :
    t.due ≤ expiry ∧
    (fireTimer t.id (advanceTo t.due w)).doc.elements.length = w.doc.elements.length ∧
    (t.callback ≠ .handleSessionTimeout →
      Idle period expiry (fireTimer t.id (advanceTo t.due w)) ∧
      pendingWeight (fireTimer t.id (advanceTo t.due w)).env.timers + 1 ≤
        pendingWeight w.env.timers) ∧
    (t.callback = .handleSessionTimeout →
      t.due = expiry ∧
      Idle period (expiry + period) (fireTimer t.id (advanceTo t.due w)) ∧
      pendingWeight (fireTimer t.id (advanceTo t.due w)).env.timers ≤
        pendingWeight w.env.timers + 2 * w.doc.elements.length + 3) := by
  have hA := hI.armed
  obtain ⟨hmem, hmin⟩ := nextDue_some hn
  obtain ⟨e, he, hec⟩ := hA.pending
  have hedue := hA.due_eq e he hec
  have htE : t.due ≤ expiry := hedue ▸ hmin e he
  have hnow := hA.now_le
  -- the state in which the timer is run
  have hT' : (advanceTo t.due w).timerState.Tracked :=
    ⟨hA.tracked.next_pos, hA.tracked.id_pos, hA.tracked.id_lt, hA.tracked.warning,
      hA.tracked.expiry⟩
  have hU' : (advanceTo t.due w).timerState.Unique := hA.unique
  have hF' : (advanceTo t.due w).timerState.NoInputFocus := hI.focus
  have hdue : dueTimer t.id (advanceTo t.due w) = some t := by
    unfold dueTimer
    have hfind : (advanceTo t.due w).env.timers.find? (fun u => u.id == t.id) = some t :=
      find_of_mem hA.unique hmem
    rw [hfind]
    have : t.due ≤ (advanceTo t.due w).env.now := Nat.le_max_right _ _
    simp only [this, if_true]
  have hrem : pendingWeight (w.env.timers.filter (fun u => u.id != t.id)) + timerWeight t ≤
      pendingWeight w.env.timers := pendingWeight_remove hmem
  have hekeep : t.callback ≠ .handleSessionTimeout →
      e ∈ ((advanceTo t.due w).timerState.remove t.id).timers := by
    intro hne
    refine List.mem_filter.mpr ⟨he, ?_⟩
    simp only [bne_iff_ne, ne_eq]
    intro hid
    have := eq_of_id_eq hA.unique he hmem hid
    subst this
    exact hne hec
  have hpage : some Control.input ∉ screenControls (fireTimer t.id (advanceTo t.due w)).doc := by
    rw [show screenControls (fireTimer t.id (advanceTo t.due w)).doc =
      screenControls (advanceTo t.due w).doc from samePage_fireTimer _ _]
    exact hI.page
  have hlen : (fireTimer t.id (advanceTo t.due w)).doc.elements.length =
      w.doc.elements.length := by
    rw [← screenControls_length, ← screenControls_length]
    exact congrArg List.length (samePage_fireTimer t.id (advanceTo t.due w))
  obtain ⟨hdel, hcases⟩ := timerState_fireTimer_delivered hdue
    (show (advanceTo t.due w).doc.mutations = [] from hI.delivered)
  refine ⟨htE, hlen, ?_, ?_⟩
  · intro hne
    have keep : (fireTimer t.id (advanceTo t.due w)).timerState =
        (advanceTo t.due w).timerState.remove t.id → timerWeight t = 1 →
        Idle period expiry (fireTimer t.id (advanceTo t.due w)) ∧
        pendingWeight (fireTimer t.id (advanceTo t.due w)).env.timers + 1 ≤
          pendingWeight w.env.timers := by
      intro hs hw1
      constructor
      · refine ⟨?_, hdel, hpage, hs ▸ noInputFocus_remove hF' _⟩
        rw [hs]
        exact ⟨tracked_remove hT' _, unique_remove hU' _, hA.period_eq, ⟨e, hekeep hne, hec⟩,
          fun x hx hxc => hA.due_eq x (List.mem_filter.mp hx).1 hxc,
          Nat.max_le.mpr ⟨hnow, htE⟩⟩
      · have ht := congrArg TimerState.timers hs
        simp only [World.timerState, TimerState.remove] at ht
        rw [ht]
        show pendingWeight (w.env.timers.filter (fun u => u.id != t.id)) + 1 ≤ _
        omega
    rcases hcases with ⟨hc, hs⟩ | ⟨hc, hs⟩ | ⟨hc, _⟩ | ⟨c, hc, hs | ⟨hi, _⟩⟩
    · exact keep hs (by simp [timerWeight, hc])
    · constructor
      · refine ⟨?_, hdel, hpage, hs ▸ noInputFocus_addClose (noInputFocus_remove hF' _)⟩
        rw [hs]
        refine ⟨tracked_addClose (tracked_remove hT' _),
          unique_addClose (tracked_remove hT' _) (unique_remove hU' _), hA.period_eq,
          ⟨e, List.mem_append_left _ (hekeep hne), hec⟩, ?_, Nat.max_le.mpr ⟨hnow, htE⟩⟩
        intro x hx hxc
        simp only [TimerState.addClose, List.mem_append, List.mem_singleton] at hx
        rcases hx with hx | rfl
        · exact hA.due_eq x (List.mem_filter.mp hx).1 hxc
        · cases hxc
      · have ht := congrArg TimerState.timers hs
        simp only [World.timerState, TimerState.remove, TimerState.addClose] at ht
        rw [ht, pendingWeight_append]
        have hw1 : timerWeight t = 2 := by simp [timerWeight, hc]
        have hw2 : pendingWeight
            [{ id := w.env.nextTimerId, due := max w.env.now t.due + 5000,
               callback := Callback.closeTimeoutModal }] = 1 := by
          simp [pendingWeight, timerWeight]
        show pendingWeight (w.env.timers.filter (fun u => u.id != t.id)) + _ + 1 ≤ _
        simp only [advanceTo] at hw2 ⊢
        rw [hw2]
        omega
    · exact absurd hc hne
    · exact keep hs (by simp [timerWeight, hc])
    · exact absurd (hi ▸ hc) (hI.focus t hmem)
  · intro hc
    have htdue : t.due = expiry := hA.due_eq t hmem hc
    refine ⟨htdue, ?_⟩
    rcases hcases with ⟨hc', _⟩ | ⟨hc', _⟩ | ⟨_, cs, hs, hcslen, hcsmem⟩ | ⟨c, hc', _⟩
    · rw [hc] at hc'
      cases hc'
    · rw [hc] at hc'
      cases hc'
    · have hTr := tracked_remove hT' t.id
      have hmax : max w.env.now t.due = expiry := by
        rw [htdue]
        exact Nat.max_eq_right hnow
      have hcs : Control.input ∉ cs := fun hmem' => hI.page (hcsmem _ hmem')
      constructor
      · refine ⟨?_, hdel, hpage,
          hs ▸ noInputFocus_addFocuses (noInputFocus_rearm (noInputFocus_remove hF' _)) cs hcs⟩
        rw [hs]
        apply armed_addFocuses
        refine ⟨tracked_rearm hTr, unique_rearm hTr (unique_remove hU' _), hA.period_eq,
          ⟨{ id := w.env.nextTimerId + 1,
             due := max w.env.now t.due + w.app.sessionTimeout * 1000,
             callback := .handleSessionTimeout }, ?_, rfl⟩, ?_, ?_⟩
        · show _ ∈ ((advanceTo t.due w).timerState.remove t.id).rearm.timers
          simp only [TimerState.rearm, List.mem_append, List.mem_cons, List.mem_singleton]
          exact Or.inr (Or.inr (Or.inl rfl))
        · intro x hx hxc
          rw [(rearm_fresh hTr x hx).2 hxc]
          show max w.env.now t.due + w.app.sessionTimeout * 1000 = expiry + period
          rw [hmax]
          have := hA.period_eq
          simp only [World.timerState] at this
          omega
        · show max w.env.now t.due ≤ expiry + period
          omega
      · have ht := congrArg TimerState.timers hs
        rw [show (fireTimer t.id (advanceTo t.due w)).env.timers =
          (fireTimer t.id (advanceTo t.due w)).timerState.timers from rfl, ht,
          pendingWeight_addFocuses]
        simp only [TimerState.rearm, pendingWeight_append]
        have hsub := pendingWeight_sublist
          ((sublist_clearHandle ((advanceTo t.due w).timerState.remove t.id).warningTimer _).trans
            (sublist_clearHandle ((advanceTo t.due w).timerState.remove t.id).idleTimer
              ((advanceTo t.due w).timerState.remove t.id).timers))
        have hw2 : pendingWeight
            [{ id := ((advanceTo t.due w).timerState.remove t.id).nextTimerId,
               due := ((advanceTo t.due w).timerState.remove t.id).now +
                 (((advanceTo t.due w).timerState.remove t.id).sessionTimeout -
                   ((advanceTo t.due w).timerState.remove t.id).warningTime) * 1000,
               callback := Callback.showTimeoutWarning },
             { id := ((advanceTo t.due w).timerState.remove t.id).nextTimerId + 1,
               due := ((advanceTo t.due w).timerState.remove t.id).now +
                 ((advanceTo t.due w).timerState.remove t.id).sessionTimeout * 1000,
               callback := Callback.handleSessionTimeout }] = 2 := by
          simp [pendingWeight, timerWeight]
        rw [hw2]
        have hfil : pendingWeight ((advanceTo t.due w).timerState.remove t.id).timers ≤
            pendingWeight w.env.timers := by
          have : ((advanceTo t.due w).timerState.remove t.id).timers =
              w.env.timers.filter (fun u => u.id != t.id) := rfl
          rw [this]
          omega
        have hlen' : (advanceTo t.due w).doc.elements.length = w.doc.elements.length := rfl
        rw [hlen'] at hcslen
        omega
    · rw [hc] at hc'
      cases hc'

/-- Before the pending expiry is due, an idle period runs no expiry, whatever the fuel. -/
theorem idle_count_before {period expiry : Nat} (limit : Nat) (hlim : limit < expiry) :
    ∀ (fuel : Nat) (w : World), Idle period expiry w →
      (idleUntil fuel limit w).1.count .handleSessionTimeout = 0 := by
  intro fuel
  induction fuel with
  | zero =>
    intro w _
    rfl
  | succ fuel ih =>
    intro w hI
    cases hn : nextDue w.env.timers with
    | none => simp [idleUntil, hn]
    | some t =>
      by_cases hle : t.due ≤ limit
      · obtain ⟨_, _, hother, hexp⟩ := idle_step hI hn
        have hne : t.callback ≠ .handleSessionTimeout := by
          intro hc
          have := (hexp hc).1
          omega
        simp only [idleUntil, hn, hle, if_true]
        rw [List.count_cons_of_ne (Ne.symm hne)]
        exact ih _ (hother hne).1
      · simp [idleUntil, hn, hle]

/-- From the moment the pending expiry is due on, an idle period with enough fuel runs the
expiry once and then once more for every further full period. -/
theorem idle_count_from {period : Nat} (hP : 0 < period) (limit n : Nat) :
    ∀ (fuel expiry : Nat) (w : World), Idle period expiry w → w.doc.elements.length = n →
      expiry ≤ limit →
      pendingWeight w.env.timers + (2 * n + 4) * ((limit - expiry) / period) + 1 ≤ fuel →
      (idleUntil fuel limit w).1.count .handleSessionTimeout =
        1 + (limit - expiry) / period := by
  intro fuel
  induction fuel with
  | zero =>
    intro expiry w _ _ _ hfuel
    omega
  | succ fuel ih =>
    intro expiry w hI hlen hle hfuel
    cases hn : nextDue w.env.timers with
    | none =>
      obtain ⟨e, he, _⟩ := hI.armed.pending
      have hnil : w.timerState.timers = [] := nextDue_eq_none hn
      rw [hnil] at he
      cases he
    | some t =>
      obtain ⟨htE, hlen1, hother, hexp⟩ := idle_step hI hn
      have htl : t.due ≤ limit := Nat.le_trans htE hle
      simp only [idleUntil, hn, htl, if_true]
      by_cases hc : t.callback = .handleSessionTimeout
      · obtain ⟨_, hI1, hw1⟩ := hexp hc
        rw [hc, List.count_cons_self]
        by_cases hlt : limit < expiry + period
        · rw [idle_count_before limit hlt fuel _ hI1]
          have : (limit - expiry) / period = 0 := Nat.div_eq_of_lt (by omega)
          omega
        · have hq : (limit - expiry) / period = (limit - (expiry + period)) / period + 1 := by
            have : limit - expiry = (limit - (expiry + period)) + period := by omega
            rw [this, Nat.add_div_right _ hP]
          rw [hq] at hfuel ⊢
          rw [hlen] at hw1
          have hmul : (2 * n + 4) * ((limit - (expiry + period)) / period + 1) =
              (2 * n + 4) * ((limit - (expiry + period)) / period) + (2 * n + 4) := by
            rw [Nat.mul_add, Nat.mul_one]
          rw [hmul] at hfuel
          rw [ih (expiry + period) _ hI1 (hlen1.trans hlen) (by omega) (by omega)]
          omega
      · obtain ⟨hI1, hw1⟩ := hother hc
        rw [List.count_cons_of_ne (Ne.symm hc)]
        exact ih expiry _ hI1 (hlen1.trans hlen) hle (by omega)

theorem unique_perform (a : Action) (w : World) (h : w.timerState.Tracked)
    (hu : w.timerState.Unique) : (perform a w).timerState.Unique := by
  have iter : ∀ (k : Nat) (s : TimerState), s.Tracked → s.Unique →
      (TimerState.rearm^[k] s).Unique := by
    intro k
    induction k with
    | zero => exact fun _ _ hu => hu
    | succ k ih => exact fun s ht hu => ih s.rearm (tracked_rearm ht) (unique_rearm ht hu)
  have rearmed : ∀ s', Rearmed w.timerState s' → s'.Unique := by
    rintro s' ⟨k, rfl⟩
    exact iter k _ h hu
  have delivered : ∀ v : World, Rearmed w.timerState v.timerState →
      (deliverMutations v).timerState.Unique := by
    intro v hr
    rw [timerState_deliverMutations]
    exact unique_addFocuses (tracked_rearmed h hr) (rearmed _ hr) _
  cases a with
  | showScreen n => exact delivered _ (rearmed_showScreen n w)
  | nextStep n => exact delivered _ (rearmed_nextStep n w)
  | selectDepartment d => exact delivered _ (rearmed_selectDepartment d w)
  | goHome => exact delivered _ ⟨1, timerState_goHome w⟩
  | resetTimeout => exact delivered _ ⟨1, timerState_resetTimeout w⟩
  | resetIdleTimer => exact delivered _ ⟨1, timerState_resetIdleTimer w⟩
  | speak t => exact delivered _ ⟨0, timerState_speak t w⟩
  | setPatientName v => exact hu
  | setPatientBirth v => exact hu
  | setPatientPhone v => exact hu
  | setSymptom i c => exact delivered _ ⟨0, timerState_setSymptom i c w⟩
  | advance ms => exact hu
  | fire id =>
    have hr := tracked_remove h id
    rcases timerState_fireTimer id w with
      ⟨_, he⟩ | ⟨t, cs, _, ⟨_, he⟩ | ⟨_, he⟩ | ⟨_, he⟩ | ⟨c, _, he | ⟨_, he⟩⟩⟩
    · exact he ▸ hu
    · exact he ▸ unique_addFocuses hr (unique_remove hu id) cs
    · exact he ▸ unique_addFocuses (tracked_addClose hr)
        (unique_addClose hr (unique_remove hu id)) cs
    · exact he ▸ unique_addFocuses (tracked_rearm hr)
        (unique_rearm hr (unique_remove hu id)) cs
    · exact he ▸ unique_addFocuses hr (unique_remove hu id) cs
    · exact he ▸ unique_addFocuses (tracked_rearm hr)
        (unique_rearm hr (unique_remove hu id)) cs

theorem unique_run (as : List Action) (w : World) (h : w.timerState.Tracked)
    (hu : w.timerState.Unique) : (run as w).timerState.Unique := by
  induction as generalizing w with
  | nil => exact hu
  | cons a as ih => exact ih _ (tracked_perform a w h) (unique_perform a w h hu)

/-- In every state that a run reaches from the constructor the pending timers have
distinct handles. -/
theorem unique_reachable (doc : Document) (env : Browser) (h0 : env.timers = [])
    (hid : 0 < env.nextTimerId) (pre : List Action) :
    (run pre (construct doc env)).timerState.Unique := by
  apply unique_run pre _ (tracked_construct doc env h0 hid)
  rw [timerState_construct]
  apply unique_rearm
  · refine ⟨hid, ?_, ?_, ?_, ?_⟩ <;> simp [h0]
  · simp [TimerState.Unique, h0]

theorem pendingWeight_le (ts : List Timer) : pendingWeight ts ≤ 2 * ts.length := by
  induction ts with
  | nil => simp [pendingWeight]
  | cons t ts ih =>
    have : timerWeight t ≤ 2 := by
      unfold timerWeight
      split <;> omega
    simp only [pendingWeight, List.map_cons, List.sum_cons, List.length_cons] at ih ⊢
    omega

/-- C15, as stated, fails: on the page with a button first on every screen nobody touches
the kiosk after the constructor has armed the timer at time 0; with every timer run when it
is due, the 240 seconds that follow see `handleSessionTimeout` run twice, at 120 s and at
240 s (the two focus callbacks come from the return to the home screen). -/
theorem expiry_fires_twice_in_240s :
    (idleUntil 8 240000 (construct buttonPage sampleBrowser)).1 =
      [.showTimeoutWarning, .closeTimeoutModal, .handleSessionTimeout,
        .focusFirst .button, .focusFirst .button,
        .showTimeoutWarning, .closeTimeoutModal, .handleSessionTimeout] ∧
    (idleUntil 8 240000 (construct buttonPage sampleBrowser)).1.count
      .handleSessionTimeout = 2 ∧
    (idleUntil 8 240000 (construct buttonPage sampleBrowser)).2.env.now = 240000 := by
  decide

/-- On a page where the first control of the reception screen is an `input`, the focus
that the observer schedules 100 ms after `showScreen('reception')` re-arms the idle timer
when it lands: with nobody touching the kiosk, the first 120 s after the screen change see
no expiry, which comes 100 ms later. -/
theorem focus_on_input_delays_expiry :
    (idleUntil 10 120000
      (perform (.showScreen "reception") (construct formPage focusingBrowser))).1 =
      [.focusFirst .input, .focusFirst .input, .showTimeoutWarning, .closeTimeoutModal] ∧
    (idleUntil 10 120100
      (perform (.showScreen "reception") (construct formPage focusingBrowser))).1 =
      [.focusFirst .input, .focusFirst .input, .showTimeoutWarning, .closeTimeoutModal,
        .handleSessionTimeout] := by
  decide

/-- C15, amended: on a page where no screen has an `input` as its first control, in every
state that a run reaches from the constructor, when `resetIdleTimer()` is called and no
user activity follows for `len` milliseconds, with every timer run when it is due,
`handleSessionTimeout` runs `len / 120000` times in that period: once when the period lasts
at least 120 s and less than 240 s, and once more for every further 120 s, since each run
arms the next expiry. -/
theorem expiry_once_per_period (doc : Document) (env : Browser) (h0 : env.timers = [])
    (hid : 0 < env.nextTimerId) (hpage : some Control.input ∉ screenControls doc)
    (pre : List Action) (w : World) (hw : w = run pre (construct doc env)) (len fuel : Nat)
    (hfuel : 2 * w.env.timers.length + (2 * doc.elements.length + 4) * (len / 120000) + 3 ≤
      fuel) :
    (idleUntil fuel (w.env.now + len) (resetIdleTimer w)).1.count .handleSessionTimeout =
      len / 120000 := by
  have ht : w.timerState.Tracked := hw ▸ tracked_reachable doc env h0 hid pre
  have hu : w.timerState.Unique := hw ▸ unique_reachable doc env h0 hid pre
  have hf : w.timerState.NoInputFocus := hw ▸ noInputFocus_reachable doc env h0 hpage pre
  have hsc : screenControls w.doc = screenControls doc := hw ▸ samePage_reachable doc env pre
  have hdel : w.doc.mutations = [] := hw ▸ delivered_reachable doc env pre
  have hn : (resetIdleTimer w).doc.elements.length = doc.elements.length := by
    rw [resetIdleTimer_doc, ← screenControls_length, ← screenControls_length, hsc]
  obtain ⟨hT, hW⟩ : w.app.sessionTimeout = 120 ∧ w.app.warningTime = 30 :=
    hw ▸ config_reachable doc env pre
  have hperiod : w.timerState.rearm.sessionTimeout * 1000 = 120000 := by
    show w.app.sessionTimeout * 1000 = 120000
    omega
  have hA : (resetIdleTimer w).timerState.Armed 120000 (w.env.now + 120000) := by
    rw [timerState_resetIdleTimer]
    refine ⟨tracked_rearm ht, unique_rearm ht hu, hperiod,
      ⟨{ id := w.env.nextTimerId + 1, due := w.env.now + w.app.sessionTimeout * 1000,
         callback := .handleSessionTimeout }, ?_, rfl⟩, ?_, ?_⟩
    · simp only [TimerState.rearm, List.mem_append, List.mem_cons, List.mem_singleton]
      exact Or.inr (Or.inr (Or.inl rfl))
    · intro x hx hxc
      rw [(rearm_fresh ht x hx).2 hxc]
      show w.env.now + w.app.sessionTimeout * 1000 = w.env.now + 120000
      omega
    · show w.env.now ≤ w.env.now + 120000
      omega
  have hI : Idle 120000 (w.env.now + 120000) (resetIdleTimer w) := by
    refine ⟨hA, ?_, ?_, ?_⟩
    · rw [resetIdleTimer_doc]
      exact hdel
    · rw [resetIdleTimer_doc, hsc]
      exact hpage
    · rw [timerState_resetIdleTimer]
      exact noInputFocus_rearm hf
  by_cases hlen : len < 120000
  · rw [idle_count_before (w.env.now + len) (by omega) fuel _ hI]
    exact (Nat.div_eq_of_lt hlen).symm
  · have hweight : pendingWeight (resetIdleTimer w).env.timers ≤ 2 * w.env.timers.length + 2 := by
      rw [resetIdleTimer_timers, pendingWeight_append]
      have h1 := pendingWeight_sublist
        ((sublist_clearHandle w.app.warningTimer _).trans
          (sublist_clearHandle w.app.idleTimer w.env.timers))
      have h2 := pendingWeight_le w.env.timers
      have h3 : pendingWeight
          [{ id := w.env.nextTimerId,
             due := w.env.now + (w.app.sessionTimeout - w.app.warningTime) * 1000,
             callback := Callback.showTimeoutWarning },
           { id := w.env.nextTimerId + 1, due := w.env.now + w.app.sessionTimeout * 1000,
             callback := Callback.handleSessionTimeout }] = 2 := by
        simp [pendingWeight, timerWeight]
      omega
    have hsub : w.env.now + len - (w.env.now + 120000) = len - 120000 := by omega
    have hq : len / 120000 = (len - 120000) / 120000 + 1 := by omega
    have hmul : (2 * doc.elements.length + 4) * ((len - 120000) / 120000 + 1) =
        (2 * doc.elements.length + 4) * ((len - 120000) / 120000) +
          (2 * doc.elements.length + 4) := by
      rw [Nat.mul_add, Nat.mul_one]
    rw [hq, hmul] at hfuel
    rw [idle_count_from (by omega) (w.env.now + len) doc.elements.length fuel
      (w.env.now + 120000) _ hI hn (by omega) (by rw [hsub]; omega), hsub]
    omega

/-- C15, amended, on the page with a button first on every screen: five minutes of
inactivity after a call at 10 s, with the focus on the reception screen still pending. -/
theorem expiry_once_per_period_witness :
    some Control.input ∉ screenControls buttonPage ∧
    (idleUntil 60 (10 + 300000)
      (resetIdleTimer (run [.showScreen "reception", .advance 10]
        (construct buttonPage sampleBrowser)))).1.count
        .handleSessionTimeout = 300000 / 120000 :=
  ⟨by decide,
    expiry_once_per_period buttonPage sampleBrowser rfl (by decide) (by decide)
      [.showScreen "reception", .advance 10] _ rfl 300000 60 (by decide)⟩

/-- C17, evaluated on the code: the constructor has established the session id
"session_0" and sent two requests; when the session then times out,
`handleSessionTimeout` adds the activity notification that `showScreen('home')` triggers
and nothing else, so no request goes to `/api/session/end/session_0`: `goHome` has emptied
`sessionData` before the id is read. -/
theorem timeout_sends_no_session_end :
    (construct samplePage sampleBrowser).app.sessionData.id = some "session_0" ∧
    (handleSessionTimeout (construct samplePage sampleBrowser)).env.requests =
      [ { url := "/api/session/start", method := "POST",
          body := some (.sessionStart "session_0") },
        { url := "/api/session/activity/session_0", method := "POST", body := none },
        { url := "/api/session/activity/session_0", method := "POST", body := none } ] ∧
    (∀ r ∈ (handleSessionTimeout (construct samplePage sampleBrowser)).env.requests,
      r.url ≠ "/api/session/end/session_0") ∧
    (handleSessionTimeout (construct samplePage sampleBrowser)).app.sessionData.id = none := by
  decide

/-! ## The reception submission -/

theorem activity_url_ne (sid : String) :
    ("/api/session/activity/" ++ sid == "/api/reception/walk-in") = false := by
  rw [beq_eq_false_iff_ne]
  intro h
  have h2 := congrArg String.data h
  rw [String.data_append] at h2
  have h3 := congrArg (List.take 6) h2
  rw [List.take_append_of_le_length (by decide)] at h3
  exact absurd h3 (by decide)

theorem clearIfSet_requests (h : Option Nat) (w : World) :
    (clearIfSet h w).env.requests = w.env.requests := by
  unfold clearIfSet clearTimeout
  split
  · rfl
  · split <;> rfl

theorem receptionRequests_resetIdleTimer (w : World) :
    receptionRequests (resetIdleTimer w) = receptionRequests w := by
  unfold resetIdleTimer receptionRequests
  simp only [setTimeout, fetch]
  split
  · simp only [clearIfSet_requests]
  · split
    · simp only [clearIfSet_requests, List.filter_append, List.filter_cons, activity_url_ne,
        Bool.false_eq_true, if_false, List.filter_nil, List.append_nil]
    · simp only [clearIfSet_requests]

theorem receptionRequests_of_quiet {w w' : World} (h : Quiet w w') :
    receptionRequests w' = receptionRequests w := by
  unfold receptionRequests
  rw [h.requests]

theorem receptionRequests_showStep (n : String) (w : World) :
    receptionRequests (showStep n w) = receptionRequests w := by
  unfold showStep
  rw [receptionRequests_resetIdleTimer]
  split <;> rfl

theorem receptionRequests_saveStepData (w : World) :
    receptionRequests (saveStepData w) = receptionRequests w := by
  unfold saveStepData
  split
  · rfl
  · split <;> rfl

theorem randomBelow_fst_lt (n : Nat) (hn : 0 < n) (w : World) : (randomBelow n w).1 < n := by
  unfold randomBelow
  split
  · exact hn
  · exact Nat.mod_lt _ hn

theorem randomBelow_requests (n : Nat) (w : World) :
    (randomBelow n w).2.env.requests = w.env.requests ∧
      (randomBelow n w).2.app = w.app := by
  unfold randomBelow
  split <;> exact ⟨rfl, rfl⟩

theorem showLoading_requests (b : Bool) (w : World) :
    (showLoading b w).env.requests = w.env.requests := by
  unfold showLoading
  split
  · rw [(speak_quiet _ _).requests]
  · rfl

/-- The requests after `generateQueueNumber`: one reception submission is added, with the
session data of the moment and a queue number from 1 to 50. -/
theorem generateQueueNumber_requests (w : World) :
    ∃ q, 1 ≤ q ∧ q ≤ 50 ∧
      (generateQueueNumber w).env.requests = w.env.requests ++
        [{ url := "/api/reception/walk-in", method := "POST",
           body := some (.reception w.app.sessionData q) }] := by
  refine ⟨(randomBelow 50 w).1 + 1, by omega, ?_, ?_⟩
  · have := randomBelow_fst_lt 50 (by omega) w
    omega
  · unfold generateQueueNumber
    simp only []
    unfold submitReception fetch
    simp only []
    rw [showLoading_requests, (showLoading_sameStepper true _).sessionData]
    simp only []
    rw [(randomBelow_requests 30 _).1, (randomBelow_requests 30 _).2,
      (randomBelow_requests 50 w).1, (randomBelow_requests 50 w).2]

theorem nextStep_confirmation_of_valid (w : World) (h : (validateCurrentStep w).1 = true) :
    nextStep "confirmation" w =
      speak "접수가 완료되었습니다."
        (generateQueueNumber (showStep "confirmation" (saveStepData w))) := by
  have hv : validateCurrentStep w = (true, w) := Prod.ext h (validateCurrentStep_ok w h)
  unfold nextStep
  rw [hv]
  simp only [Bool.not_true, Bool.false_eq_true, if_false]
  rw [if_neg (show ¬ "confirmation" = "symptoms" by decide),
    if_neg (show ¬ "confirmation" = "department" by decide), if_pos trivial]

theorem receptionRequests_nextStep_other (w : World) (n : String) (hn : n ≠ "confirmation") :
    receptionRequests (nextStep n w) = receptionRequests w := by
  cases h : (validateCurrentStep w).1
  · rw [nextStep_of_invalid w n h]
    exact receptionRequests_of_quiet (validateCurrentStep_quiet w)
  · have hv : validateCurrentStep w = (true, w) := Prod.ext h (validateCurrentStep_ok w h)
    have hs : receptionRequests (showStep n (saveStepData w)) = receptionRequests w := by
      rw [receptionRequests_showStep, receptionRequests_saveStepData]
    unfold nextStep
    rw [hv]
    simp only [Bool.not_true, Bool.false_eq_true, if_false]
    split
    · rw [receptionRequests_of_quiet (speak_quiet _ _), hs]
    · split
      · rw [receptionRequests_of_quiet (speak_quiet _ _), hs]
      · exact hs

/-- C18: a call `nextStep('confirmation')` whose validation succeeds adds exactly one
reception submission, a POST to `/api/reception/walk-in` whose body is `sessionData` with
a queue number from 1 to 50; a call whose validation fails adds none, whatever the step
name; and no call with another step name adds one. -/
theorem nextStep_confirmation_submits_once (w : World) (n : String) :
    ((validateCurrentStep w).1 = true →
      ∃ q, 1 ≤ q ∧ q ≤ 50 ∧
        receptionRequests (nextStep "confirmation" w) = receptionRequests w ++
          [{ url := "/api/reception/walk-in", method := "POST",
             body := some (.reception (nextStep "confirmation" w).app.sessionData q) }]) ∧
    ((validateCurrentStep w).1 = false →
      receptionRequests (nextStep n w) = receptionRequests w) ∧
    (n ≠ "confirmation" → receptionRequests (nextStep n w) = receptionRequests w) := by
  refine ⟨fun h => ?_, fun h => ?_, receptionRequests_nextStep_other w n⟩
  · obtain ⟨q, hq1, hq2, hreq⟩ :=
      generateQueueNumber_requests (showStep "confirmation" (saveStepData w))
    refine ⟨q, hq1, hq2, ?_⟩
    have hdata : (nextStep "confirmation" w).app.sessionData =
        (showStep "confirmation" (saveStepData w)).app.sessionData :=
      (nextStep_of_valid w "confirmation" h).sessionData
    rw [hdata, nextStep_confirmation_of_valid w h,
      receptionRequests_of_quiet (speak_quiet _ _)]
    have hold : receptionRequests (showStep "confirmation" (saveStepData w)) =
        receptionRequests w := by
      rw [receptionRequests_showStep, receptionRequests_saveStepData]
    rw [← hold]
    unfold receptionRequests
    rw [hreq, List.filter_append]
    simp
  · rw [nextStep_of_invalid w n h]
    exact receptionRequests_of_quiet (validateCurrentStep_quiet w)

/-- C18 at the department step of the sample flow, with the random value 6 coming. -/
theorem nextStep_confirmation_submits_once_witness :
    (validateCurrentStep (nextStep "department" feverCheckedWorld)).1 = true ∧
    receptionRequests (nextStep "department" feverCheckedWorld) = [] ∧
    ∃ q, 1 ≤ q ∧ q ≤ 50 ∧
      receptionRequests (nextStep "confirmation" (nextStep "department" feverCheckedWorld)) =
        receptionRequests (nextStep "department" feverCheckedWorld) ++
          [{ url := "/api/reception/walk-in", method := "POST",
             body := some (.reception
               (nextStep "confirmation"
                 (nextStep "department" feverCheckedWorld)).app.sessionData q) }] :=
  ⟨by decide, by decide,
    (nextStep_confirmation_submits_once (nextStep "department" feverCheckedWorld)
      "confirmation").1 (by decide)⟩

/-! ## The reception request after it has settled -/

theorem consoleError_sameStepper (line : String) (w : World) :
    SameStepper w (consoleError line w) :=
  ⟨rfl, rfl, rfl⟩

/-- C19: whatever the outcome of the reception request (an ok response, with a body that
parses or not, a response that is not ok, or a network error), `submitReception` does not
throw, neither before nor after the request has settled, and leaves `currentScreen`,
`currentStep` and `sessionData` as they were; a stepper on the confirmation step stays
there. -/
theorem submitReception_keeps_stepper (q : Nat) (o : FetchOutcome) (w v : World) :
    ((submitReception q w).app.currentScreen = w.app.currentScreen ∧
      (submitReception q w).app.currentStep = w.app.currentStep ∧
      (submitReception q w).app.sessionData = w.app.sessionData) ∧
    (∃ v', submitReceptionSettle o v = .ok v' ∧
      v'.app.currentScreen = v.app.currentScreen ∧
      v'.app.currentStep = v.app.currentStep ∧
      v'.app.sessionData = v.app.sessionData) ∧
    (∃ w', submitReceptionSettle o (submitReception q w) = .ok w' ∧
      w'.app.currentScreen = w.app.currentScreen ∧
      w'.app.currentStep = w.app.currentStep ∧
      w'.app.sessionData = w.app.sessionData) := by
  have hsync := submitReception_sameStepper q w
  have hsettle : ∀ u : World, ∃ u', submitReceptionSettle o u = .ok u' ∧ SameStepper u u' := by
    intro u
    refine ⟨_, rfl, ?_⟩
    refine sameStepper_trans ?_ (showLoading_sameStepper false _)
    unfold submitReceptionTry
    cases o with
    | failure e => exact consoleError_sameStepper _ u
    | response ok statusText json =>
      cases ok with
      | true =>
        cases json with
        | none => exact consoleError_sameStepper _ u
        | some j => exact sameStepper_refl u
      | false => exact consoleError_sameStepper _ u
  refine ⟨⟨hsync.currentScreen, hsync.currentStep, hsync.sessionData⟩, ?_, ?_⟩
  · obtain ⟨v', hv, hs⟩ := hsettle v
    exact ⟨v', hv, hs.currentScreen, hs.currentStep, hs.sessionData⟩
  · obtain ⟨w', hw', hs⟩ := hsettle (submitReception q w)
    have := sameStepper_trans hsync hs
    exact ⟨w', hw', this.currentScreen, this.currentStep, this.sessionData⟩

/-! ## The offline queue -/

/-- C20, evaluated on the code: two queued requests carry the id 5; the replay of the
first succeeds and the replay of the second fails. The failed request is the one that the
comment in the code says is kept, yet the queue stored back is empty: the filter drops
every request whose id equals the id of a processed one. -/
theorem offline_queue_drops_failed_duplicate :
    failedReplays
      [ { id := 5, url := "/reception/walk-in", options := "first", timestamp := "t" },
        { id := 5, url := "/payment/process", options := "second", timestamp := "t" } ]
      [true, false] =
      [ { id := 5, url := "/payment/process", options := "second", timestamp := "t" } ] ∧
    processOfflineQueue
      (some
        [ { id := 5, url := "/reception/walk-in", options := "first", timestamp := "t" },
          { id := 5, url := "/payment/process", options := "second", timestamp := "t" } ])
      [true, false] = [] := by
  decide

/-! ## Voice guidance switched off -/

/-- C21, evaluated on the code: voice guidance is on and `window.app` is set; `toggleVoice()`
switches the flag off first and then hands the farewell to `AccessibilityManager.speak`,
which tests the flag, so nothing reaches `app.speak`. -/
theorem toggleVoice_farewell_not_spoken :
    voiceOnWorld.manager.settings.voiceEnabled = true ∧
    voiceOnWorld.hasApp = true ∧
    (AccessibilityManager.toggleVoice voiceOnWorld).manager.settings.voiceEnabled = false ∧
    (AccessibilityManager.toggleVoice voiceOnWorld).spoken = [] ∧
    "음성 안내가 꺼졌습니다." ∉ (AccessibilityManager.toggleVoice voiceOnWorld).spoken := by
  decide

/-! ## Retrying requests -/

theorem jsIncludes_iff (text needle : String) :
    jsIncludes text needle = true ↔ needle.data <:+: text.data := by
  unfold jsIncludes
  rw [List.any_eq_true, List.infix_iff_prefix_suffix]
  constructor
  · rintro ⟨rest, hmem, hpre⟩
    exact ⟨rest, List.isPrefixOf_iff_prefix.mp hpre, (List.mem_tails _ _).mp hmem⟩
  · rintro ⟨rest, hpre, hsuf⟩
    exact ⟨rest, (List.mem_tails _ _).mpr hsuf, List.isPrefixOf_iff_prefix.mpr hpre⟩

theorem toString_5xx (status : Nat) (h1 : 500 ≤ status) (h2 : status ≤ 599) :
    ∃ rest, (toString status).data = '5' :: rest := by
  interval_cases status <;> exact ⟨_, rfl⟩

/-- The message of the error for a status from 500 to 599 contains `HTTP 5`. -/
theorem httpError_5xx (status : Nat) (statusText : String) (h1 : 500 ≤ status)
    (h2 : status ≤ 599) : ApiClient.shouldRetry (ApiClient.httpError status statusText) = true := by
  obtain ⟨rest, hrest⟩ := toString_5xx status h1 h2
  have hinc : jsIncludes (ApiClient.httpError status statusText).message "HTTP 5" = true := by
    rw [jsIncludes_iff]
    refine ⟨[], rest ++ (": " ++ statusText).data, ?_⟩
    simp only [ApiClient.httpError, String.data_append, hrest, String.append_assoc]
    rfl
  simp [ApiClient.shouldRetry, hinc]

/-- C22: `shouldRetry(error)` is true exactly when `error.message` contains
'Failed to fetch', 'HTTP 5' or '시간이 초과'; the error that `request` throws for a
response with a status from 500 to 599 and the one it throws for a timeout abort are
retried, and the error 'HTTP 404: Not Found' that it throws for a 404 response is not. -/
theorem shouldRetry_spec (e : JsError) :
    (ApiClient.shouldRetry e = true ↔
      ("Failed to fetch".data <:+: e.message.data ∨ "HTTP 5".data <:+: e.message.data ∨
        "시간이 초과".data <:+: e.message.data)) ∧
    (∀ (status : Nat) (statusText : String) (contentType : Option String)
        (json text : Except JsError String), 500 ≤ status → status ≤ 599 →
      ApiClient.request (.response status statusText contentType json text) =
        .error (ApiClient.httpError status statusText) ∧
      ApiClient.shouldRetry (ApiClient.httpError status statusText) = true) ∧
    (∀ message : String,
      ApiClient.request (.rejected { name := "AbortError", message := message }) =
        .error ApiClient.timeoutError ∧
      ApiClient.shouldRetry ApiClient.timeoutError = true) ∧
    (∀ (contentType : Option String) (json text : Except JsError String),
      ApiClient.request (.response 404 "Not Found" contentType json text) =
        .error { name := "Error", message := "HTTP 404: Not Found" } ∧
      ApiClient.shouldRetry { name := "Error", message := "HTTP 404: Not Found" } = false) := by
  refine ⟨?_, ?_, ?_, ?_⟩
  · simp only [ApiClient.shouldRetry, Bool.or_eq_true, jsIncludes_iff, or_assoc]
  · intro status statusText contentType json text h1 h2
    refine ⟨?_, httpError_5xx status statusText h1 h2⟩
    have hok : (decide (200 ≤ status) && decide (status ≤ 299)) = false := by
      simp only [Bool.and_eq_false_imp, decide_eq_true_eq, decide_eq_false_iff_not]
      omega
    have hname : (ApiClient.httpError status statusText).name ≠ "AbortError" := by
      simp [ApiClient.httpError]
    simp only [ApiClient.request, ApiClient.requestTry, hok, Bool.not_false, if_true,
      if_neg hname]
  · intro message
    exact ⟨rfl, by decide⟩
  · intro contentType json text
    exact ⟨rfl, by decide⟩

/-- C22 at the response `503 Service Unavailable`. -/
theorem shouldRetry_spec_witness :
    ApiClient.request (.response 503 "Service Unavailable" none (.ok "") (.ok "")) =
        .error (ApiClient.httpError 503 "Service Unavailable") ∧
      ApiClient.shouldRetry (ApiClient.httpError 503 "Service Unavailable") = true :=
  (shouldRetry_spec ApiClient.timeoutError).2.1 503 "Service Unavailable" none (.ok "")
    (.ok "") (by decide) (by decide)

/-- C27: `requestWithRetry(url, options, n)` is a total function of `n` and of the
outcomes of the calls of `request`; it makes at least one and at most `n + 1` calls; every
call but the last has failed with an error that `shouldRetry` accepts; it returns or throws
what the last call returned or threw, so that a returned value is the first success; and
when it throws, either the retries are used up or `shouldRetry` rejects the error. With
the default `retryCount` it makes at most 4 calls. -/
theorem requestWithRetry_spec (outcome : Nat → Except JsError String) (n : Nat) :
    ∀ attempt : Nat,
      1 ≤ (ApiClient.requestWithRetry outcome attempt n).1 ∧
      (ApiClient.requestWithRetry outcome attempt n).1 ≤ n + 1 ∧
      (ApiClient.requestWithRetry outcome attempt n).2 =
        outcome (attempt + (ApiClient.requestWithRetry outcome attempt n).1 - 1) ∧
      (∀ i, i + 1 < (ApiClient.requestWithRetry outcome attempt n).1 →
        ∃ e, outcome (attempt + i) = .error e ∧ ApiClient.shouldRetry e = true) ∧
      (∀ e, (ApiClient.requestWithRetry outcome attempt n).2 = .error e →
        (ApiClient.requestWithRetry outcome attempt n).1 = n + 1 ∨
          ApiClient.shouldRetry e = false) ∧
      (ApiClient.requestWithRetry outcome attempt ApiClient.retryCount).1 ≤ 4 := by
  have main : ∀ (n attempt : Nat),
      1 ≤ (ApiClient.requestWithRetry outcome attempt n).1 ∧
      (ApiClient.requestWithRetry outcome attempt n).1 ≤ n + 1 ∧
      (ApiClient.requestWithRetry outcome attempt n).2 =
        outcome (attempt + (ApiClient.requestWithRetry outcome attempt n).1 - 1) ∧
      (∀ i, i + 1 < (ApiClient.requestWithRetry outcome attempt n).1 →
        ∃ e, outcome (attempt + i) = .error e ∧ ApiClient.shouldRetry e = true) ∧
      (∀ e, (ApiClient.requestWithRetry outcome attempt n).2 = .error e →
        (ApiClient.requestWithRetry outcome attempt n).1 = n + 1 ∨
          ApiClient.shouldRetry e = false) := by
    intro n
    induction n with
    | zero =>
      intro attempt
      have h0 : ApiClient.requestWithRetry outcome attempt 0 = (1, outcome attempt) := rfl
      rw [h0]
      exact ⟨Nat.le_refl _, Nat.le_refl _, rfl, fun i hi => absurd hi (by omega),
        fun _ _ => Or.inl rfl⟩
    | succ n ih =>
      intro attempt
      cases ho : outcome attempt with
      | ok value =>
        have h0 : ApiClient.requestWithRetry outcome attempt (n + 1) = (1, .ok value) := by
          simp only [ApiClient.requestWithRetry, ho]
        rw [h0]
        refine ⟨Nat.le_refl _, by omega, ?_, fun i hi => absurd hi (by omega), ?_⟩
        · simp only [Nat.add_sub_cancel, ho]
        · intro e he
          cases he
      | error e =>
        by_cases hr : ApiClient.shouldRetry e = true
        · obtain ⟨h1, h2, h3, h4, h5⟩ := ih (attempt + 1)
          have h0 : ApiClient.requestWithRetry outcome attempt (n + 1) =
              ((ApiClient.requestWithRetry outcome (attempt + 1) n).1 + 1,
                (ApiClient.requestWithRetry outcome (attempt + 1) n).2) := by
            simp only [ApiClient.requestWithRetry, ho, hr, if_true]
          rw [h0]
          refine ⟨by omega, by omega, ?_, ?_, ?_⟩
          · rw [h3]
            congr 1
            omega
          · intro i hi
            cases i with
            | zero => exact ⟨e, ho, hr⟩
            | succ i =>
              obtain ⟨e', he', hs'⟩ := h4 i (by omega)
              refine ⟨e', ?_, hs'⟩
              rw [← he']
              congr 1
              omega
          · intro e' he'
            rcases h5 e' he' with h | h
            · exact Or.inl (by omega)
            · exact Or.inr h
        · have hr' : ApiClient.shouldRetry e = false := by simpa using hr
          have h0 : ApiClient.requestWithRetry outcome attempt (n + 1) = (1, .error e) := by
            simp only [ApiClient.requestWithRetry, ho, hr', Bool.false_eq_true, if_false]
          rw [h0]
          refine ⟨Nat.le_refl _, by omega, ?_, fun i hi => absurd hi (by omega), ?_⟩
          · simp only [Nat.add_sub_cancel, ho]
          · intro e' he'
            cases he'
            exact Or.inr hr'
  intro attempt
  obtain ⟨h1, h2, h3, h4, h5⟩ := main n attempt
  exact ⟨h1, h2, h3, h4, h5, (main ApiClient.retryCount attempt).2.1⟩

/-- C27 at three retries with two `503` failures before a success: three calls. -/
theorem requestWithRetry_spec_witness :
    (ApiClient.requestWithRetry
      (fun i => if i < 2 then .error (ApiClient.httpError 503 "Service Unavailable")
        else .ok "done") 0 3).1 ≤ 3 + 1 ∧
    (ApiClient.requestWithRetry
      (fun i => if i < 2 then .error (ApiClient.httpError 503 "Service Unavailable")
        else .ok "done") 0 3) = (3, .ok "done") :=
  ⟨(requestWithRetry_spec _ 3 0).2.1, rfl⟩

/-! ## The headers of a request -/

/-- C28: the headers that `request` hands to `fetch` are the single default
`Content-Type: application/json` when `options` has no `headers` property, and are exactly
`options.headers` when it has one; with the options of `getStatistics` and `getDeviceLogs`
they are the `Authorization` header alone, without `Content-Type`. -/
theorem request_headers (options : RequestOptions) :
    (options.headers = none →
      (ApiClient.defaultOptions options).headers =
        some [("Content-Type", "application/json")]) ∧
    (∀ h, options.headers = some h → (ApiClient.defaultOptions options).headers = some h) ∧
    (∀ authToken : String,
      (ApiClient.defaultOptions (ApiClient.adminOptions authToken)).headers =
        some [("Authorization", "Bearer " ++ authToken)] ∧
      ∀ h, (ApiClient.defaultOptions (ApiClient.adminOptions authToken)).headers = some h →
        h.lookup "Content-Type" = none) := by
  refine ⟨fun hnone => ?_, fun h hsome => ?_, fun authToken => ⟨rfl, ?_⟩⟩
  · simp [ApiClient.defaultOptions, spreadOptions, hnone, spreadHeaders]
  · simp [ApiClient.defaultOptions, spreadOptions, hsome]
  · intro h hh
    have : h = [("Authorization", "Bearer " ++ authToken)] := by
      have := hh.symm
      simpa [ApiClient.defaultOptions, spreadOptions, ApiClient.adminOptions] using this
    subst this
    simp [List.lookup]

/-- C28 at the options of `post` and at the options of `getStatistics`. -/
theorem request_headers_witness :
    (ApiClient.defaultOptions (ApiClient.postOptions "{}")).headers =
      some [("Content-Type", "application/json")] ∧
    (ApiClient.defaultOptions (ApiClient.adminOptions "secret")).headers =
      some [("Authorization", "Bearer secret")] :=
  ⟨(request_headers (ApiClient.postOptions "{}")).1 rfl,
    (request_headers (ApiClient.adminOptions "secret")).2.1 _ rfl⟩

/-! ## Phone validation, once more -/

theorem validatePhone_congr (p q : String)
    (h : stripNonDigits q.data = stripNonDigits p.data) : validatePhone q = validatePhone p := by
  unfold validatePhone
  rw [h]

theorem stripNonDigits_insert (a b : List Char) (c : Char) (hc : c.isDigit = false) :
    stripNonDigits (a ++ c :: b) = stripNonDigits (a ++ b) := by
  simp [stripNonDigits, List.filter_append, List.filter_cons, hc]

/-- C23: `validatePhone(p)` is true exactly when the ASCII digits of `p`, in their order
and with every other character deleted, are 10 or 11 in number and begin with "01"; the
result is the same for any two strings with the same digits, so it does not change when a
character that is not a digit is inserted into `p` or removed from it. -/
theorem validatePhone_digits_only (p : String) :
    (validatePhone p = true ↔
      ((stripNonDigits p.data).length = 10 ∨ (stripNonDigits p.data).length = 11) ∧
        ['0', '1'] <+: stripNonDigits p.data) ∧
    (∀ q : String, stripNonDigits q.data = stripNonDigits p.data →
      validatePhone q = validatePhone p) ∧
    (∀ (a b : List Char) (c : Char), c.isDigit = false → p.data = a ++ b →
      validatePhone (String.mk (a ++ c :: b)) = validatePhone p) ∧
    (∀ (a b : List Char) (c : Char), c.isDigit = false → p.data = a ++ c :: b →
      validatePhone (String.mk (a ++ b)) = validatePhone p) := by
  refine ⟨validatePhone_iff_digits p, validatePhone_congr p, ?_, ?_⟩
  · intro a b c hc hp
    apply validatePhone_congr
    rw [hp]
    exact stripNonDigits_insert a b c hc
  · intro a b c hc hp
    apply validatePhone_congr
    rw [hp]
    exact (stripNonDigits_insert a b c hc).symm

/-- C23 at "01012345678" with a blank inserted after the third digit. -/
theorem validatePhone_digits_only_witness :
    validatePhone (String.mk ("010".data ++ ' ' :: "12345678".data)) =
      validatePhone "01012345678" :=
  (validatePhone_digits_only "01012345678").2.2.1 "010".data "12345678".data ' '
    (by decide) (by decide)

/-! ## Choosing a department -/

theorem nextStep_rejected_frame (w : World) (n : String)
    (h : (validateCurrentStep w).1 = false) : Quiet w (nextStep n w) := by
  rw [nextStep_of_invalid w n h]
  exact validateCurrentStep_quiet w

/-- The result of the validation depends on the step and on the form only. -/
theorem validateCurrentStep_fst_congr (w w' : World)
    (hstep : w'.app.currentStep = w.app.currentStep)
    (hname : w'.doc.patientName = w.doc.patientName)
    (hbirth : w'.doc.patientBirth = w.doc.patientBirth)
    (hphone : w'.doc.patientPhone = w.doc.patientPhone)
    (hsym : w'.doc.symptomInputs = w.doc.symptomInputs) :
    (validateCurrentStep w').1 = (validateCurrentStep w).1 := by
  unfold validateCurrentStep
  rw [hstep, hname, hbirth, hphone, hsym]
  split
  · simp only []
    split
    · rfl
    · split <;> rfl
  · split
    · split <;> rfl
    · rfl

theorem saveStepData_department (w : World) :
    (saveStepData w).app.sessionData.department = w.app.sessionData.department := by
  unfold saveStepData
  split
  · rfl
  · split <;> rfl

/-- C26: after `selectDepartment(d)` the key `department` of `sessionData` is `d` in every
state; when the validation of the current step fails, the call of `nextStep` inside is
rejected, `currentStep` is unchanged, and `sessionData` differs from before in that key
only. -/
theorem selectDepartment_writes_department (w : World) (d : String) :
    (selectDepartment d w).app.sessionData.department = some d ∧
    ((validateCurrentStep w).1 = false →
      (selectDepartment d w).app.currentStep = w.app.currentStep ∧
      (selectDepartment d w).app.sessionData =
        { w.app.sessionData with department := some d }) := by
  have hval : (validateCurrentStep
      { w with
        app := { w.app with sessionData := { w.app.sessionData with department := some d } }
        doc := { w.doc with deptLocation := departmentLocation d } }).1 =
      (validateCurrentStep w).1 :=
    validateCurrentStep_fst_congr w _ rfl rfl rfl rfl rfl
  constructor
  · unfold selectDepartment
    simp only []
    rw [(speak_quiet _ _).sessionData]
    cases h : (validateCurrentStep w).1
    · rw [h] at hval
      rw [(nextStep_rejected_frame _ "confirmation" hval).sessionData]
    · rw [h] at hval
      rw [(nextStep_of_valid _ "confirmation" hval).sessionData, showStep_sessionData,
        saveStepData_department]
  · intro h
    rw [h] at hval
    unfold selectDepartment
    simp only []
    rw [(speak_quiet _ _).currentStep, (speak_quiet _ _).sessionData,
      (nextStep_rejected_frame _ "confirmation" hval).currentStep,
      (nextStep_rejected_frame _ "confirmation" hval).sessionData]
    exact ⟨rfl, rfl⟩

/-- C26 at the blank-name state: the validation fails and the department is written. -/
theorem selectDepartment_writes_department_witness :
    (validateCurrentStep blankNameWorld).1 = false ∧
    (selectDepartment "internal" blankNameWorld).app.currentStep = "patient-input" ∧
    (selectDepartment "internal" blankNameWorld).app.sessionData.department =
      some "internal" :=
  ⟨by decide,
    ((selectDepartment_writes_department blankNameWorld "internal").2 (by decide)).1,
    (selectDepartment_writes_department blankNameWorld "internal").1⟩

/-! ## What stays the same along a run -/

theorem steady_refl (w : World) : Steady w w :=
  ⟨rfl, id, fun _ => rfl, id, fun _ => rfl⟩

theorem steady_trans {a b c : World} (h1 : Steady a b) (h2 : Steady b c) : Steady a c :=
  ⟨h2.voiceEnabled.trans h1.voiceEnabled,
    fun h => h2.liveRegion (h1.liveRegion h),
    fun h => (h2.utterances (h1.voiceEnabled.trans h)).trans (h1.utterances h),
    fun h => h2.sessionId (h1.sessionId h),
    fun h => (h2.activity (h1.sessionId h)).trans (h1.activity h)⟩

theorem steady_announceToScreenReader (m : String) (w : World) :
    Steady w (announceToScreenReader m w) := by
  unfold announceToScreenReader
  split
  · exact steady_refl w
  · exact ⟨rfl, fun _ => rfl, fun _ => rfl, id, fun _ => rfl⟩

theorem steady_speak (t : String) (w : World) : Steady w (speak t w) := by
  unfold speak
  refine steady_trans ?_ (steady_announceToScreenReader _ _)
  split
  · rename_i hv
    refine ⟨rfl, id, fun hoff => ?_, id, fun _ => rfl⟩
    rw [hoff] at hv
    simp at hv
  · exact steady_refl w

theorem steady_showError (m : String) (w : World) : Steady w (showError m w) := by
  unfold showError
  exact steady_trans
    (b := { w with env := { w.env with consoleErrors := w.env.consoleErrors ++ [m] } })
    ⟨rfl, id, fun _ => rfl, id, fun _ => rfl⟩ (steady_announceToScreenReader _ _)

theorem steady_announceScreenChange (n : String) (w : World) :
    Steady w (announceScreenChange n w) := by
  unfold announceScreenChange
  exact steady_announceToScreenReader _ _

theorem steady_showLoading (b : Bool) (w : World) : Steady w (showLoading b w) := by
  unfold showLoading
  split
  · exact steady_trans (b := { w with doc := { w.doc with loadingHidden := false } })
      ⟨rfl, id, fun _ => rfl, id, fun _ => rfl⟩ (steady_speak _ _)
  · exact ⟨rfl, id, fun _ => rfl, id, fun _ => rfl⟩

theorem steady_clearIfSet (h : Option Nat) (w : World) : Steady w (clearIfSet h w) := by
  unfold clearIfSet clearTimeout
  split
  · exact steady_refl w
  · split
    · exact steady_refl w
    · exact ⟨rfl, id, fun _ => rfl, id, fun _ => rfl⟩

theorem steady_resetIdleTimer (w : World) : Steady w (resetIdleTimer w) := by
  have h1 := steady_clearIfSet w.app.idleTimer w
  have h2 := steady_clearIfSet (clearIfSet w.app.idleTimer w).app.warningTimer
    (clearIfSet w.app.idleTimer w)
  have h12 := steady_trans h1 h2
  unfold resetIdleTimer
  simp only [setTimeout, fetch]
  generalize clearIfSet (clearIfSet w.app.idleTimer w).app.warningTimer
    (clearIfSet w.app.idleTimer w) = w2 at h12 ⊢
  refine steady_trans h12 ?_
  split
  · exact ⟨rfl, fun h => h, fun _ => rfl, fun h => h, fun _ => rfl⟩
  · rename_i sid hsid
    split
    · refine ⟨rfl, fun h => h, fun _ => rfl, fun h => h, fun hnone => ?_⟩
      have hsid' : w2.app.sessionData.id = some sid := hsid
      rw [hnone] at hsid'
      cases hsid'
    · exact ⟨rfl, fun h => h, fun _ => rfl, fun h => h, fun _ => rfl⟩

theorem steady_showStep (n : String) (w : World) : Steady w (showStep n w) := by
  unfold showStep
  refine steady_trans ?_ (steady_resetIdleTimer _)
  split
  · exact ⟨rfl, fun h => h, fun _ => rfl, fun h => h, fun _ => rfl⟩
  · exact ⟨rfl, fun h => h, fun _ => rfl, fun h => h, fun _ => rfl⟩

theorem steady_showScreen (s : String) (w : World) : Steady w (showScreen s w) := by
  unfold showScreen
  refine steady_trans (steady_trans ?_ (steady_resetIdleTimer _)) (steady_announceScreenChange _ _)
  split
  · split
    · refine steady_trans ?_ (steady_showStep _ _)
      exact ⟨rfl, fun h => h, fun _ => rfl, fun h => h, fun _ => rfl⟩
    · exact ⟨rfl, fun h => h, fun _ => rfl, fun h => h, fun _ => rfl⟩
  · exact ⟨rfl, fun h => h, fun _ => rfl, fun h => h, fun _ => rfl⟩

theorem steady_validateCurrentStep (w : World) : Steady w (validateCurrentStep w).2 := by
  unfold validateCurrentStep
  split
  · simp only []
    split
    · exact steady_trans (steady_speak _ _) (steady_showError _ _)
    · split
      · exact steady_trans (steady_speak _ _) (steady_showError _ _)
      · exact steady_refl w
  · split
    · split
      · exact steady_trans (steady_speak _ _) (steady_showError _ _)
      · exact steady_refl w
    · exact steady_refl w

theorem steady_saveStepData (w : World) : Steady w (saveStepData w) := by
  unfold saveStepData
  split
  · exact ⟨rfl, fun h => h, fun _ => rfl, fun h => h, fun _ => rfl⟩
  · split
    · exact ⟨rfl, fun h => h, fun _ => rfl, fun h => h, fun _ => rfl⟩
    · exact steady_refl w

theorem steady_randomBelow (n : Nat) (w : World) : Steady w (randomBelow n w).2 := by
  unfold randomBelow
  split
  · exact steady_refl w
  · exact ⟨rfl, fun h => h, fun _ => rfl, fun h => h, fun _ => rfl⟩

theorem steady_submitReception (q : Nat) (w : World) : Steady w (submitReception q w) := by
  unfold submitReception fetch
  refine steady_trans (steady_showLoading true w) ?_
  refine ⟨rfl, fun h => h, fun _ => rfl, fun h => h, fun _ => ?_⟩
  simp only [activityRequests, List.filter_append]
  have : ("/api/session/activity/".data.isPrefixOf "/api/reception/walk-in".data) = false := by
    decide
  simp [this]

theorem steady_generateQueueNumber (w : World) : Steady w (generateQueueNumber w) := by
  unfold generateQueueNumber
  simp only []
  refine steady_trans (steady_randomBelow 50 w) ?_
  refine steady_trans (steady_randomBelow 30 _) ?_
  refine steady_trans ?_ (steady_submitReception _ _)
  exact ⟨rfl, fun h => h, fun _ => rfl, fun h => h, fun _ => rfl⟩

theorem steady_nextStep (n : String) (w : World) : Steady w (nextStep n w) := by
  cases h : (validateCurrentStep w).1
  · rw [nextStep_of_invalid w n h]
    exact steady_validateCurrentStep w
  · have hv : validateCurrentStep w = (true, w) := Prod.ext h (validateCurrentStep_ok w h)
    have hs : Steady w (showStep n (saveStepData w)) :=
      steady_trans (steady_saveStepData w) (steady_showStep n _)
    unfold nextStep
    rw [hv]
    simp only [Bool.not_true, Bool.false_eq_true, if_false]
    split
    · exact steady_trans hs (steady_speak _ _)
    · split
      · exact steady_trans hs (steady_speak _ _)
      · split
        · exact steady_trans hs
            (steady_trans (steady_generateQueueNumber _) (steady_speak _ _))
        · exact hs

theorem steady_selectDepartment (d : String) (w : World) :
    Steady w (selectDepartment d w) := by
  unfold selectDepartment
  simp only []
  refine steady_trans (steady_trans ?_ (steady_nextStep "confirmation" _)) (steady_speak _ _)
  exact ⟨rfl, fun h => h, fun _ => rfl, fun h => h, fun _ => rfl⟩

theorem steady_resetSession (w : World) : Steady w (resetSession w) :=
  ⟨rfl, fun h => h, fun _ => rfl, fun _ => rfl, fun _ => rfl⟩

theorem steady_goHome (w : World) : Steady w (goHome w) := by
  unfold goHome
  simp only []
  exact steady_trans (steady_trans (steady_showScreen "home" w) (steady_resetSession _))
    (steady_speak _ _)

theorem steady_resetTimeout (w : World) : Steady w (resetTimeout w) := by
  unfold resetTimeout
  simp only []
  refine steady_trans (steady_trans ?_ (steady_resetIdleTimer _)) (steady_speak _ _)
  exact ⟨rfl, fun h => h, fun _ => rfl, fun h => h, fun _ => rfl⟩

theorem steady_closeTimeoutModal (w : World) : Steady w (closeTimeoutModal w) := by
  unfold closeTimeoutModal
  split
  · exact ⟨rfl, fun h => h, fun _ => rfl, fun h => h, fun _ => rfl⟩
  · exact steady_refl w

theorem steady_showTimeoutWarning (w : World) : Steady w (showTimeoutWarning w) := by
  unfold showTimeoutWarning setTimeout
  simp only []
  refine steady_trans (b := speak "30초 후 초기화됩니다. 계속 사용하시려면 화면을 터치해주세요."
    { w with doc := { w.doc with timeoutModalShown := true } }) ?_ ?_
  · exact steady_trans (b := { w with doc := { w.doc with timeoutModalShown := true } })
      ⟨rfl, fun h => h, fun _ => rfl, fun h => h, fun _ => rfl⟩ (steady_speak _ _)
  · exact ⟨rfl, fun h => h, fun _ => rfl, fun h => h, fun _ => rfl⟩

theorem steady_handleSessionTimeout (w : World) : Steady w (handleSessionTimeout w) := by
  rw [handleSessionTimeout_eq]
  exact steady_trans (steady_speak _ w) (steady_goHome _)

theorem steady_setSymptom (i : Nat) (c : Bool) (w : World) : Steady w (setSymptom i c w) := by
  unfold setSymptom
  split
  · exact steady_refl w
  · simp only []
    split
    · exact steady_trans (b := { w with doc := { w.doc with
        symptomInputs := w.doc.symptomInputs.set i _ } })
        ⟨rfl, fun h => h, fun _ => rfl, fun h => h, fun _ => rfl⟩ (steady_speak _ _)
    · exact steady_trans (b := { w with doc := { w.doc with
        symptomInputs := w.doc.symptomInputs.set i _ } })
        ⟨rfl, fun h => h, fun _ => rfl, fun h => h, fun _ => rfl⟩ (steady_speak _ _)

theorem steady_deliverMutations (w : World) : Steady w (deliverMutations w) := by
  rw [deliverMutations_eq]
  exact ⟨rfl, fun h => h, fun _ => rfl, fun h => h, fun _ => rfl⟩

theorem steady_focusFirst (c : Control) (w : World) : Steady w (focusFirst c w) := by
  unfold focusFirst
  split
  · exact steady_refl w
  · rename_i moved rest _
    simp only []
    split
    · exact steady_trans (b := { w with env := { w.env with focusMoves := rest } })
        ⟨rfl, fun h => h, fun _ => rfl, fun h => h, fun _ => rfl⟩ (steady_resetIdleTimer _)
    · exact ⟨rfl, fun h => h, fun _ => rfl, fun h => h, fun _ => rfl⟩

theorem steady_fireTimer (id : Nat) (w : World) : Steady w (fireTimer id w) := by
  unfold fireTimer
  split
  · rename_i t _
    refine steady_trans (b := { w with env := { w.env with
      timers := w.env.timers.filter (fun u => u.id != id) } })
      ⟨rfl, fun h => h, fun _ => rfl, fun h => h, fun _ => rfl⟩ ?_
    refine steady_trans ?_ (steady_deliverMutations _)
    unfold runCallback
    split
    · exact steady_showTimeoutWarning _
    · exact steady_handleSessionTimeout _
    · exact steady_closeTimeoutModal _
    · exact steady_focusFirst _ _
  · exact steady_refl w

theorem steady_perform (a : Action) (w : World) : Steady w (perform a w) := by
  cases a with
  | showScreen n => exact steady_trans (steady_showScreen n w) (steady_deliverMutations _)
  | nextStep n => exact steady_trans (steady_nextStep n w) (steady_deliverMutations _)
  | selectDepartment d =>
    exact steady_trans (steady_selectDepartment d w) (steady_deliverMutations _)
  | goHome => exact steady_trans (steady_goHome w) (steady_deliverMutations _)
  | resetTimeout => exact steady_trans (steady_resetTimeout w) (steady_deliverMutations _)
  | resetIdleTimer => exact steady_trans (steady_resetIdleTimer w) (steady_deliverMutations _)
  | speak t => exact steady_trans (steady_speak t w) (steady_deliverMutations _)
  | setPatientName v => exact ⟨rfl, fun h => h, fun _ => rfl, fun h => h, fun _ => rfl⟩
  | setPatientBirth v => exact ⟨rfl, fun h => h, fun _ => rfl, fun h => h, fun _ => rfl⟩
  | setPatientPhone v => exact ⟨rfl, fun h => h, fun _ => rfl, fun h => h, fun _ => rfl⟩
  | setSymptom i c => exact steady_trans (steady_setSymptom i c w) (steady_deliverMutations _)
  | advance ms => exact ⟨rfl, fun h => h, fun _ => rfl, fun h => h, fun _ => rfl⟩
  | fire id => exact steady_fireTimer id w

theorem steady_run (as : List Action) (w : World) : Steady w (run as w) := by
  induction as generalizing w with
  | nil => exact steady_refl w
  | cons a as ih => exact steady_trans (steady_perform a w) (ih _)

/-! ## The session id after going home -/

theorem resetIdleTimer_requests_without_id (w : World) (h : w.app.sessionData.id = none) :
    (resetIdleTimer w).env.requests = w.env.requests := by
  unfold resetIdleTimer
  simp only [setTimeout, fetch, clearIfSet_app]
  split
  · simp only [clearIfSet_requests]
  · rename_i sid hsid
    have hsid' : w.app.sessionData.id = some sid := hsid
    rw [h] at hsid'
    cases hsid'

/-- C24: `resetSession` leaves `sessionData` empty, the session id included; in the run
that follows a `goHome()`, whatever it does, `sessionData.id` stays absent, no request to
`/api/session/activity/...` is added, and a call of `resetIdleTimer()` sends nothing. -/
theorem no_activity_after_goHome (w : World) (post : List Action) :
    (resetSession w).app.sessionData = SessionData.empty ∧
    (run post (goHome w)).app.sessionData.id = none ∧
    activityRequests (run post (goHome w)) = activityRequests (goHome w) ∧
    (resetIdleTimer (run post (goHome w))).env.requests =
      (run post (goHome w)).env.requests := by
  have hid : (goHome w).app.sessionData.id = none := by
    rw [goHome_sessionData]
    rfl
  have hs := steady_run post (goHome w)
  exact ⟨rfl, hs.sessionId hid, hs.activity hid,
    resetIdleTimer_requests_without_id _ (hs.sessionId hid)⟩

/-! ## Speech synthesis -/

theorem speak_liveRegion (t : String) (w : World) (h : w.app.liveRegion.isSome = true) :
    (speak t w).app.liveRegion = some t := by
  unfold speak announceToScreenReader
  simp only []
  split
  · rename_i hnone
    split at hnone <;> simp_all
  · rfl

/-- What the constructor leaves of the voice flag, the live region and the utterances. -/
theorem construct_voice (doc : Document) (env : Browser) :
    (construct doc env).env.voiceEnabled = env.voiceEnabled ∧
    (construct doc env).app.liveRegion.isSome = true ∧
    (env.voiceEnabled = false → (construct doc env).env.utterances = env.utterances) := by
  unfold construct
  simp only []
  have hr := steady_resetIdleTimer (startSession
    { app :=
        { currentScreen := "home", currentStep := "patient-input",
          sessionData := SessionData.empty, idleTimer := none, warningTimer := none,
          sessionTimeout := 120, warningTime := 30, liveRegion := none }
      doc := doc
      env := env })
  generalize resetIdleTimer (startSession
    { app :=
        { currentScreen := "home", currentStep := "patient-input",
          sessionData := SessionData.empty, idleTimer := none, warningTimer := none,
          sessionTimeout := 120, warningTime := 30, liveRegion := none }
      doc := doc
      env := env }) = w1 at hr ⊢
  have hv : w1.env.voiceEnabled = env.voiceEnabled := hr.voiceEnabled
  have hsp := steady_speak "보건소 키오스크에 오신 것을 환영합니다. 서비스를 선택해주세요."
    { w1 with
      app := { w1.app with liveRegion := some "" }
      doc := { w1.doc with mutations := [] } }
  refine ⟨hsp.voiceEnabled.trans hv, hsp.liveRegion rfl, fun hoff => ?_⟩
  have h1 : w1.env.utterances = env.utterances := hr.utterances hoff
  exact (hsp.utterances (hv.trans hoff)).trans h1

/-- C25: in every state that a run reaches from the constructor, on a page whose global
`accessibility` is an `AccessibilityManager` in any state (voice guidance on or off),
the expression `accessibility.voiceEnabled` is falsy, `KioskApp.speak(text)` writes `text`
to the live region and adds no utterance, and no utterance has been added since the page
was loaded. -/
theorem speak_never_utters (doc : Document) (env : Browser) (pre : List Action) (w : World)
    (hw : w = run pre (construct doc env)) (m : AccessibilityManager)
    (hflag : env.voiceEnabled = m.truthyProperty "voiceEnabled") (text : String) :
    m.truthyProperty "voiceEnabled" = false ∧
    (speak text w).app.liveRegion = some text ∧
    (speak text w).env.utterances = w.env.utterances ∧
    w.env.utterances = env.utterances := by
  have hfalse : m.truthyProperty "voiceEnabled" = false := by
    unfold AccessibilityManager.truthyProperty
    decide
  have hoff : env.voiceEnabled = false := hflag.trans hfalse
  obtain ⟨hc1, hc2, hc3⟩ := construct_voice doc env
  have hs := steady_run pre (construct doc env)
  have hwoff : w.env.voiceEnabled = false := by
    rw [hw, hs.voiceEnabled, hc1, hoff]
  refine ⟨hfalse, ?_, (steady_speak text w).utterances hwoff, ?_⟩
  · apply speak_liveRegion
    rw [hw]
    exact hs.liveRegion hc2
  · rw [hw, hs.utterances (hc1.trans hoff), hc3 hoff]

/-- C25 on the sample page, with voice guidance switched on in the manager. -/
theorem speak_never_utters_witness :
    (speak "진료 접수 화면입니다."
      (run [.showScreen "reception"] (construct samplePage sampleBrowser))).app.liveRegion =
      some "진료 접수 화면입니다." ∧
    (speak "진료 접수 화면입니다."
      (run [.showScreen "reception"] (construct samplePage sampleBrowser))).env.utterances =
      (run [.showScreen "reception"] (construct samplePage sampleBrowser)).env.utterances :=
  ⟨(speak_never_utters samplePage sampleBrowser [.showScreen "reception"] _ rfl
      { settings := AccessibilitySettings.initial } (by decide) "진료 접수 화면입니다.").2.1,
    (speak_never_utters samplePage sampleBrowser [.showScreen "reception"] _ rfl
      { settings := AccessibilitySettings.initial } (by decide) "진료 접수 화면입니다.").2.2.1⟩

end Kiosk
